import Mathlib

/-!
# Landmark geometry helpers of the face-landmarks demo

Shallow embedding of `helpers.js` in its two versions,
`face-landmarks-0.0.3/helpers.js` and `face-landmarks-1.0.6/src/shared/helpers.js`.

Modelling conventions.
* A finite JavaScript number is kept as the rational it denotes; `JsNum` adds the
  three non-finite values (`Infinity`, `-Infinity`, `NaN`). The sign of zero is not
  modelled.
* The arithmetic of `getPolygonArea` and `getFaceDirection` is read twice. The
  first reading is exact: no operation rounds or overflows. The second reading,
  in the namespace `Ieee`, is IEEE 754 binary64: every operation rounds its exact
  result to the nearest double, ties to even, and overflows to an infinity.
  Properties that hold in the first reading only are stated as such.
* An array read past the end yields `undefined`; an array entry is therefore an
  `Option`, with `none` standing for `undefined`.
* A thrown exception is the `error` case of `Except JsError`.
* Mesh-point indices are natural numbers, as in the three index tables.
-/

namespace FaceLandmarks

/-! ## JavaScript values -/

/-- Exceptions raised by the helpers: `typeError` for reading a property of or
destructuring `undefined`, `emptyDetectionResult` for the explicit
`throw new EmptyDetectionResultError()` statement. The class of the second is
declared nowhere in `helpers.js`; all that is used of it here is that the
statement throws. -/
inductive JsError
  | typeError
  | emptyDetectionResult
  deriving DecidableEq

/-- JavaScript number: a finite value or one of `Infinity`, `-Infinity`, `NaN`. -/
inductive JsNum
  | num (q : ℚ)
  | posInf
  | negInf
  | nan
  deriving DecidableEq

namespace JsNum

/-- The JavaScript comparison `a < b`; any comparison with `NaN` is false. -/
def lt : JsNum → JsNum → Bool
  | num a, num b => decide (a < b)
  | num _, posInf => true
  | negInf, num _ => true
  | negInf, posInf => true
  | _, _ => false

/-- The JavaScript comparison `a > b`. -/
def gt (a b : JsNum) : Bool := lt b a

/-- The JavaScript subtraction `a - b`. -/
def sub : JsNum → JsNum → JsNum
  | num a, num b => num (a - b)
  | nan, _ => nan
  | _, nan => nan
  | posInf, posInf => nan
  | negInf, negInf => nan
  | posInf, _ => posInf
  | negInf, _ => negInf
  | num _, posInf => negInf
  | num _, negInf => posInf

/-- The JavaScript division `a / b` of two finite numbers: a zero divisor gives
`Infinity`, `-Infinity` or `NaN` according to the sign of the dividend. -/
def divQ (a b : ℚ) : JsNum :=
  if b = 0 then
    if 0 < a then posInf else if a < 0 then negInf else nan
  else num (a / b)

/-- One step of `Math.max`: `NaN` is absorbing, otherwise the larger operand. -/
def max2 : JsNum → JsNum → JsNum
  | nan, _ => nan
  | _, nan => nan
  | a, b => if lt a b then b else a

/-- One step of `Math.min`: `NaN` is absorbing, otherwise the smaller operand. -/
def min2 : JsNum → JsNum → JsNum
  | nan, _ => nan
  | _, nan => nan
  | a, b => if lt b a then b else a

end JsNum

/-- The coercion `ToNumber` on a value that is a number or `undefined`:
`undefined` becomes `NaN`. -/
def toNumber : Option ℚ → JsNum
  | some q => JsNum.num q
  | none => JsNum.nan

/-- The call `Math.max(...args)`: `-Infinity` for no argument, `NaN` as soon as
one argument coerces to `NaN`, otherwise the largest argument. -/
def mathMax (args : List (Option ℚ)) : JsNum :=
  (args.map toNumber).foldl JsNum.max2 JsNum.negInf

/-- The call `Math.min(...args)`: `Infinity` for no argument, `NaN` as soon as
one argument coerces to `NaN`, otherwise the smallest argument. -/
def mathMin (args : List (Option ℚ)) : JsNum :=
  (args.map toNumber).foldl JsNum.min2 JsNum.posInf

/-- The loop of `Array.prototype.reduce` from index `id` on: the callback gets
the accumulator, the current element and its index, and may throw. -/
def reduceFrom {α β : Type} (f : β → α → Nat → Except JsError β) :
    List α → Nat → β → Except JsError β
  | [], _, acc => Except.ok acc
  | a :: as, id, acc =>
    match f acc a id with
    | Except.ok acc2 => reduceFrom f as (id + 1) acc2
    | Except.error e => Except.error e

/-- The call `xs.reduce(f, init)`. -/
def reduce {α β : Type} (f : β → α → Nat → Except JsError β) (xs : List α) (init : β) :
    Except JsError β :=
  reduceFrom f xs 0 init

/-- The array read `xs[i]` on an array whose entries may be `undefined`. -/
def arrayRead {P : Type} (xs : List (Option P)) (i : Nat) : Option P :=
  xs.getD i none

/-! ## Constants shared by both versions -/

def RIGHT_NOSE : List Nat :=
  [6, 197, 195, 5, 4, 1, 274, 457, 438, 344, 360, 420, 437, 343, 412, 351]

def LEFT_NOSE : List Nat :=
  [6, 197, 195, 5, 4, 1, 44, 237, 218, 115, 131, 198, 217, 114, 188, 122]

def SILHOUETTE : List Nat :=
  [10, 338, 297, 332, 284, 251, 389, 356, 454, 323, 361, 288, 397, 365, 379, 378,
   400, 377, 152, 148, 176, 140, 150, 136, 172, 58, 132, 93, 234, 127, 162, 21,
   54, 103, 67, 109]

def MAX_MESH_POINT : Nat := 468

/-- The three values of `FACE_DIRECTION`. -/
inductive Direction
  | center
  | left
  | right
  deriving DecidableEq

/-- The record `{ left, top, right, bottom, width, height }`. -/
structure Box where
  left : JsNum
  top : JsNum
  right : JsNum
  bottom : JsNum
  width : JsNum
  height : JsNum
  deriving DecidableEq

/-- The record `{ leftNoseArea, rightNoseArea, leftToRightRatio, direction }`. -/
structure FaceDirectionResult where
  leftNoseArea : ℚ
  rightNoseArea : ℚ
  leftToRightRatio : JsNum
  direction : Direction
  deriving DecidableEq

/-! ## Function bodies shared by both versions

The two files differ in the shape of a point, in the field holding the points
and in the guard of `getSelectedScaledMesh`. The bodies below are the common
text, with the point shape as a parameter. -/

/-- The success branch of `getSelectedScaledMesh` on the point array of the
detection (`scaledMesh` in 0.0.3, `keypoints` in 1.0.6): drop the indices that
are not below `MAX_MESH_POINT`, then read the array at each remaining index. -/
def selectMeshPoints {P : Type} (points : List P) (meshPointIdx : List Nat) :
    List (Option P) :=
  let filteredIdx := meshPointIdx.filter (fun n => n < MAX_MESH_POINT)
  filteredIdx.map (fun idx => points[idx]?)

/-- The arrow function passed to `reduce` in `getPolygonArea`, in exact
arithmetic (`Ieee.areaCallback` is its reading in double arithmetic).
`destructure` is the pattern applied to a point (`[currX, currY]` in 0.0.3,
`{ x, y }` in 1.0.6); it throws on `undefined`. -/
def areaCallback {P : Type} (destructure : Option P → Except JsError (ℚ × ℚ))
    (polygon : List (Option P)) (sum : ℚ) (currentPoint : Option P) (id : Nat) :
    Except JsError ℚ :=
  match destructure currentPoint with
  | Except.error e => Except.error e
  | Except.ok (currX, currY) =>
    let nextPoint :=
      if id = polygon.length - 1 then arrayRead polygon 0 else arrayRead polygon (id + 1)
    match destructure nextPoint with
    | Except.error e => Except.error e
    | Except.ok (nextX, nextY) =>
      let determinant := (currX * nextY - currY * nextX) / 2
      Except.ok (sum + determinant)

/-- Body of `getPolygonArea` in exact arithmetic: the reduction from 0, then
`Math.abs`. -/
def getPolygonAreaWith {P : Type} (destructure : Option P → Except JsError (ℚ × ℚ))
    (polygon : List (Option P)) : Except JsError ℚ :=
  match reduce (areaCallback destructure polygon) polygon 0 with
  | Except.ok area => Except.ok |area|
  | Except.error e => Except.error e

/-- The arrow function passed to `reduce` in `getAdjustedFaceBox`: it appends
`coord[0]` to `obj.x` and `coord[1]` to `obj.y`. `elem coord i` is the element
read `coord[i]` on a point; on `undefined` the read throws. -/
def boxCallback {P : Type} (elem : P → Nat → Option ℚ)
    (obj : List (Option ℚ) × List (Option ℚ)) (coord : Option P) (_ : Nat) :
    Except JsError (List (Option ℚ) × List (Option ℚ)) :=
  match coord with
  | none => Except.error JsError.typeError
  | some c => Except.ok (obj.1 ++ [elem c 0], obj.2 ++ [elem c 1])

/-- Body of `getAdjustedFaceBox` after the selection of the `SILHOUETTE` points:
the reduction that collects the coordinates, then the six fields. -/
def adjustedFaceBoxOf {P : Type} (elem : P → Nat → Option ℚ)
    (selected : List (Option P)) : Except JsError Box :=
  match reduce (boxCallback elem) selected ([], []) with
  | Except.error e => Except.error e
  | Except.ok coords =>
    let right := mathMax coords.1
    let left := mathMin coords.1
    let bottom := mathMax coords.2
    let top := mathMin coords.2
    let width := JsNum.sub right left
    let height := JsNum.sub bottom top
    Except.ok { left := left, top := top, right := right, bottom := bottom,
                width := width, height := height }

/-- The classification step of `getFaceDirection` (the nested conditional that
computes `direction`), with the quotient `1 / factor` exact
(`Ieee.classifyDirection` rounds it). -/
def classifyDirection (leftToRightRatio : JsNum) (factor : ℚ) : Direction :=
  if JsNum.lt leftToRightRatio (JsNum.num factor) then
    if JsNum.gt leftToRightRatio (JsNum.divQ 1 factor) then Direction.center
    else Direction.right
  else Direction.left

/-- Body of `getFaceDirection` in exact arithmetic once the two nose selections
are given, each possibly a thrown exception. The left area is computed first. -/
def faceDirectionOf {P : Type} (area : List (Option P) → Except JsError ℚ)
    (leftSel rightSel : Except JsError (List (Option P))) (factor : ℚ) :
    Except JsError FaceDirectionResult :=
  match leftSel with
  | Except.error e => Except.error e
  | Except.ok leftPts =>
    match area leftPts with
    | Except.error e => Except.error e
    | Except.ok leftNoseArea =>
      match rightSel with
      | Except.error e => Except.error e
      | Except.ok rightPts =>
        match area rightPts with
        | Except.error e => Except.error e
        | Except.ok rightNoseArea =>
          let leftToRightRatio := JsNum.divQ leftNoseArea rightNoseArea
          let direction := classifyDirection leftToRightRatio factor
          Except.ok { leftNoseArea := leftNoseArea, rightNoseArea := rightNoseArea,
                      leftToRightRatio := leftToRightRatio, direction := direction }

/-! ## Version 0.0.3: points are arrays `[x, y, z]` under `scaledMesh` -/

namespace V003

/-- A mesh point `[x, y, z]`; the third entry is read nowhere and is left out. -/
structure Coords where
  x : ℚ
  y : ℚ
  deriving DecidableEq

/-- The element read `coord[i]` on a mesh point, for the indices 0 and 1. -/
def Coords.elem (c : Coords) : Nat → Option ℚ
  | 0 => some c.x
  | 1 => some c.y
  | _ => none

/-- The pattern `const [a, b] = point`: throws on `undefined`. -/
def destructure : Option Coords → Except JsError (ℚ × ℚ)
  | some c => Except.ok (c.x, c.y)
  | none => Except.error JsError.typeError

/-- A detection result, as far as the helpers read it: the `kind` tag and the
`scaledMesh` array, which may be missing. -/
structure Prediction where
  kind : String
  scaledMesh : Option (List Coords)

/-- `getSelectedScaledMesh(prediction, meshPointIdx)`, helpers.js lines 17-28.
An absent prediction makes the read `prediction.kind` throw. -/
def getSelectedScaledMesh (prediction : Option Prediction) (meshPointIdx : List Nat) :
    Except JsError (List (Option Coords)) :=
  match prediction with
  | none => Except.error JsError.typeError
  | some p =>
    match p.scaledMesh with
    | none => Except.error JsError.emptyDetectionResult
    | some scaledMesh =>
      if p.kind = "MediaPipePredictionValues" ∧ scaledMesh.length > 0 then
        Except.ok (selectMeshPoints scaledMesh meshPointIdx)
      else Except.error JsError.emptyDetectionResult

/-- `getAdjustedFaceBox(prediction, videoOnCanvasSizing)`, helpers.js lines 30-46;
the second parameter is unused by the body and is left out. -/
def getAdjustedFaceBox (prediction : Option Prediction) : Except JsError Box :=
  match getSelectedScaledMesh prediction SILHOUETTE with
  | Except.error e => Except.error e
  | Except.ok selected => adjustedFaceBoxOf Coords.elem selected

/-- `getPolygonArea(polygon)`, helpers.js lines 51-60. -/
def getPolygonArea (polygon : List (Option Coords)) : Except JsError ℚ :=
  getPolygonAreaWith destructure polygon

/-- `getFaceDirection(prediction, factor)`, helpers.js lines 68-86; the source
gives `factor` the default 3. -/
def getFaceDirection (prediction : Option Prediction) (factor : ℚ) :
    Except JsError FaceDirectionResult :=
  faceDirectionOf getPolygonArea (getSelectedScaledMesh prediction LEFT_NOSE)
    (getSelectedScaledMesh prediction RIGHT_NOSE) factor

end V003

/-! ## Version 1.0.6: points are records `{ x, y, z, name }` under `keypoints` -/

namespace V106

/-- A keypoint record; only the fields `x` and `y` are read. -/
structure Keypoint where
  x : ℚ
  y : ℚ
  deriving DecidableEq

/-- The element read `coord[i]` on a keypoint record: the record has no
numbered property, so the read gives `undefined`. -/
def Keypoint.elem (_ : Keypoint) (_ : Nat) : Option ℚ := none

/-- The pattern `const { x: a, y: b } = point`: throws on `undefined`. -/
def destructure : Option Keypoint → Except JsError (ℚ × ℚ)
  | some c => Except.ok (c.x, c.y)
  | none => Except.error JsError.typeError

/-- A detected face, as far as the helpers read it: the `keypoints` array,
which may be missing. -/
structure Face where
  keypoints : Option (List Keypoint)

/-- `getSelectedScaledMesh(prediction, meshPointIdx)`, helpers.js lines 17-27. -/
def getSelectedScaledMesh (prediction : Option Face) (meshPointIdx : List Nat) :
    Except JsError (List (Option Keypoint)) :=
  match prediction with
  | none => Except.ok []
  | some p =>
    match p.keypoints with
    | none => Except.error JsError.emptyDetectionResult
    | some keypoints =>
      if keypoints.length > 0 then
        Except.ok (selectMeshPoints keypoints meshPointIdx)
      else Except.error JsError.emptyDetectionResult

/-- `getAdjustedFaceBox(prediction, videoOnCanvasSizing)`, helpers.js lines 29-45;
the second parameter is unused by the body and is left out. -/
def getAdjustedFaceBox (prediction : Option Face) : Except JsError Box :=
  match getSelectedScaledMesh prediction SILHOUETTE with
  | Except.error e => Except.error e
  | Except.ok selected => adjustedFaceBoxOf Keypoint.elem selected

/-- `getPolygonArea(polygon)`, helpers.js lines 47-56. -/
def getPolygonArea (polygon : List (Option Keypoint)) : Except JsError ℚ :=
  getPolygonAreaWith destructure polygon

/-- `getFaceDirection(prediction, factor)`, helpers.js lines 64-82; the source
gives `factor` the default 3. -/
def getFaceDirection (prediction : Option Face) (factor : ℚ) :
    Except JsError FaceDirectionResult :=
  faceDirectionOf getPolygonArea (getSelectedScaledMesh prediction LEFT_NOSE)
    (getSelectedScaledMesh prediction RIGHT_NOSE) factor

end V106

/-! ## Double arithmetic

The definitions above read the arithmetic of the source over the exact
rationals. The definitions of this section read `getPolygonArea` and
`getFaceDirection` over IEEE 754 binary64 numbers, the numbers of JavaScript:
every operation rounds its exact result to the nearest double, ties to even, and
overflows to an infinity. A finite double is kept as the rational it denotes;
the sign of zero is not modelled. The selection of the mesh points involves no
arithmetic and is shared with the exact reading. -/

namespace Ieee

/-- Rounding of a rational to an integer, ties to the even integer. -/
def roundHalfEven (x : ℚ) : ℤ :=
  if x - ⌊x⌋ < 1 / 2 then ⌊x⌋
  else if 1 / 2 < x - ⌊x⌋ then ⌊x⌋ + 1
  else if ⌊x⌋ % 2 = 0 then ⌊x⌋ else ⌊x⌋ + 1

/-- The binary64 number nearest to `q`, ties to even. The exponent of `q` is
`Int.log 2 |q|`, raised to the least normal exponent -1022 for a subnormal `q`;
the spacing of the doubles around `q` is `2 ^ (exponent - 52)`; a rounded
magnitude of `2 ^ 1024` or more is an infinity. -/
def roundDouble (q : ℚ) : JsNum :=
  if q = 0 then JsNum.num 0
  else
    let spacing : ℚ := 2 ^ (max (Int.log 2 |q|) (-1022) - 52)
    let r : ℚ := roundHalfEven (q / spacing) * spacing
    if (2 : ℚ) ^ (1024 : ℕ) ≤ |r| then (if 0 < q then JsNum.posInf else JsNum.negInf)
    else JsNum.num r

/-- The rationals that are binary64 numbers: an integer significand below
`2 ^ 53` in magnitude times a power of two no smaller than `2 ^ (-1074)`, the
whole below `2 ^ 1024` in magnitude. -/
def IsDouble (r : ℚ) : Prop :=
  ∃ n k : ℤ, |n| < 2 ^ 53 ∧ -1074 ≤ k ∧ r = n * 2 ^ k ∧ |r| < 2 ^ (1024 : ℕ)

/-- The JavaScript sum `a + b` of two numbers. -/
def add : JsNum → JsNum → JsNum
  | JsNum.num a, JsNum.num b => roundDouble (a + b)
  | JsNum.nan, _ => JsNum.nan
  | _, JsNum.nan => JsNum.nan
  | JsNum.posInf, JsNum.negInf => JsNum.nan
  | JsNum.negInf, JsNum.posInf => JsNum.nan
  | JsNum.posInf, _ => JsNum.posInf
  | JsNum.negInf, _ => JsNum.negInf
  | JsNum.num _, JsNum.posInf => JsNum.posInf
  | JsNum.num _, JsNum.negInf => JsNum.negInf

/-- The JavaScript difference `a - b` of two numbers. -/
def sub : JsNum → JsNum → JsNum
  | JsNum.num a, JsNum.num b => roundDouble (a - b)
  | JsNum.nan, _ => JsNum.nan
  | _, JsNum.nan => JsNum.nan
  | JsNum.posInf, JsNum.posInf => JsNum.nan
  | JsNum.negInf, JsNum.negInf => JsNum.nan
  | JsNum.posInf, _ => JsNum.posInf
  | JsNum.negInf, _ => JsNum.negInf
  | JsNum.num _, JsNum.posInf => JsNum.negInf
  | JsNum.num _, JsNum.negInf => JsNum.posInf

/-- The product of an infinity of sign `positive` by the finite number `b`. -/
def infTimes (positive : Bool) (b : ℚ) : JsNum :=
  if b = 0 then JsNum.nan
  else if (0 < b) = positive then JsNum.posInf else JsNum.negInf

/-- The JavaScript product `a * b` of two numbers. -/
def mul : JsNum → JsNum → JsNum
  | JsNum.num a, JsNum.num b => roundDouble (a * b)
  | JsNum.nan, _ => JsNum.nan
  | _, JsNum.nan => JsNum.nan
  | JsNum.posInf, JsNum.posInf => JsNum.posInf
  | JsNum.negInf, JsNum.negInf => JsNum.posInf
  | JsNum.posInf, JsNum.negInf => JsNum.negInf
  | JsNum.negInf, JsNum.posInf => JsNum.negInf
  | JsNum.posInf, JsNum.num b => infTimes true b
  | JsNum.negInf, JsNum.num b => infTimes false b
  | JsNum.num a, JsNum.posInf => infTimes true a
  | JsNum.num a, JsNum.negInf => infTimes false a

/-- The JavaScript quotient `a / b` of two numbers; a zero divisor counts as
the positive zero. -/
def div : JsNum → JsNum → JsNum
  | JsNum.num a, JsNum.num b =>
    if b = 0 then
      if 0 < a then JsNum.posInf else if a < 0 then JsNum.negInf else JsNum.nan
    else roundDouble (a / b)
  | JsNum.nan, _ => JsNum.nan
  | _, JsNum.nan => JsNum.nan
  | JsNum.num _, _ => JsNum.num 0
  | JsNum.posInf, JsNum.num b => if 0 ≤ b then JsNum.posInf else JsNum.negInf
  | JsNum.negInf, JsNum.num b => if 0 ≤ b then JsNum.negInf else JsNum.posInf
  | _, _ => JsNum.nan

/-- The call `Math.abs(a)`. -/
def abs : JsNum → JsNum
  | JsNum.num a => JsNum.num |a|
  | JsNum.nan => JsNum.nan
  | _ => JsNum.posInf

/-- The JavaScript comparison `a <= b`; any comparison with `NaN` is false. -/
def le : JsNum → JsNum → Bool
  | JsNum.num a, JsNum.num b => decide (a ≤ b)
  | JsNum.nan, _ => false
  | _, JsNum.nan => false
  | JsNum.negInf, _ => true
  | _, JsNum.posInf => true
  | _, _ => false

/-- The values a JavaScript number can take: a finite double, an infinity or
`NaN`. -/
def IsValue : JsNum → Prop
  | JsNum.num r => IsDouble r
  | _ => True

/-- The record `{ leftNoseArea, rightNoseArea, leftToRightRatio, direction }`
with its three numbers as JavaScript numbers. -/
structure FaceDirectionResult where
  leftNoseArea : JsNum
  rightNoseArea : JsNum
  leftToRightRatio : JsNum
  direction : Direction

/-- The arrow function passed to `reduce` in `getPolygonArea`, in double
arithmetic: `(currX * nextY - currY * nextX) / 2` is two products, a difference
and a quotient, each rounded, and `sum + determinant` is a rounded sum. -/
def areaCallback {P : Type} (destructure : Option P → Except JsError (ℚ × ℚ))
    (polygon : List (Option P)) (sum : JsNum) (currentPoint : Option P) (id : Nat) :
    Except JsError JsNum :=
  match destructure currentPoint with
  | Except.error e => Except.error e
  | Except.ok (currX, currY) =>
    let nextPoint :=
      if id = polygon.length - 1 then arrayRead polygon 0 else arrayRead polygon (id + 1)
    match destructure nextPoint with
    | Except.error e => Except.error e
    | Except.ok (nextX, nextY) =>
      let determinant :=
        div (sub (mul (JsNum.num currX) (JsNum.num nextY))
          (mul (JsNum.num currY) (JsNum.num nextX))) (JsNum.num 2)
      Except.ok (add sum determinant)

/-- Body of `getPolygonArea` in double arithmetic: the reduction from 0, then
`Math.abs`. -/
def getPolygonAreaWith {P : Type} (destructure : Option P → Except JsError (ℚ × ℚ))
    (polygon : List (Option P)) : Except JsError JsNum :=
  match reduce (areaCallback destructure polygon) polygon (JsNum.num 0) with
  | Except.ok area => Except.ok (abs area)
  | Except.error e => Except.error e

/-- The classification step of `getFaceDirection` in double arithmetic: the
ratio is compared with `factor` and with the rounded quotient `1 / factor`. -/
def classifyDirection (leftToRightRatio : JsNum) (factor : ℚ) : Direction :=
  if JsNum.lt leftToRightRatio (JsNum.num factor) then
    if JsNum.gt leftToRightRatio (div (JsNum.num 1) (JsNum.num factor)) then Direction.center
    else Direction.right
  else Direction.left

/-- Body of `getFaceDirection` in double arithmetic, once the two nose
selections are given, each possibly a thrown exception. -/
def faceDirectionOf {P : Type} (area : List (Option P) → Except JsError JsNum)
    (leftSel rightSel : Except JsError (List (Option P))) (factor : ℚ) :
    Except JsError FaceDirectionResult :=
  match leftSel with
  | Except.error e => Except.error e
  | Except.ok leftPts =>
    match area leftPts with
    | Except.error e => Except.error e
    | Except.ok leftNoseArea =>
      match rightSel with
      | Except.error e => Except.error e
      | Except.ok rightPts =>
        match area rightPts with
        | Except.error e => Except.error e
        | Except.ok rightNoseArea =>
          let leftToRightRatio := div leftNoseArea rightNoseArea
          let direction := classifyDirection leftToRightRatio factor
          Except.ok { leftNoseArea := leftNoseArea, rightNoseArea := rightNoseArea,
                      leftToRightRatio := leftToRightRatio, direction := direction }

namespace V003

/-- `getPolygonArea(polygon)` of 0.0.3 in double arithmetic. -/
def getPolygonArea (polygon : List (Option FaceLandmarks.V003.Coords)) :
    Except JsError JsNum :=
  getPolygonAreaWith FaceLandmarks.V003.destructure polygon

/-- `getFaceDirection(prediction, factor)` of 0.0.3 in double arithmetic. -/
def getFaceDirection (prediction : Option FaceLandmarks.V003.Prediction) (factor : ℚ) :
    Except JsError FaceDirectionResult :=
  faceDirectionOf getPolygonArea
    (FaceLandmarks.V003.getSelectedScaledMesh prediction LEFT_NOSE)
    (FaceLandmarks.V003.getSelectedScaledMesh prediction RIGHT_NOSE) factor

end V003

namespace V106

/-- `getPolygonArea(polygon)` of 1.0.6 in double arithmetic. -/
def getPolygonArea (polygon : List (Option FaceLandmarks.V106.Keypoint)) :
    Except JsError JsNum :=
  getPolygonAreaWith FaceLandmarks.V106.destructure polygon

/-- `getFaceDirection(prediction, factor)` of 1.0.6 in double arithmetic. -/
def getFaceDirection (prediction : Option FaceLandmarks.V106.Face) (factor : ℚ) :
    Except JsError FaceDirectionResult :=
  faceDirectionOf getPolygonArea
    (FaceLandmarks.V106.getSelectedScaledMesh prediction LEFT_NOSE)
    (FaceLandmarks.V106.getSelectedScaledMesh prediction RIGHT_NOSE) factor

end V106

end Ieee

/-! ## Specification-side definitions

The definitions below are not translated from the source. They state, in the
words of the specification, what the functions are expected to compute, and name
the sample inputs used further down. -/

/-- The term `x_a * y_b - y_a * x_b` of the shoelace formula. -/
def cross (a b : ℚ × ℚ) : ℚ := a.1 * b.2 - a.2 * b.1

/-- The sum of the shoelace terms along the consecutive pairs of an open path. -/
def pathSum : List (ℚ × ℚ) → ℚ
  | [] => 0
  | [_] => 0
  | a :: b :: t => cross a b + pathSum (b :: t)

/-- A path followed by a repeat of its first point. -/
def closePath : List (ℚ × ℚ) → List (ℚ × ℚ)
  | [] => []
  | a :: t => a :: t ++ [a]

/-- The shoelace area of the closed polygon on the given points. -/
def shoelaceArea (L : List (ℚ × ℚ)) : ℚ := |pathSum (closePath L)| / 2

/-- The sum of the specification of `getPolygonArea`, for N = `p.length` ≥ 1:
`Σ_{i=0}^{N-1} (x_i * y_((i+1) mod N) - y_i * x_((i+1) mod N))`. Every index it
reads is in range. -/
def shoelaceSum {P : Type} (px py : P → ℚ) (p : List P) (h : 0 < p.length) : ℚ :=
  ∑ i : Fin p.length,
    (px (p.get i) * py (p.get ⟨(i.val + 1) % p.length, Nat.mod_lt _ h⟩)
      - py (p.get i) * px (p.get ⟨(i.val + 1) % p.length, Nat.mod_lt _ h⟩))

/-- The points of `points` at the indices `idx`, in the order of `idx`; an index
with no point is skipped. -/
def pointsAt {P : Type} (points : List P) (idx : List Nat) : List P :=
  idx.filterMap (fun i => points[i]?)

/-- What the specification says of the record returned by `getFaceDirection`
when the areas are `l` and `r`: the ratio is `l / r`, the direction is center
iff `1/factor < ratio < factor`, left iff `ratio ≥ factor`, right iff
`ratio ≤ 1/factor`, and exactly one of the three conditions holds. -/
def FaceDirectionSpec (res : FaceDirectionResult) (l r factor : ℚ) : Prop :=
  res.leftNoseArea = l ∧ res.rightNoseArea = r
  ∧ res.leftToRightRatio = JsNum.num (l / r)
  ∧ (res.direction = Direction.center ↔ 1 / factor < l / r ∧ l / r < factor)
  ∧ (res.direction = Direction.left ↔ factor ≤ l / r)
  ∧ (res.direction = Direction.right ↔ l / r ≤ 1 / factor)
  ∧ ((1 / factor < l / r ∧ l / r < factor) ∧ ¬ factor ≤ l / r ∧ ¬ l / r ≤ 1 / factor
      ∨ ¬ (1 / factor < l / r ∧ l / r < factor) ∧ factor ≤ l / r ∧ ¬ l / r ≤ 1 / factor
      ∨ ¬ (1 / factor < l / r ∧ l / r < factor) ∧ ¬ factor ≤ l / r ∧ l / r ≤ 1 / factor)

/-- What the specification says of the sequence `sel` selected from the point
array `mesh` by the indices `idx`: entry by entry and in the order given, the
array entries at the indices below 468 (an entry is `undefined` when the array
has no point there), as many as there are indices below 468, all of them points
when the array holds at least 468 points. -/
def SelectsEntries {P : Type} (mesh : List P) (idx : List Nat) (sel : List (Option P)) :
    Prop :=
  sel = (idx.filter (fun n => n < 468)).map (fun i => mesh[i]?)
  ∧ sel.length = idx.countP (fun n => n < 468)
  ∧ (468 ≤ mesh.length → ∀ e ∈ sel, ∃ c, e = some c)

/-- The empty detections of 0.0.3: the detection is absent, its kind is not
`MediaPipePredictionValues`, or its `scaledMesh` is missing or of length 0. -/
def V003.EmptyDetection (pred : Option V003.Prediction) : Prop :=
  pred = none
  ∨ ∃ p, pred = some p
      ∧ (p.kind ≠ "MediaPipePredictionValues" ∨ p.scaledMesh = none ∨ p.scaledMesh = some [])

/-- The number of points of a 0.0.3 detection, 0 when there is no point array. -/
def V003.meshLength : Option V003.Prediction → Nat
  | none => 0
  | some p =>
    match p.scaledMesh with
    | none => 0
    | some mesh => mesh.length

/-- Sample input: corner `i mod 4` of the square (0,0),(10,0),(10,10),(0,10). -/
def cornerOf (i : Nat) : V003.Coords :=
  if i % 4 = 0 then ⟨0, 0⟩ else if i % 4 = 1 then ⟨10, 0⟩
  else if i % 4 = 2 then ⟨10, 10⟩ else ⟨0, 10⟩

/-- Sample input: a 0.0.3 mesh of 468 points, point `i` on corner `i mod 4`. -/
def cornerMesh : List V003.Coords := (List.range 468).map cornerOf

/-- Sample input: the coordinates of `cornerMesh` as 1.0.6 keypoint records. -/
def cornerKeypoints : List V106.Keypoint :=
  (List.range 468).map (fun i => ⟨(cornerOf i).x, (cornerOf i).y⟩)

/-- Sample input: a 0.0.3 mesh of 468 points, point `i` at `(i mod 2, i mod 3)`. -/
def stripedMesh : List V003.Coords :=
  (List.range 468).map (fun i => ⟨((i % 2 : Nat) : ℚ), ((i % 3 : Nat) : ℚ)⟩)

/-- Sample input: a 0.0.3 mesh of 468 points, all at the origin but the points of
index 44 and 237, which only `LEFT_NOSE` selects. -/
def leftOnlyMesh : List V003.Coords :=
  (List.range 468).map
    (fun i => if i = 44 then ⟨1, 0⟩ else if i = 237 then ⟨0, 1⟩ else ⟨0, 0⟩)

/-! ## Specification-side definitions in double arithmetic

The definitions below are not translated from the source either: they name the
intermediate values of `getPolygonArea` in double arithmetic, state the
conditions of the specification as JavaScript evaluates them, and name the
sample inputs used further down. -/

namespace Ieee

/-- One rounded determinant `(x_a * y_b - y_a * x_b) / 2`. -/
def det (a b : ℚ × ℚ) : JsNum :=
  div (sub (mul (JsNum.num a.1) (JsNum.num b.2)) (mul (JsNum.num a.2) (JsNum.num b.1)))
    (JsNum.num 2)

/-- The rounded determinants of the consecutive pairs of a path, added to `acc`
one after the other from the left. -/
def sumPath : JsNum → List (ℚ × ℚ) → JsNum
  | acc, [] => acc
  | acc, [_] => acc
  | acc, a :: b :: t => sumPath (add acc (det a b)) (b :: t)

/-- The condition `1 / factor < ratio < factor` as JavaScript evaluates it:
the quotient `1 / factor` is rounded and a comparison with `NaN` is false. -/
def CenterCond (ratio : JsNum) (factor : ℚ) : Prop :=
  JsNum.lt (div (JsNum.num 1) (JsNum.num factor)) ratio = true
    ∧ JsNum.lt ratio (JsNum.num factor) = true

/-- The condition `ratio >= factor` as JavaScript evaluates it. -/
def LeftCond (ratio : JsNum) (factor : ℚ) : Prop :=
  le (JsNum.num factor) ratio = true

/-- The condition `ratio <= 1 / factor` as JavaScript evaluates it. -/
def RightCond (ratio : JsNum) (factor : ℚ) : Prop :=
  le ratio (div (JsNum.num 1) (JsNum.num factor)) = true

/-- What the claim on `getFaceDirection` says of the returned record, read in
double arithmetic, when the two areas are `l` and `r`: the ratio is the quotient
`l / r`, the direction is center iff `1 / factor < ratio < factor`, left iff
`ratio >= factor`, right iff `ratio <= 1 / factor`, and exactly one of the three
conditions holds. -/
def FaceDirectionSpec (res : FaceDirectionResult) (l r : JsNum) (factor : ℚ) : Prop :=
  res.leftNoseArea = l ∧ res.rightNoseArea = r
  ∧ res.leftToRightRatio = div l r
  ∧ (res.direction = Direction.center ↔ CenterCond (div l r) factor)
  ∧ (res.direction = Direction.left ↔ LeftCond (div l r) factor)
  ∧ (res.direction = Direction.right ↔ RightCond (div l r) factor)
  ∧ (CenterCond (div l r) factor ∧ ¬ LeftCond (div l r) factor
        ∧ ¬ RightCond (div l r) factor
      ∨ ¬ CenterCond (div l r) factor ∧ LeftCond (div l r) factor
        ∧ ¬ RightCond (div l r) factor
      ∨ ¬ CenterCond (div l r) factor ∧ ¬ LeftCond (div l r) factor
        ∧ RightCond (div l r) factor)

/-- Sample input: the double `2 ^ 600`, whose square overflows. -/
def huge : ℚ := 2 ^ 600

/-- Sample input: a 0.0.3 mesh of 468 points, all at the origin but the point of
index 6 at `(2 ^ 600, 0)` and the point of index 197 at `(0, 2 ^ 600)`, the first
two points of both nose selections. -/
def overflowMesh : List FaceLandmarks.V003.Coords :=
  (List.range 468).map
    (fun i => if i = 6 then ⟨huge, 0⟩ else if i = 197 then ⟨0, huge⟩ else ⟨0, 0⟩)

/-- Sample input: a 0.0.3 mesh of 468 points, all at the origin but the points of
index 44 and 237, which only `LEFT_NOSE` selects, and the points of index 274 and
457, which only `RIGHT_NOSE` selects. -/
def noseMesh : List FaceLandmarks.V003.Coords :=
  (List.range 468).map
    (fun i => if i = 44 then ⟨1, 0⟩ else if i = 237 then ⟨0, 1⟩
      else if i = 274 then ⟨2, 0⟩ else if i = 457 then ⟨0, 1⟩ else ⟨0, 0⟩)

/-- A JavaScript number that is not negative: `NaN` is not, `Infinity` is. -/
def NonNegative (v : JsNum) : Prop := le (JsNum.num 0) v = true

/-- Sample input: the quadrilateral `(2 ^ 54, 0), (0, 1), (-2, 1), (-2, 0)` as
0.0.3 points; every coordinate is a double and the exact area is `2 ^ 53 + 2`. -/
def roundingPolygon : List FaceLandmarks.V003.Coords :=
  [⟨18014398509481984, 0⟩, ⟨0, 1⟩, ⟨-2, 1⟩, ⟨-2, 0⟩]

/-- Sample input: the points of `roundingPolygon` as 1.0.6 keypoint records. -/
def roundingKeypoints : List FaceLandmarks.V106.Keypoint :=
  [⟨18014398509481984, 0⟩, ⟨0, 1⟩, ⟨-2, 1⟩, ⟨-2, 0⟩]

end Ieee

/-- The pair of rationals with the integer coordinates `c`. -/
def intPair (c : ℤ × ℤ) : ℚ × ℚ := ((c.1 : ℚ), (c.2 : ℚ))

/-- The 0.0.3 point with the integer coordinates `c`. -/
def V003.intPoint (c : ℤ × ℤ) : V003.Coords := ⟨(c.1 : ℚ), (c.2 : ℚ)⟩

/-- The 1.0.6 keypoint record with the integer coordinates `c`. -/
def V106.intPoint (c : ℤ × ℤ) : V106.Keypoint := ⟨(c.1 : ℚ), (c.2 : ℚ)⟩

/-! ## The shoelace sum -/

theorem cross_antisymm (a b : ℚ × ℚ) : cross a b = - cross b a := by
  unfold cross; ring

theorem cross_self (a : ℚ × ℚ) : cross a a = 0 := by
  unfold cross; ring

theorem pathSum_append_singleton (l : List (ℚ × ℚ)) (hl : l ≠ []) (z : ℚ × ℚ) :
    pathSum (l ++ [z]) = pathSum l + cross (l.getLast hl) z := by
  induction l with
  | nil => exact absurd rfl hl
  | cons a t ih =>
    cases t with
    | nil => simp [pathSum]
    | cons b u =>
      have h1 := ih (by simp)
      have h2 : pathSum (a :: b :: u ++ [z]) = cross a b + pathSum (b :: u ++ [z]) := rfl
      rw [h2, h1]
      simp [List.getLast_cons, pathSum, add_assoc]

theorem pathSum_reverse (l : List (ℚ × ℚ)) : pathSum l.reverse = - pathSum l := by
  induction l with
  | nil => simp [pathSum]
  | cons a t ih =>
    cases t with
    | nil => simp [pathSum]
    | cons b u =>
      rw [List.reverse_cons, pathSum_append_singleton _ (by simp), ih]
      simp only [pathSum]
      rw [cross_antisymm a b]
      simp [List.getLast_append]

theorem pathSum_eq_sum (M : List (ℚ × ℚ)) :
    pathSum M = ∑ i in Finset.range (M.length - 1), cross (M.getD i 0) (M.getD (i + 1) 0) := by
  induction M with
  | nil => simp [pathSum]
  | cons a t ih =>
    cases t with
    | nil => simp [pathSum]
    | cons b u =>
      simp only [pathSum, ih, List.length_cons, Nat.add_sub_cancel]
      rw [Finset.sum_range_succ' _ (u.length)]
      simp only [List.getD_cons_succ, List.getD_cons_zero]
      rw [add_comm]

/-! ## The reduction of `getPolygonArea` on an array of points -/

theorem arrayRead_map_some {P : Type} (l : List P) (i : Nat) :
    arrayRead (l.map some) i = l[i]? := by
  unfold arrayRead
  rw [List.getD_eq_getElem?_getD, List.getElem?_map]
  cases l[i]? <;> rfl

theorem areaCallback_some {P : Type} (xy : P → ℚ × ℚ)
    (destructure : Option P → Except JsError (ℚ × ℚ))
    (hd : ∀ c, destructure (some c) = Except.ok (xy c))
    (polygon : List (Option P)) (sum : ℚ) (c n : P) (id : Nat)
    (hn : (if id = polygon.length - 1 then arrayRead polygon 0 else arrayRead polygon (id + 1))
      = some n) :
    areaCallback destructure polygon sum (some c) id
      = Except.ok (sum + cross (xy c) (xy n) / 2) := by
  unfold areaCallback
  simp only [hd, hn, cross]

theorem reduceFrom_area {P : Type} (xy : P → ℚ × ℚ)
    (destructure : Option P → Except JsError (ℚ × ℚ))
    (hd : ∀ c, destructure (some c) = Except.ok (xy c))
    (p : List P) (a0 : P) (hp : p.head? = some a0) :
    ∀ (s pre : List P) (acc : ℚ), p = pre ++ s →
      reduceFrom (areaCallback destructure (p.map some)) (s.map some) pre.length acc
        = Except.ok (acc + pathSum ((s ++ [a0]).map xy) / 2) := by
  intro s
  induction s with
  | nil => intro pre acc _; simp [reduceFrom, pathSum]
  | cons c s' ih =>
    intro pre acc hps
    have hlen : (p.map some).length = pre.length + 1 + s'.length := by
      rw [hps]; simp; omega
    have hnext : (if pre.length = (p.map some).length - 1 then arrayRead (p.map some) 0
        else arrayRead (p.map some) (pre.length + 1)) = some ((s' ++ [a0]).headD a0) := by
      cases s' with
      | nil =>
        have h0 : pre.length = (p.map some).length - 1 := by rw [hlen]; simp
        rw [if_pos h0]
        cases p with
        | nil => simp at hp
        | cons b t =>
          simp at hp
          rw [arrayRead_map_some, hp]
          simp
      | cons d s'' =>
        have h0 : ¬ pre.length = (p.map some).length - 1 := by
          rw [hlen]; simp only [List.length_cons]; omega
        rw [if_neg h0]
        have h1 : (pre ++ c :: d :: s'')[pre.length + 1]? = some d := by
          rw [List.getElem?_append_right (by omega)]
          simp
        rw [arrayRead_map_some, hps, h1]
        rfl
    have hstep := areaCallback_some xy destructure hd (p.map some) acc c _ pre.length hnext
    simp only [List.map_cons, reduceFrom, hstep]
    have hrec := ih (pre ++ [c]) (acc + cross (xy c) (xy ((s' ++ [a0]).headD a0)) / 2)
      (by rw [hps]; simp)
    simp only [List.length_append, List.length_singleton] at hrec
    rw [hrec]
    congr 1
    have hpath : pathSum ((c :: s' ++ [a0]).map xy)
        = cross (xy c) (xy ((s' ++ [a0]).headD a0)) + pathSum ((s' ++ [a0]).map xy) := by
      cases s' with
      | nil => simp [pathSum]
      | cons d s'' => simp [pathSum]
    rw [hpath]
    ring

/-! ## The returned area as a shoelace sum -/

theorem closePath_eq (L : List (ℚ × ℚ)) (h : L ≠ []) : closePath L = L ++ [L.head h] := by
  cases L with
  | nil => exact absurd rfl h
  | cons a t => rfl

theorem getPolygonAreaWith_points {P : Type} (xy : P → ℚ × ℚ)
    (destructure : Option P → Except JsError (ℚ × ℚ))
    (hd : ∀ c, destructure (some c) = Except.ok (xy c)) (p : List P) :
    getPolygonAreaWith destructure (p.map some)
      = Except.ok (|pathSum (closePath (p.map xy))| / 2) := by
  cases p with
  | nil => simp [getPolygonAreaWith, reduce, reduceFrom, closePath, pathSum]
  | cons a t =>
    have h := reduceFrom_area xy destructure hd (a :: t) a rfl (a :: t) [] 0 rfl
    simp only [List.length_nil, zero_add] at h
    unfold getPolygonAreaWith reduce
    rw [h]
    simp only [List.map_append, List.map_cons, List.map_nil, closePath, List.cons_append]
    rw [abs_div]
    simp

theorem pathSum_closePath_reverse (L : List (ℚ × ℚ)) :
    pathSum (closePath L.reverse) = - pathSum (closePath L) := by
  by_cases h : L = []
  · subst h; simp [closePath, pathSum]
  · have hr : L.reverse ≠ [] := by simpa using h
    rw [closePath_eq _ hr, closePath_eq _ h, pathSum_append_singleton _ hr,
      pathSum_append_singleton _ h, pathSum_reverse, List.head_reverse,
      List.getLast_reverse, cross_antisymm (L.head h)]
    ring

theorem pathSum_closePath_repeat (L : List (ℚ × ℚ)) (h : L ≠ []) :
    pathSum (closePath (L ++ [L.head h])) = pathSum (closePath L) := by
  have h2 : L ++ [L.head h] ≠ [] := by simp
  rw [closePath_eq _ h2, closePath_eq _ h, pathSum_append_singleton _ h2]
  simp [List.head_append_of_ne_nil h, cross_self]

theorem pathSum_closePath_eq_shoelaceSum {P : Type} (px py : P → ℚ) (p : List P)
    (h : 0 < p.length) :
    pathSum (closePath (p.map (fun c => (px c, py c)))) = shoelaceSum px py p h := by
  have hne : p.map (fun c => (px c, py c)) ≠ [] := by
    intro h0
    have h1 := congrArg List.length h0
    simp only [List.length_map, List.length_nil] at h1
    omega
  rw [closePath_eq _ hne, pathSum_eq_sum]
  simp only [List.length_append, List.length_map, List.length_singleton, Nat.add_sub_cancel]
  unfold shoelaceSum
  rw [Finset.sum_range]
  apply Finset.sum_congr rfl
  intro i _
  have hi : i.val < p.length := i.isLt
  have hA : ∀ (z : ℚ × ℚ) (j : Nat) (hj : j < p.length),
      (p.map (fun c => (px c, py c)) ++ [z]).getD j 0 = (px (p.get ⟨j, hj⟩), py (p.get ⟨j, hj⟩)) := by
    intro z j hj
    rw [List.getD_eq_getElem?_getD, List.getElem?_append_left (by simpa using hj),
      List.getElem?_map, List.getElem?_eq_getElem hj]
    rfl
  have hB : (p.map (fun c => (px c, py c)) ++ [(p.map (fun c => (px c, py c))).head hne]).getD
      (i.val + 1) 0 = (px (p.get ⟨(i.val + 1) % p.length, Nat.mod_lt _ h⟩),
        py (p.get ⟨(i.val + 1) % p.length, Nat.mod_lt _ h⟩)) := by
    by_cases hlt : i.val + 1 < p.length
    · rw [hA _ _ hlt]
      simp only [Nat.mod_eq_of_lt hlt]
    · have heq : i.val + 1 = p.length := by omega
      have hmod : (i.val + 1) % p.length = 0 := by rw [heq]; exact Nat.mod_self _
      simp only [hmod]
      rw [List.getD_eq_getElem?_getD, List.getElem?_append_right (by simp [heq])]
      cases p with
      | nil => simp at h
      | cons a t => simp [heq]
  rw [hA _ _ hi, hB]
  rfl

/-! ## Claims on `getPolygonArea` -/

theorem V003.getPolygonArea_points_tuples (p : List V003.Coords) :
    V003.getPolygonArea (p.map some)
      = Except.ok (|pathSum (closePath (p.map (fun c : V003.Coords => (c.x, c.y))))| / 2) :=
  getPolygonAreaWith_points (fun c : V003.Coords => (c.x, c.y)) V003.destructure
    (by intro c; rfl) p

theorem V106.getPolygonArea_points_records (p : List V106.Keypoint) :
    V106.getPolygonArea (p.map some)
      = Except.ok (|pathSum (closePath (p.map (fun c : V106.Keypoint => (c.x, c.y))))| / 2) :=
  getPolygonAreaWith_points (fun c : V106.Keypoint => (c.x, c.y)) V106.destructure
    (by intro c; rfl) p

/-- C1: in both versions, for every sequence of N ≥ 1 points, `getPolygonArea`
returns (it does not throw, so no out-of-range entry is destructured) exactly
`|Σ_{i<N} (x_i * y_((i+1) mod N) - y_i * x_((i+1) mod N))| / 2` over the rationals;
the unit square gives 1. -/
theorem getPolygonArea_eq_shoelace (p : List V003.Coords) (q : List V106.Keypoint)
    (hp : 0 < p.length) (hq : 0 < q.length) :
    V003.getPolygonArea (p.map some)
        = Except.ok (|shoelaceSum V003.Coords.x V003.Coords.y p hp| / 2)
    ∧ V106.getPolygonArea (q.map some)
        = Except.ok (|shoelaceSum V106.Keypoint.x V106.Keypoint.y q hq| / 2)
    ∧ V003.getPolygonArea ([⟨0, 0⟩, ⟨1, 0⟩, ⟨1, 1⟩, ⟨0, 1⟩].map some) = Except.ok 1
    ∧ V106.getPolygonArea ([⟨0, 0⟩, ⟨1, 0⟩, ⟨1, 1⟩, ⟨0, 1⟩].map some) = Except.ok 1 := by
  refine ⟨?_, ?_, ?_, ?_⟩
  · rw [V003.getPolygonArea_points_tuples, pathSum_closePath_eq_shoelaceSum]
  · rw [V106.getPolygonArea_points_records, pathSum_closePath_eq_shoelaceSum]
  · rw [V003.getPolygonArea_points_tuples]
    norm_num [closePath, pathSum, cross]
  · rw [V106.getPolygonArea_points_records]
    norm_num [closePath, pathSum, cross]

/-- Witness of C1: a single point (N = 1) in 0.0.3 and a 3-4-5 triangle in 1.0.6. -/
theorem getPolygonArea_eq_shoelace_witness :
    V003.getPolygonArea ([⟨7, 5⟩].map some) = Except.ok 0
    ∧ V106.getPolygonArea ([⟨0, 0⟩, ⟨4, 0⟩, ⟨0, 3⟩].map some) = Except.ok 6 := by
  have h := getPolygonArea_eq_shoelace [⟨7, 5⟩] [⟨0, 0⟩, ⟨4, 0⟩, ⟨0, 3⟩]
    (by decide) (by decide)
  refine ⟨?_, ?_⟩
  · rw [h.1]
    simp [shoelaceSum]
    norm_num
  · rw [h.2.1]
    simp [shoelaceSum, Fin.sum_univ_succ]
    norm_num

/-- Reversal in exact arithmetic: in both versions, for every sequence of points
(the empty one included), `getPolygonArea` returns a value that is at least 0,
and returns the same value on the reversed sequence. Double arithmetic does not
keep this property in general; see the section on reversal in double arithmetic. -/
theorem getPolygonArea_reverse (p : List V003.Coords) (q : List V106.Keypoint) :
    (∃ a : ℚ, 0 ≤ a ∧ V003.getPolygonArea (p.map some) = Except.ok a
        ∧ V003.getPolygonArea (p.reverse.map some) = Except.ok a)
    ∧ (∃ a : ℚ, 0 ≤ a ∧ V106.getPolygonArea (q.map some) = Except.ok a
        ∧ V106.getPolygonArea (q.reverse.map some) = Except.ok a) := by
  refine ⟨⟨_, ?_, V003.getPolygonArea_points_tuples p, ?_⟩, ⟨_, ?_, V106.getPolygonArea_points_records q, ?_⟩⟩
  · positivity
  · rw [V003.getPolygonArea_points_tuples, List.map_reverse, pathSum_closePath_reverse, abs_neg]
  · positivity
  · rw [V106.getPolygonArea_points_records, List.map_reverse, pathSum_closePath_reverse, abs_neg]

/-- A repeat of the first point in exact arithmetic: in both versions, for every
non-empty sequence of points, `getPolygonArea` returns the same value on the
sequence and on the sequence followed by a repeat of its first point; the
triangle (0,0),(4,0),(0,3) gives 6 either way. Double arithmetic keeps this
property only when the product of the first point's coordinates is finite. -/
theorem getPolygonArea_repeat_first (p : List V003.Coords) (q : List V106.Keypoint)
    (hp : p ≠ []) (hq : q ≠ []) :
    (∃ a : ℚ, V003.getPolygonArea (p.map some) = Except.ok a
        ∧ V003.getPolygonArea ((p ++ [p.head hp]).map some) = Except.ok a)
    ∧ (∃ a : ℚ, V106.getPolygonArea (q.map some) = Except.ok a
        ∧ V106.getPolygonArea ((q ++ [q.head hq]).map some) = Except.ok a)
    ∧ V003.getPolygonArea ([⟨0, 0⟩, ⟨4, 0⟩, ⟨0, 3⟩].map some) = Except.ok 6
    ∧ V003.getPolygonArea ([⟨0, 0⟩, ⟨4, 0⟩, ⟨0, 3⟩, ⟨0, 0⟩].map some) = Except.ok 6
    ∧ V106.getPolygonArea ([⟨0, 0⟩, ⟨4, 0⟩, ⟨0, 3⟩].map some) = Except.ok 6
    ∧ V106.getPolygonArea ([⟨0, 0⟩, ⟨4, 0⟩, ⟨0, 3⟩, ⟨0, 0⟩].map some) = Except.ok 6 := by
  have key : ∀ {P : Type} (f : P → ℚ × ℚ) (l : List P) (hl : l ≠ []),
      pathSum (closePath ((l ++ [l.head hl]).map f)) = pathSum (closePath (l.map f)) := by
    intro P f l hl
    have hm : l.map f ≠ [] := by simpa using hl
    have := pathSum_closePath_repeat (l.map f) hm
    rw [← this]
    congr 2
    cases l with
    | nil => exact absurd rfl hl
    | cons a t => simp
  refine ⟨⟨_, V003.getPolygonArea_points_tuples p, ?_⟩, ⟨_, V106.getPolygonArea_points_records q, ?_⟩,
    ?_, ?_, ?_, ?_⟩
  · rw [V003.getPolygonArea_points_tuples, key]
  · rw [V106.getPolygonArea_points_records, key]
  · rw [V003.getPolygonArea_points_tuples]; norm_num [closePath, pathSum, cross]
  · rw [V003.getPolygonArea_points_tuples]; norm_num [closePath, pathSum, cross]
  · rw [V106.getPolygonArea_points_records]; norm_num [closePath, pathSum, cross]
  · rw [V106.getPolygonArea_points_records]; norm_num [closePath, pathSum, cross]

/-- The preceding property on the unit square in 0.0.3 and on a two-point
sequence in 1.0.6. -/
theorem getPolygonArea_repeat_first_witness :
    (∃ a : ℚ, V003.getPolygonArea ([⟨0, 0⟩, ⟨1, 0⟩, ⟨1, 1⟩, ⟨0, 1⟩].map some) = Except.ok a
        ∧ V003.getPolygonArea ([⟨0, 0⟩, ⟨1, 0⟩, ⟨1, 1⟩, ⟨0, 1⟩, ⟨0, 0⟩].map some) = Except.ok a)
    ∧ (∃ a : ℚ, V106.getPolygonArea ([⟨2, 3⟩, ⟨5, 1⟩].map some) = Except.ok a
        ∧ V106.getPolygonArea ([⟨2, 3⟩, ⟨5, 1⟩, ⟨2, 3⟩].map some) = Except.ok a) :=
  ⟨(getPolygonArea_repeat_first [⟨0, 0⟩, ⟨1, 0⟩, ⟨1, 1⟩, ⟨0, 1⟩] [⟨2, 3⟩, ⟨5, 1⟩]
      (by simp) (by simp)).1,
   (getPolygonArea_repeat_first [⟨0, 0⟩, ⟨1, 0⟩, ⟨1, 1⟩, ⟨0, 1⟩] [⟨2, 3⟩, ⟨5, 1⟩]
      (by simp) (by simp)).2.1⟩

/-! ## Undefined entries and the selection of mesh points -/

theorem areaCallback_error {P : Type} (destructure : Option P → Except JsError (ℚ × ℚ))
    (hdn : ∀ o e, destructure o = Except.error e → e = JsError.typeError)
    (polygon : List (Option P)) (sum : ℚ) (cp : Option P) (id : Nat) (e : JsError)
    (h : areaCallback destructure polygon sum cp id = Except.error e) :
    e = JsError.typeError := by
  unfold areaCallback at h
  cases h1 : destructure cp with
  | error e1 =>
    rw [h1] at h
    cases h
    exact hdn _ _ h1
  | ok v =>
    rw [h1] at h
    simp only at h
    generalize (if id = polygon.length - 1 then arrayRead polygon 0
      else arrayRead polygon (id + 1)) = nextPoint at h
    cases h2 : destructure nextPoint with
    | error e2 =>
      rw [h2] at h
      cases h
      exact hdn _ _ h2
    | ok w =>
      rw [h2] at h
      cases h

theorem reduceFrom_area_undefined {P : Type}
    (destructure : Option P → Except JsError (ℚ × ℚ))
    (hdn : ∀ o e, destructure o = Except.error e → e = JsError.typeError)
    (hnone : destructure none = Except.error JsError.typeError)
    (polygon : List (Option P)) :
    ∀ (s : List (Option P)) (k : Nat) (acc : ℚ), none ∈ s →
      reduceFrom (areaCallback destructure polygon) s k acc
        = Except.error JsError.typeError := by
  intro s
  induction s with
  | nil => intro k acc h; simp at h
  | cons a s' ih =>
    intro k acc h
    unfold reduceFrom
    cases hcb : areaCallback destructure polygon acc a k with
    | error e =>
      simp only
      rw [areaCallback_error destructure hdn polygon acc a k e hcb]
    | ok v =>
      simp only
      rcases List.mem_cons.mp h with h1 | h1
      · subst h1
        unfold areaCallback at hcb
        rw [hnone] at hcb
        cases hcb
      · exact ih (k + 1) v h1

theorem getPolygonAreaWith_undefined {P : Type}
    (destructure : Option P → Except JsError (ℚ × ℚ))
    (hdn : ∀ o e, destructure o = Except.error e → e = JsError.typeError)
    (hnone : destructure none = Except.error JsError.typeError)
    (polygon : List (Option P)) (h : none ∈ polygon) :
    getPolygonAreaWith destructure polygon = Except.error JsError.typeError := by
  unfold getPolygonAreaWith reduce
  rw [reduceFrom_area_undefined destructure hdn hnone polygon polygon 0 0 h]

theorem reduceFrom_area_error {P : Type}
    (destructure : Option P → Except JsError (ℚ × ℚ))
    (hdn : ∀ o e, destructure o = Except.error e → e = JsError.typeError)
    (polygon : List (Option P)) :
    ∀ (s : List (Option P)) (k : Nat) (acc : ℚ) (e : JsError),
      reduceFrom (areaCallback destructure polygon) s k acc = Except.error e →
        e = JsError.typeError := by
  intro s
  induction s with
  | nil => intro k acc e h; simp [reduceFrom] at h
  | cons a s' ih =>
    intro k acc e h
    unfold reduceFrom at h
    cases hcb : areaCallback destructure polygon acc a k with
    | error e1 =>
      rw [hcb] at h
      cases h
      exact areaCallback_error destructure hdn polygon acc a k e hcb
    | ok v =>
      rw [hcb] at h
      exact ih (k + 1) v e h

theorem getPolygonAreaWith_error {P : Type}
    (destructure : Option P → Except JsError (ℚ × ℚ))
    (hdn : ∀ o e, destructure o = Except.error e → e = JsError.typeError)
    (polygon : List (Option P)) (e : JsError)
    (h : getPolygonAreaWith destructure polygon = Except.error e) :
    e = JsError.typeError := by
  unfold getPolygonAreaWith reduce at h
  cases hr : reduceFrom (areaCallback destructure polygon) polygon 0 0 with
  | error e1 =>
    rw [hr] at h
    cases h
    exact reduceFrom_area_error destructure hdn polygon polygon 0 0 e hr
  | ok v =>
    rw [hr] at h
    cases h

theorem selectMeshPoints_in_range {P : Type} (points : List P) (idx : List Nat)
    (h : ∀ i ∈ idx, i < MAX_MESH_POINT → i < points.length) :
    selectMeshPoints points idx
      = (pointsAt points (idx.filter (fun n => n < MAX_MESH_POINT))).map some := by
  unfold selectMeshPoints pointsAt
  induction idx with
  | nil => simp
  | cons i t ih =>
    have ht : ∀ j ∈ t, j < MAX_MESH_POINT → j < points.length :=
      fun j hj => h j (List.mem_cons_of_mem _ hj)
    by_cases hi : i < MAX_MESH_POINT
    · have hlt := h i (List.mem_cons_self _ _) hi
      simp only [List.filter_cons, hi, decide_True, if_true, List.map_cons,
        List.filterMap_cons, List.getElem?_eq_getElem hlt]
      rw [← ih ht]
    · simp only [List.filter_cons, hi, decide_False]
      exact ih ht

theorem selectMeshPoints_out_of_range {P : Type} (points : List P) (idx : List Nat)
    (i : Nat) (hi : i ∈ idx) (h468 : i < MAX_MESH_POINT) (hlen : points.length ≤ i) :
    none ∈ selectMeshPoints points idx := by
  unfold selectMeshPoints
  simp only [List.mem_map, List.mem_filter, decide_eq_true_eq]
  exact ⟨i, ⟨hi, h468⟩, List.getElem?_eq_none hlen⟩

theorem selectMeshPoints_length {P : Type} (points : List P) (idx : List Nat) :
    (selectMeshPoints points idx).length = idx.countP (fun n => n < MAX_MESH_POINT) := by
  unfold selectMeshPoints
  simp [List.countP_eq_length_filter]

/-! ## Classification and the body of `getFaceDirection` -/

theorem classifyDirection_num (r factor : ℚ) (hf : 1 < factor) :
    (classifyDirection (JsNum.num r) factor = Direction.center ↔ 1 / factor < r ∧ r < factor)
    ∧ (classifyDirection (JsNum.num r) factor = Direction.left ↔ factor ≤ r)
    ∧ (classifyDirection (JsNum.num r) factor = Direction.right ↔ r ≤ 1 / factor) := by
  have hf0 : factor ≠ 0 := by linarith
  have hinv : factor⁻¹ < 1 := inv_lt_one_of_one_lt₀ hf
  unfold classifyDirection JsNum.gt JsNum.divQ
  simp only [hf0, if_false, JsNum.lt, decide_eq_true_eq, one_div]
  by_cases h1 : r < factor
  · have h1n : ¬ factor ≤ r := not_le.mpr h1
    by_cases h2 : factor⁻¹ < r
    · have h2n : ¬ r ≤ factor⁻¹ := not_le.mpr h2
      simp [h1, h2, h1n, h2n]
    · have h2n : r ≤ factor⁻¹ := not_lt.mp h2
      simp [h1, h2, h1n, h2n]
  · have h3 : factor ≤ r := not_lt.mp h1
    have h4 : ¬ r ≤ factor⁻¹ := by
      intro h; linarith
    simp [h1, h3, h4]

theorem LEFT_NOSE_filter : LEFT_NOSE.filter (fun n => n < MAX_MESH_POINT) = LEFT_NOSE := by
  decide

theorem RIGHT_NOSE_filter : RIGHT_NOSE.filter (fun n => n < MAX_MESH_POINT) = RIGHT_NOSE := by
  decide

theorem SILHOUETTE_filter : SILHOUETTE.filter (fun n => n < MAX_MESH_POINT) = SILHOUETTE := by
  decide

theorem LEFT_NOSE_bound : ∀ i ∈ LEFT_NOSE, i < 458 := by decide

theorem RIGHT_NOSE_bound : ∀ i ∈ RIGHT_NOSE, i < 458 := by decide

theorem SILHOUETTE_bound : ∀ i ∈ SILHOUETTE, i < 455 := by decide

theorem faceDirectionOf_long {P : Type} (xy : P → ℚ × ℚ)
    (destructure : Option P → Except JsError (ℚ × ℚ))
    (hd : ∀ c, destructure (some c) = Except.ok (xy c))
    (mesh : List P) (hlen : 458 ≤ mesh.length) (factor : ℚ) :
    faceDirectionOf (getPolygonAreaWith destructure)
        (Except.ok (selectMeshPoints mesh LEFT_NOSE))
        (Except.ok (selectMeshPoints mesh RIGHT_NOSE)) factor
      = Except.ok
          { leftNoseArea := shoelaceArea ((pointsAt mesh LEFT_NOSE).map xy),
            rightNoseArea := shoelaceArea ((pointsAt mesh RIGHT_NOSE).map xy),
            leftToRightRatio := JsNum.divQ (shoelaceArea ((pointsAt mesh LEFT_NOSE).map xy))
              (shoelaceArea ((pointsAt mesh RIGHT_NOSE).map xy)),
            direction := classifyDirection
              (JsNum.divQ (shoelaceArea ((pointsAt mesh LEFT_NOSE).map xy))
                (shoelaceArea ((pointsAt mesh RIGHT_NOSE).map xy))) factor } := by
  have hL := selectMeshPoints_in_range mesh LEFT_NOSE
    (fun i hi _ => lt_of_lt_of_le (LEFT_NOSE_bound i hi) hlen)
  have hR := selectMeshPoints_in_range mesh RIGHT_NOSE
    (fun i hi _ => lt_of_lt_of_le (RIGHT_NOSE_bound i hi) hlen)
  rw [LEFT_NOSE_filter] at hL
  rw [RIGHT_NOSE_filter] at hR
  unfold faceDirectionOf
  simp only [hL, hR, getPolygonAreaWith_points xy destructure hd, shoelaceArea]

theorem faceDirectionOf_short {P : Type}
    (destructure : Option P → Except JsError (ℚ × ℚ))
    (hdn : ∀ o e, destructure o = Except.error e → e = JsError.typeError)
    (hnone : destructure none = Except.error JsError.typeError)
    (mesh : List P) (hlen : mesh.length < 458) (factor : ℚ) :
    faceDirectionOf (getPolygonAreaWith destructure)
        (Except.ok (selectMeshPoints mesh LEFT_NOSE))
        (Except.ok (selectMeshPoints mesh RIGHT_NOSE)) factor
      = Except.error JsError.typeError := by
  have hR : getPolygonAreaWith destructure (selectMeshPoints mesh RIGHT_NOSE)
      = Except.error JsError.typeError :=
    getPolygonAreaWith_undefined destructure hdn hnone _
      (selectMeshPoints_out_of_range mesh RIGHT_NOSE 457 (by decide) (by decide) (by omega))
  unfold faceDirectionOf
  simp only
  cases hL : getPolygonAreaWith destructure (selectMeshPoints mesh LEFT_NOSE) with
  | error e =>
    simp only
    rw [getPolygonAreaWith_error destructure hdn _ e hL]
  | ok l =>
    simp only [hR]

/-! ## `getFaceDirection` in both versions -/

theorem faceDirectionSpec_intro (l r factor : ℚ) (hf : 1 < factor) (hr : r ≠ 0) :
    FaceDirectionSpec
      { leftNoseArea := l, rightNoseArea := r, leftToRightRatio := JsNum.divQ l r,
        direction := classifyDirection (JsNum.divQ l r) factor } l r factor := by
  have hdiv : JsNum.divQ l r = JsNum.num (l / r) := by
    unfold JsNum.divQ; rw [if_neg hr]
  have hc := classifyDirection_num (l / r) factor hf
  have hinv : 1 / factor < 1 := by
    rw [one_div]; exact inv_lt_one_of_one_lt₀ hf
  refine ⟨rfl, rfl, hdiv, ?_, ?_, ?_, ?_⟩
  · rw [hdiv]; exact hc.1
  · rw [hdiv]; exact hc.2.1
  · rw [hdiv]; exact hc.2.2
  · by_cases h1 : l / r < factor
    · by_cases h2 : 1 / factor < l / r
      · exact Or.inl ⟨⟨h2, h1⟩, not_le.mpr h1, not_le.mpr h2⟩
      · exact Or.inr (Or.inr ⟨fun h => h2 h.1, not_le.mpr h1, not_lt.mp h2⟩)
    · have h3 : factor ≤ l / r := not_lt.mp h1
      exact Or.inr (Or.inl ⟨fun h => h1 h.2, h3, not_le.mpr (by linarith)⟩)

theorem faceDirectionOf_right_area {P : Type} (xy : P → ℚ × ℚ)
    (destructure : Option P → Except JsError (ℚ × ℚ))
    (hd : ∀ c, destructure (some c) = Except.ok (xy c))
    (hdn : ∀ o e, destructure o = Except.error e → e = JsError.typeError)
    (hnone : destructure none = Except.error JsError.typeError)
    (mesh : List P) (r factor : ℚ) (hf : 1 < factor)
    (harea : getPolygonAreaWith destructure (selectMeshPoints mesh RIGHT_NOSE) = Except.ok r)
    (hr : r ≠ 0) :
    ∃ res l, getPolygonAreaWith destructure (selectMeshPoints mesh LEFT_NOSE) = Except.ok l
      ∧ faceDirectionOf (getPolygonAreaWith destructure)
          (Except.ok (selectMeshPoints mesh LEFT_NOSE))
          (Except.ok (selectMeshPoints mesh RIGHT_NOSE)) factor = Except.ok res
      ∧ FaceDirectionSpec res l r factor := by
  by_cases hlen : 458 ≤ mesh.length
  · have hL := selectMeshPoints_in_range mesh LEFT_NOSE
      (fun i hi _ => lt_of_lt_of_le (LEFT_NOSE_bound i hi) hlen)
    have hR := selectMeshPoints_in_range mesh RIGHT_NOSE
      (fun i hi _ => lt_of_lt_of_le (RIGHT_NOSE_bound i hi) hlen)
    rw [LEFT_NOSE_filter] at hL
    rw [RIGHT_NOSE_filter] at hR
    rw [hR, getPolygonAreaWith_points xy destructure hd] at harea
    have hr2 : r = shoelaceArea ((pointsAt mesh RIGHT_NOSE).map xy) := by
      cases harea; rfl
    refine ⟨_, shoelaceArea ((pointsAt mesh LEFT_NOSE).map xy), ?_,
      faceDirectionOf_long xy destructure hd mesh hlen factor, ?_⟩
    · rw [hL, getPolygonAreaWith_points xy destructure hd]; rfl
    · rw [← hr2]
      exact faceDirectionSpec_intro _ r factor hf hr
  · exfalso
    rw [getPolygonAreaWith_undefined destructure hdn hnone _
      (selectMeshPoints_out_of_range mesh RIGHT_NOSE 457 (by decide) (by decide)
        (by omega))] at harea
    cases harea

theorem V003.destructure_error_tuples (o : Option V003.Coords) (e : JsError)
    (h : V003.destructure o = Except.error e) : e = JsError.typeError := by
  cases o with
  | none => cases h; rfl
  | some c => cases h

theorem V106.destructure_error_records (o : Option V106.Keypoint) (e : JsError)
    (h : V106.destructure o = Except.error e) : e = JsError.typeError := by
  cases o with
  | none => cases h; rfl
  | some c => cases h

theorem V003.getSelectedScaledMesh_mesh_tuples (p : V003.Prediction) (mesh : List V003.Coords)
    (hm : p.scaledMesh = some mesh) (idx : List Nat) :
    V003.getSelectedScaledMesh (some p) idx
      = if p.kind = "MediaPipePredictionValues" ∧ mesh.length > 0
        then Except.ok (selectMeshPoints mesh idx)
        else Except.error JsError.emptyDetectionResult := by
  unfold V003.getSelectedScaledMesh
  simp only [hm]

theorem V003.getSelectedScaledMesh_missing_tuples (p : V003.Prediction)
    (hm : p.scaledMesh = none) (idx : List Nat) :
    V003.getSelectedScaledMesh (some p) idx = Except.error JsError.emptyDetectionResult := by
  unfold V003.getSelectedScaledMesh
  simp only [hm]

theorem V106.getSelectedScaledMesh_mesh_records (p : V106.Face) (mesh : List V106.Keypoint)
    (hm : p.keypoints = some mesh) (idx : List Nat) :
    V106.getSelectedScaledMesh (some p) idx
      = if mesh.length > 0 then Except.ok (selectMeshPoints mesh idx)
        else Except.error JsError.emptyDetectionResult := by
  unfold V106.getSelectedScaledMesh
  simp only [hm]

theorem V106.getSelectedScaledMesh_missing_records (p : V106.Face)
    (hm : p.keypoints = none) (idx : List Nat) :
    V106.getSelectedScaledMesh (some p) idx = Except.error JsError.emptyDetectionResult := by
  unfold V106.getSelectedScaledMesh
  simp only [hm]

theorem V003.getSelectedScaledMesh_ok_tuples (pred : Option V003.Prediction)
    (idx : List Nat) (sel : List (Option V003.Coords))
    (h : V003.getSelectedScaledMesh pred idx = Except.ok sel) :
    ∃ p mesh, pred = some p ∧ p.scaledMesh = some mesh
      ∧ p.kind = "MediaPipePredictionValues" ∧ 0 < mesh.length
      ∧ ∀ idx2, V003.getSelectedScaledMesh pred idx2
          = Except.ok (selectMeshPoints mesh idx2) := by
  cases pred with
  | none => cases h
  | some p =>
    cases hm : p.scaledMesh with
    | none => rw [V003.getSelectedScaledMesh_missing_tuples p hm] at h; cases h
    | some mesh =>
      rw [V003.getSelectedScaledMesh_mesh_tuples p mesh hm] at h
      by_cases hg : p.kind = "MediaPipePredictionValues" ∧ mesh.length > 0
      · refine ⟨p, mesh, rfl, hm, hg.1, hg.2, ?_⟩
        intro idx2
        rw [V003.getSelectedScaledMesh_mesh_tuples p mesh hm, if_pos hg]
      · rw [if_neg hg] at h; cases h

theorem V106.getSelectedScaledMesh_ok_records (pred : Option V106.Face)
    (idx : List Nat) (sel : List (Option V106.Keypoint))
    (h : V106.getSelectedScaledMesh pred idx = Except.ok sel) :
    (pred = none ∧ ∀ idx2, V106.getSelectedScaledMesh pred idx2 = Except.ok [])
    ∨ ∃ p mesh, pred = some p ∧ p.keypoints = some mesh ∧ 0 < mesh.length
      ∧ ∀ idx2, V106.getSelectedScaledMesh pred idx2
          = Except.ok (selectMeshPoints mesh idx2) := by
  cases pred with
  | none => exact Or.inl ⟨rfl, fun _ => rfl⟩
  | some p =>
    right
    cases hm : p.keypoints with
    | none => rw [V106.getSelectedScaledMesh_missing_records p hm] at h; cases h
    | some mesh =>
      rw [V106.getSelectedScaledMesh_mesh_records p mesh hm] at h
      by_cases hg : mesh.length > 0
      · refine ⟨p, mesh, rfl, hm, hg, ?_⟩
        intro idx2
        rw [V106.getSelectedScaledMesh_mesh_records p mesh hm, if_pos hg]
      · rw [if_neg hg] at h; cases h

/-- Classification in exact arithmetic: in both versions, whenever the selection
of `RIGHT_NOSE` succeeds and the right-nose area exists and is not 0, and
`factor > 1`, `getFaceDirection` returns a record whose areas are the two
polygon areas, whose ratio is `leftNoseArea / rightNoseArea`, and whose
direction is center iff `1/factor < ratio < factor`, left iff `ratio >= factor`,
right iff `ratio <= 1/factor`; exactly one of the three conditions holds. In
double arithmetic the areas can be infinite and the ratio `NaN`; see the section
on classification in double arithmetic. -/
theorem getFaceDirection_classifies (factor : ℚ) (hf : 1 < factor) :
    (∀ (pred : Option V003.Prediction) (sel : List (Option V003.Coords)) (r : ℚ),
      V003.getSelectedScaledMesh pred RIGHT_NOSE = Except.ok sel →
      V003.getPolygonArea sel = Except.ok r → r ≠ 0 →
      ∃ res lsel l, V003.getSelectedScaledMesh pred LEFT_NOSE = Except.ok lsel
        ∧ V003.getPolygonArea lsel = Except.ok l
        ∧ V003.getFaceDirection pred factor = Except.ok res
        ∧ FaceDirectionSpec res l r factor)
    ∧ (∀ (pred : Option V106.Face) (sel : List (Option V106.Keypoint)) (r : ℚ),
      V106.getSelectedScaledMesh pred RIGHT_NOSE = Except.ok sel →
      V106.getPolygonArea sel = Except.ok r → r ≠ 0 →
      ∃ res lsel l, V106.getSelectedScaledMesh pred LEFT_NOSE = Except.ok lsel
        ∧ V106.getPolygonArea lsel = Except.ok l
        ∧ V106.getFaceDirection pred factor = Except.ok res
        ∧ FaceDirectionSpec res l r factor) := by
  constructor
  · intro pred sel r hsel harea hr
    obtain ⟨p, mesh, _, _, _, _, hall⟩ := V003.getSelectedScaledMesh_ok_tuples pred _ sel hsel
    rw [hall] at hsel
    cases hsel
    obtain ⟨res, l, h1, h2, h3⟩ := faceDirectionOf_right_area
      (fun c : V003.Coords => (c.x, c.y)) V003.destructure (by intro c; rfl)
      V003.destructure_error_tuples rfl mesh r factor hf harea hr
    refine ⟨res, _, l, hall LEFT_NOSE, h1, ?_, h3⟩
    unfold V003.getFaceDirection
    rw [hall, hall]
    exact h2
  · intro pred sel r hsel harea hr
    rcases V106.getSelectedScaledMesh_ok_records pred _ sel hsel with ⟨_, hall⟩ | ⟨p, mesh, _, _, _, hall⟩
    · rw [hall] at hsel
      cases hsel
      exfalso
      apply hr
      have h0 : V106.getPolygonArea [] = Except.ok 0 := by
        simp [V106.getPolygonArea, getPolygonAreaWith, reduce, reduceFrom]
      rw [h0] at harea
      cases harea
      rfl
    · rw [hall] at hsel
      cases hsel
      obtain ⟨res, l, h1, h2, h3⟩ := faceDirectionOf_right_area
        (fun c : V106.Keypoint => (c.x, c.y)) V106.destructure (by intro c; rfl)
        V106.destructure_error_records rfl mesh r factor hf harea hr
      refine ⟨res, _, l, hall LEFT_NOSE, h1, ?_, h3⟩
      unfold V106.getFaceDirection
      rw [hall, hall]
      exact h2

/-! ## The body of `getAdjustedFaceBox`, `Math.max` and `Math.min` -/

theorem reduceFrom_box {P : Type} (elem : P → Nat → Option ℚ) :
    ∀ (s : List P) (k : Nat) (xs ys : List (Option ℚ)),
      reduceFrom (boxCallback elem) (s.map some) k (xs, ys)
        = Except.ok (xs ++ s.map (fun c => elem c 0), ys ++ s.map (fun c => elem c 1)) := by
  intro s
  induction s with
  | nil => intro k xs ys; simp [reduceFrom]
  | cons c s' ih =>
    intro k xs ys
    simp only [List.map_cons, reduceFrom, boxCallback]
    rw [ih]
    simp

theorem reduceFrom_box_undefined {P : Type} (elem : P → Nat → Option ℚ) :
    ∀ (s : List (Option P)) (k : Nat) (acc : List (Option ℚ) × List (Option ℚ)),
      none ∈ s → reduceFrom (boxCallback elem) s k acc = Except.error JsError.typeError := by
  intro s
  induction s with
  | nil => intro k acc h; simp at h
  | cons a s' ih =>
    intro k acc h
    cases a with
    | none => simp [reduceFrom, boxCallback]
    | some c =>
      simp only [reduceFrom, boxCallback]
      apply ih
      simpa using h

theorem adjustedFaceBoxOf_points {P : Type} (elem : P → Nat → Option ℚ) (pts : List P) :
    adjustedFaceBoxOf elem (pts.map some)
      = Except.ok
          { left := mathMin (pts.map (fun c => elem c 0)),
            top := mathMin (pts.map (fun c => elem c 1)),
            right := mathMax (pts.map (fun c => elem c 0)),
            bottom := mathMax (pts.map (fun c => elem c 1)),
            width := JsNum.sub (mathMax (pts.map (fun c => elem c 0)))
              (mathMin (pts.map (fun c => elem c 0))),
            height := JsNum.sub (mathMax (pts.map (fun c => elem c 1)))
              (mathMin (pts.map (fun c => elem c 1))) } := by
  unfold adjustedFaceBoxOf reduce
  rw [reduceFrom_box]
  simp

theorem adjustedFaceBoxOf_undefined {P : Type} (elem : P → Nat → Option ℚ)
    (sel : List (Option P)) (h : none ∈ sel) :
    adjustedFaceBoxOf elem sel = Except.error JsError.typeError := by
  unfold adjustedFaceBoxOf reduce
  rw [reduceFrom_box_undefined elem sel 0 _ h]

theorem foldl_max2_num (l : List ℚ) :
    ∀ a : ℚ, ∃ m : ℚ, (l.map JsNum.num).foldl JsNum.max2 (JsNum.num a) = JsNum.num m
      ∧ (m = a ∨ m ∈ l) ∧ a ≤ m ∧ ∀ x ∈ l, x ≤ m := by
  induction l with
  | nil => intro a; exact ⟨a, rfl, Or.inl rfl, le_refl _, by simp⟩
  | cons b t ih =>
    intro a
    by_cases hab : a < b
    · obtain ⟨m, h1, h2, h3, h4⟩ := ih b
      refine ⟨m, ?_, ?_, by linarith, ?_⟩
      · simp only [List.map_cons, List.foldl_cons, JsNum.max2, JsNum.lt, hab, decide_True,
          if_true]
        exact h1
      · rcases h2 with h2 | h2
        · right; rw [h2]; exact List.mem_cons_self _ _
        · right; exact List.mem_cons_of_mem _ h2
      · intro x hx
        rcases List.mem_cons.mp hx with hx | hx
        · rw [hx]; exact h3
        · exact h4 x hx
    · obtain ⟨m, h1, h2, h3, h4⟩ := ih a
      refine ⟨m, ?_, ?_, h3, ?_⟩
      · simp only [List.map_cons, List.foldl_cons, JsNum.max2, JsNum.lt, hab, decide_False]
        exact h1
      · rcases h2 with h2 | h2
        · left; exact h2
        · right; exact List.mem_cons_of_mem _ h2
      · intro x hx
        rcases List.mem_cons.mp hx with hx | hx
        · rw [hx]; linarith [not_lt.mp hab]
        · exact h4 x hx

theorem foldl_min2_num (l : List ℚ) :
    ∀ a : ℚ, ∃ m : ℚ, (l.map JsNum.num).foldl JsNum.min2 (JsNum.num a) = JsNum.num m
      ∧ (m = a ∨ m ∈ l) ∧ m ≤ a ∧ ∀ x ∈ l, m ≤ x := by
  induction l with
  | nil => intro a; exact ⟨a, rfl, Or.inl rfl, le_refl _, by simp⟩
  | cons b t ih =>
    intro a
    by_cases hab : b < a
    · obtain ⟨m, h1, h2, h3, h4⟩ := ih b
      refine ⟨m, ?_, ?_, by linarith, ?_⟩
      · simp only [List.map_cons, List.foldl_cons, JsNum.min2, JsNum.lt, hab, decide_True,
          if_true]
        exact h1
      · rcases h2 with h2 | h2
        · right; rw [h2]; exact List.mem_cons_self _ _
        · right; exact List.mem_cons_of_mem _ h2
      · intro x hx
        rcases List.mem_cons.mp hx with hx | hx
        · rw [hx]; exact h3
        · exact h4 x hx
    · obtain ⟨m, h1, h2, h3, h4⟩ := ih a
      refine ⟨m, ?_, ?_, h3, ?_⟩
      · simp only [List.map_cons, List.foldl_cons, JsNum.min2, JsNum.lt, hab, decide_False]
        exact h1
      · rcases h2 with h2 | h2
        · left; exact h2
        · right; exact List.mem_cons_of_mem _ h2
      · intro x hx
        rcases List.mem_cons.mp hx with hx | hx
        · rw [hx]; linarith [not_lt.mp hab]
        · exact h4 x hx

theorem mathMax_numbers (l : List ℚ) (hl : l ≠ []) :
    ∃ m : ℚ, mathMax (l.map some) = JsNum.num m ∧ m ∈ l ∧ ∀ x ∈ l, x ≤ m := by
  cases l with
  | nil => exact absurd rfl hl
  | cons b t =>
    obtain ⟨m, h1, h2, h3, h4⟩ := foldl_max2_num t b
    refine ⟨m, ?_, ?_, ?_⟩
    · unfold mathMax
      simp only [List.map_cons, List.map_map, List.foldl_cons, toNumber, JsNum.max2, JsNum.lt,
        if_true]
      have hc : (toNumber ∘ some) = JsNum.num := by funext q; rfl
      rw [hc]; exact h1
    · rcases h2 with h2 | h2
      · rw [h2]; exact List.mem_cons_self _ _
      · exact List.mem_cons_of_mem _ h2
    · intro x hx
      rcases List.mem_cons.mp hx with hx | hx
      · rw [hx]; exact h3
      · exact h4 x hx

theorem mathMin_numbers (l : List ℚ) (hl : l ≠ []) :
    ∃ m : ℚ, mathMin (l.map some) = JsNum.num m ∧ m ∈ l ∧ ∀ x ∈ l, m ≤ x := by
  cases l with
  | nil => exact absurd rfl hl
  | cons b t =>
    obtain ⟨m, h1, h2, h3, h4⟩ := foldl_min2_num t b
    refine ⟨m, ?_, ?_, ?_⟩
    · unfold mathMin
      simp only [List.map_cons, List.map_map, List.foldl_cons, toNumber, JsNum.min2, JsNum.lt,
        if_true]
      have hc : (toNumber ∘ some) = JsNum.num := by funext q; rfl
      rw [hc]; exact h1
    · rcases h2 with h2 | h2
      · rw [h2]; exact List.mem_cons_self _ _
      · exact List.mem_cons_of_mem _ h2
    · intro x hx
      rcases List.mem_cons.mp hx with hx | hx
      · rw [hx]; exact h3
      · exact h4 x hx

/-! ## `getAdjustedFaceBox` in both versions -/

theorem pointsAt_length {P : Type} (mesh : List P) (idx : List Nat)
    (h : ∀ i ∈ idx, i < mesh.length) : (pointsAt mesh idx).length = idx.length := by
  unfold pointsAt
  induction idx with
  | nil => rfl
  | cons i t ih =>
    have hi := h i (List.mem_cons_self _ _)
    simp only [List.filterMap_cons, List.getElem?_eq_getElem hi, List.length_cons]
    rw [ih (fun j hj => h j (List.mem_cons_of_mem _ hj))]

theorem selectMeshPoints_SILHOUETTE {P : Type} (mesh : List P) (hlen : 455 ≤ mesh.length) :
    selectMeshPoints mesh SILHOUETTE = (pointsAt mesh SILHOUETTE).map some := by
  have h := selectMeshPoints_in_range mesh SILHOUETTE
    (fun i hi _ => lt_of_lt_of_le (SILHOUETTE_bound i hi) hlen)
  rw [SILHOUETTE_filter] at h
  exact h

theorem V003.getAdjustedFaceBox_long_tuples (p : V003.Prediction) (mesh : List V003.Coords)
    (hk : p.kind = "MediaPipePredictionValues") (hm : p.scaledMesh = some mesh)
    (hlen : 455 ≤ mesh.length) :
    V003.getAdjustedFaceBox (some p)
      = adjustedFaceBoxOf V003.Coords.elem ((pointsAt mesh SILHOUETTE).map some) := by
  unfold V003.getAdjustedFaceBox
  rw [V003.getSelectedScaledMesh_mesh_tuples p mesh hm, if_pos ⟨hk, by omega⟩]
  simp only
  rw [selectMeshPoints_SILHOUETTE mesh hlen]

theorem V003.getAdjustedFaceBox_short (p : V003.Prediction) (mesh : List V003.Coords)
    (hk : p.kind = "MediaPipePredictionValues") (hm : p.scaledMesh = some mesh)
    (hpos : 0 < mesh.length) (hlen : mesh.length < 455) :
    V003.getAdjustedFaceBox (some p) = Except.error JsError.typeError := by
  unfold V003.getAdjustedFaceBox
  rw [V003.getSelectedScaledMesh_mesh_tuples p mesh hm, if_pos ⟨hk, hpos⟩]
  simp only
  exact adjustedFaceBoxOf_undefined _ _
    (selectMeshPoints_out_of_range mesh SILHOUETTE 454 (by decide) (by decide) (by omega))

theorem V106.getAdjustedFaceBox_long_records (p : V106.Face) (mesh : List V106.Keypoint)
    (hm : p.keypoints = some mesh) (hlen : 455 ≤ mesh.length) :
    V106.getAdjustedFaceBox (some p)
      = adjustedFaceBoxOf V106.Keypoint.elem ((pointsAt mesh SILHOUETTE).map some) := by
  unfold V106.getAdjustedFaceBox
  rw [V106.getSelectedScaledMesh_mesh_records p mesh hm, if_pos (by omega)]
  simp only
  rw [selectMeshPoints_SILHOUETTE mesh hlen]

theorem mathMax_undefined (n : Nat) :
    mathMax (List.replicate (n + 1) none) = JsNum.nan := by
  unfold mathMax
  simp only [List.replicate_succ, List.map_cons, List.foldl_cons, toNumber, JsNum.max2]
  induction n with
  | zero => rfl
  | succ k ih =>
    simp only [List.replicate_succ, List.map_cons, List.foldl_cons, toNumber, JsNum.max2]
    exact ih

theorem mathMin_undefined (n : Nat) :
    mathMin (List.replicate (n + 1) none) = JsNum.nan := by
  unfold mathMin
  simp only [List.replicate_succ, List.map_cons, List.foldl_cons, toNumber, JsNum.min2]
  induction n with
  | zero => rfl
  | succ k ih =>
    simp only [List.replicate_succ, List.map_cons, List.foldl_cons, toNumber, JsNum.min2]
    exact ih

theorem V106.getAdjustedFaceBox_nan (p : V106.Face) (mesh : List V106.Keypoint)
    (hm : p.keypoints = some mesh) (hlen : 455 ≤ mesh.length) :
    V106.getAdjustedFaceBox (some p)
      = Except.ok { left := JsNum.nan, top := JsNum.nan, right := JsNum.nan,
                    bottom := JsNum.nan, width := JsNum.nan, height := JsNum.nan } := by
  rw [V106.getAdjustedFaceBox_long_records p mesh hm hlen, adjustedFaceBoxOf_points]
  have hl : (pointsAt mesh SILHOUETTE).length = 35 + 1 :=
    pointsAt_length mesh SILHOUETTE (fun i hi => lt_of_lt_of_le (SILHOUETTE_bound i hi) hlen)
  have h0 : (pointsAt mesh SILHOUETTE).map (fun c => V106.Keypoint.elem c 0)
      = List.replicate (35 + 1) none := by
    rw [← hl]
    exact List.eq_replicate_iff.mpr ⟨by simp, by
      intro b hb
      simp only [List.mem_map] at hb
      obtain ⟨c, _, hc⟩ := hb
      rw [← hc]; rfl⟩
  have h1 : (pointsAt mesh SILHOUETTE).map (fun c => V106.Keypoint.elem c 1)
      = List.replicate (35 + 1) none := h0
  rw [h0, h1, mathMax_undefined, mathMin_undefined]
  rfl

/-- C4: in 0.0.3, for a detection of kind `MediaPipePredictionValues` with at
least 468 points, `getAdjustedFaceBox` returns the box whose `left` and `right`
are the least and greatest x, and whose `top` and `bottom` are the least and
greatest y, of the 36 points at the `SILHOUETTE` indices, with
`width = right - left` and `height = bottom - top`; when those points are the
corners (0,0),(10,0),(10,10),(0,10) the box is {0, 0, 10, 10, 10, 10}. -/
theorem getAdjustedFaceBox_silhouette_bounds (p : V003.Prediction)
    (mesh : List V003.Coords) (hk : p.kind = "MediaPipePredictionValues")
    (hm : p.scaledMesh = some mesh) (hlen : 468 ≤ mesh.length) :
    (pointsAt mesh SILHOUETTE).length = 36
    ∧ (∃ l r t b : ℚ,
        V003.getAdjustedFaceBox (some p)
          = Except.ok { left := JsNum.num l, top := JsNum.num t, right := JsNum.num r,
                        bottom := JsNum.num b, width := JsNum.num (r - l),
                        height := JsNum.num (b - t) }
        ∧ (∃ c ∈ pointsAt mesh SILHOUETTE, c.x = l)
        ∧ (∀ c ∈ pointsAt mesh SILHOUETTE, l ≤ c.x)
        ∧ (∃ c ∈ pointsAt mesh SILHOUETTE, c.x = r)
        ∧ (∀ c ∈ pointsAt mesh SILHOUETTE, c.x ≤ r)
        ∧ (∃ c ∈ pointsAt mesh SILHOUETTE, c.y = t)
        ∧ (∀ c ∈ pointsAt mesh SILHOUETTE, t ≤ c.y)
        ∧ (∃ c ∈ pointsAt mesh SILHOUETTE, c.y = b)
        ∧ (∀ c ∈ pointsAt mesh SILHOUETTE, c.y ≤ b))
    ∧ ((∀ c ∈ pointsAt mesh SILHOUETTE,
          c ∈ ([⟨0, 0⟩, ⟨10, 0⟩, ⟨10, 10⟩, ⟨0, 10⟩] : List V003.Coords)) →
        (∀ c ∈ ([⟨0, 0⟩, ⟨10, 0⟩, ⟨10, 10⟩, ⟨0, 10⟩] : List V003.Coords),
          c ∈ pointsAt mesh SILHOUETTE) →
        V003.getAdjustedFaceBox (some p)
          = Except.ok { left := JsNum.num 0, top := JsNum.num 0, right := JsNum.num 10,
                        bottom := JsNum.num 10, width := JsNum.num 10,
                        height := JsNum.num 10 }) := by
  have hlen2 : 455 ≤ mesh.length := by omega
  have hl : (pointsAt mesh SILHOUETTE).length = 36 :=
    pointsAt_length mesh SILHOUETTE (fun i hi => lt_of_lt_of_le (SILHOUETTE_bound i hi) hlen2)
  have hbox := V003.getAdjustedFaceBox_long_tuples p mesh hk hm hlen2
  rw [adjustedFaceBoxOf_points] at hbox
  have hx : (pointsAt mesh SILHOUETTE).map (fun c => V003.Coords.elem c 0)
      = ((pointsAt mesh SILHOUETTE).map V003.Coords.x).map some := by
    rw [List.map_map]; rfl
  have hy : (pointsAt mesh SILHOUETTE).map (fun c => V003.Coords.elem c 1)
      = ((pointsAt mesh SILHOUETTE).map V003.Coords.y).map some := by
    rw [List.map_map]; rfl
  have hxne : (pointsAt mesh SILHOUETTE).map V003.Coords.x ≠ [] := by
    intro h0
    have := congrArg List.length h0
    simp [hl] at this
  have hyne : (pointsAt mesh SILHOUETTE).map V003.Coords.y ≠ [] := by
    intro h0
    have := congrArg List.length h0
    simp [hl] at this
  obtain ⟨r, hr1, hr2, hr3⟩ := mathMax_numbers _ hxne
  obtain ⟨l, hl1, hl2, hl3⟩ := mathMin_numbers _ hxne
  obtain ⟨b, hb1, hb2, hb3⟩ := mathMax_numbers _ hyne
  obtain ⟨t, ht1, ht2, ht3⟩ := mathMin_numbers _ hyne
  rw [hx, hy, hr1, hl1, hb1, ht1] at hbox
  simp only [List.mem_map] at hr2 hl2 hb2 ht2
  have main : V003.getAdjustedFaceBox (some p)
      = Except.ok { left := JsNum.num l, top := JsNum.num t, right := JsNum.num r,
                    bottom := JsNum.num b, width := JsNum.num (r - l),
                    height := JsNum.num (b - t) } := hbox
  have hl3' : ∀ c ∈ pointsAt mesh SILHOUETTE, l ≤ c.x :=
    fun c hc => hl3 c.x (List.mem_map.mpr ⟨c, hc, rfl⟩)
  have hr3' : ∀ c ∈ pointsAt mesh SILHOUETTE, c.x ≤ r :=
    fun c hc => hr3 c.x (List.mem_map.mpr ⟨c, hc, rfl⟩)
  have ht3' : ∀ c ∈ pointsAt mesh SILHOUETTE, t ≤ c.y :=
    fun c hc => ht3 c.y (List.mem_map.mpr ⟨c, hc, rfl⟩)
  have hb3' : ∀ c ∈ pointsAt mesh SILHOUETTE, c.y ≤ b :=
    fun c hc => hb3 c.y (List.mem_map.mpr ⟨c, hc, rfl⟩)
  refine ⟨hl, ⟨l, r, t, b, main, hl2, hl3', hr2, hr3', ht2, ht3', hb2, hb3'⟩, ?_⟩
  intro hin hall
  have h00 := hall ⟨0, 0⟩ (by simp)
  have h11 := hall ⟨10, 10⟩ (by simp)
  have corner_x : ∀ c ∈ pointsAt mesh SILHOUETTE, c.x = 0 ∨ c.x = 10 := by
    intro c hc
    have := hin c hc
    simp only [List.mem_cons, List.mem_singleton, List.not_mem_nil, or_false] at this
    rcases this with h | h | h | h <;> rw [h] <;> simp
  have corner_y : ∀ c ∈ pointsAt mesh SILHOUETTE, c.y = 0 ∨ c.y = 10 := by
    intro c hc
    have := hin c hc
    simp only [List.mem_cons, List.mem_singleton, List.not_mem_nil, or_false] at this
    rcases this with h | h | h | h <;> rw [h] <;> simp
  have el : l = 0 := by
    obtain ⟨c, hc, hcl⟩ := hl2
    have h1 := hl3' _ h00
    simp only at h1
    rcases corner_x c hc with h | h <;> linarith
  have er : r = 10 := by
    obtain ⟨c, hc, hcl⟩ := hr2
    have h1 := hr3' _ h11
    simp only at h1
    rcases corner_x c hc with h | h <;> linarith
  have et : t = 0 := by
    obtain ⟨c, hc, hcl⟩ := ht2
    have h1 := ht3' _ h00
    simp only at h1
    rcases corner_y c hc with h | h <;> linarith
  have eb : b = 10 := by
    obtain ⟨c, hc, hcl⟩ := hb2
    have h1 := hb3' _ h11
    simp only at h1
    rcases corner_y c hc with h | h <;> linarith
  rw [main, el, er, et, eb]
  norm_num

/-! ## Sample meshes -/

theorem pointsAt_cornerMesh : pointsAt cornerMesh SILHOUETTE
    = [⟨10, 10⟩, ⟨10, 10⟩, ⟨10, 0⟩, ⟨0, 0⟩, ⟨0, 0⟩, ⟨0, 10⟩, ⟨10, 0⟩, ⟨0, 0⟩, ⟨10, 10⟩,
       ⟨0, 10⟩, ⟨10, 0⟩, ⟨0, 0⟩, ⟨10, 0⟩, ⟨10, 0⟩, ⟨0, 10⟩, ⟨10, 10⟩, ⟨0, 0⟩, ⟨10, 0⟩,
       ⟨0, 0⟩, ⟨0, 0⟩, ⟨0, 0⟩, ⟨0, 0⟩, ⟨10, 10⟩, ⟨0, 0⟩, ⟨0, 0⟩, ⟨10, 10⟩, ⟨0, 0⟩,
       ⟨10, 0⟩, ⟨10, 10⟩, ⟨0, 10⟩, ⟨10, 10⟩, ⟨10, 0⟩, ⟨10, 10⟩, ⟨0, 10⟩, ⟨0, 10⟩, ⟨10, 0⟩] := by
  simp [pointsAt, cornerMesh, SILHOUETTE, List.getElem?_range, cornerOf]

theorem cornerMesh_length : cornerMesh.length = 468 := by
  simp [cornerMesh]

theorem cornerKeypoints_length : cornerKeypoints.length = 468 := by
  simp [cornerKeypoints]

theorem max2_num (a b : ℚ) :
    JsNum.max2 (JsNum.num a) (JsNum.num b) = JsNum.num (max a b) := by
  by_cases h : a < b
  · simp [JsNum.max2, JsNum.lt, h, max_eq_right (le_of_lt h)]
  · simp [JsNum.max2, JsNum.lt, h, max_eq_left (not_lt.mp h)]

theorem min2_num (a b : ℚ) :
    JsNum.min2 (JsNum.num a) (JsNum.num b) = JsNum.num (min a b) := by
  by_cases h : b < a
  · simp [JsNum.min2, JsNum.lt, h, min_eq_right (le_of_lt h)]
  · simp [JsNum.min2, JsNum.lt, h, min_eq_left (not_lt.mp h)]

theorem max2_negInf (a : ℚ) : JsNum.max2 JsNum.negInf (JsNum.num a) = JsNum.num a := by
  simp [JsNum.max2, JsNum.lt]

theorem min2_posInf (a : ℚ) : JsNum.min2 JsNum.posInf (JsNum.num a) = JsNum.num a := by
  simp [JsNum.min2, JsNum.lt]

theorem V003.getAdjustedFaceBox_cornerMesh :
    V003.getAdjustedFaceBox (some ⟨"MediaPipePredictionValues", some cornerMesh⟩)
      = Except.ok { left := JsNum.num 0, top := JsNum.num 0, right := JsNum.num 10,
                    bottom := JsNum.num 10, width := JsNum.num 10,
                    height := JsNum.num 10 } := by
  rw [V003.getAdjustedFaceBox_long_tuples _ cornerMesh rfl rfl (by rw [cornerMesh_length]; decide),
    adjustedFaceBoxOf_points, pointsAt_cornerMesh]
  simp [mathMax, mathMin, toNumber, V003.Coords.elem, max2_num, min2_num, max2_negInf,
    min2_posInf, JsNum.sub]

/-- Witness of C4: the mesh of 468 points that puts the point of index `i` on
corner `i mod 4` of the square gets the box {0, 0, 10, 10, 10, 10}. -/
theorem getAdjustedFaceBox_silhouette_bounds_witness :
    V003.getAdjustedFaceBox (some ⟨"MediaPipePredictionValues", some cornerMesh⟩)
      = Except.ok { left := JsNum.num 0, top := JsNum.num 0, right := JsNum.num 10,
                    bottom := JsNum.num 10, width := JsNum.num 10,
                    height := JsNum.num 10 } :=
  (getAdjustedFaceBox_silhouette_bounds ⟨"MediaPipePredictionValues", some cornerMesh⟩
    cornerMesh rfl rfl (le_of_eq cornerMesh_length.symm)).2.2
    (by rw [pointsAt_cornerMesh]; simp) (by rw [pointsAt_cornerMesh]; simp)

/-- C5 (the code departs from the claim): on the 468 keypoint records that lie on
the corners of the square, 1.0.6 `getAdjustedFaceBox` returns a box whose six
fields are `NaN`, because it reads `coord[0]` and `coord[1]` on a record, while
0.0.3 returns {0, 0, 10, 10, 10, 10} for the same coordinates given as arrays. -/
theorem getAdjustedFaceBox_records_nan :
    V106.getAdjustedFaceBox (some ⟨some cornerKeypoints⟩)
      = Except.ok { left := JsNum.nan, top := JsNum.nan, right := JsNum.nan,
                    bottom := JsNum.nan, width := JsNum.nan, height := JsNum.nan }
    ∧ V003.getAdjustedFaceBox (some ⟨"MediaPipePredictionValues", some cornerMesh⟩)
      = Except.ok { left := JsNum.num 0, top := JsNum.num 0, right := JsNum.num 10,
                    bottom := JsNum.num 10, width := JsNum.num 10,
                    height := JsNum.num 10 }
    ∧ cornerKeypoints.map (fun k => (k.x, k.y)) = cornerMesh.map (fun c => (c.x, c.y)) :=
  ⟨V106.getAdjustedFaceBox_nan _ cornerKeypoints rfl (by rw [cornerKeypoints_length]; decide),
   V003.getAdjustedFaceBox_cornerMesh,
   by simp [cornerKeypoints, cornerMesh]⟩

/-! ## Claims on `getSelectedScaledMesh` and on the classification step -/

theorem selectMeshPoints_selects {P : Type} (mesh : List P) (idx : List Nat) :
    SelectsEntries mesh idx (selectMeshPoints mesh idx) := by
  refine ⟨rfl, selectMeshPoints_length mesh idx, ?_⟩
  intro hlen e he
  rw [selectMeshPoints_in_range mesh idx
    (fun i _ hi => lt_of_lt_of_le hi hlen)] at he
  obtain ⟨c, _, hc⟩ := List.mem_map.mp he
  exact ⟨c, hc.symm⟩

theorem selectMeshPoints_SILHOUETTE_entries {P : Type} (mesh : List P) :
    (selectMeshPoints mesh SILHOUETTE).length = 36
    ∧ ∀ k, k < 36 → (selectMeshPoints mesh SILHOUETTE).getD k none
        = mesh[SILHOUETTE.getD k 0]? := by
  have h : selectMeshPoints mesh SILHOUETTE = SILHOUETTE.map (fun i => mesh[i]?) := by
    unfold selectMeshPoints
    simp only [SILHOUETTE_filter]
  refine ⟨by rw [h]; rfl, ?_⟩
  intro k hk
  have hk2 : k < SILHOUETTE.length := hk
  rw [h, List.getD_eq_getElem?_getD, List.getElem?_map, List.getD_eq_getElem?_getD,
    List.getElem?_eq_getElem hk2]
  rfl

/-- C3 (as amended): in both versions, on a detection on which selection
succeeds (a non-empty point array; in 0.0.3 also the kind
`MediaPipePredictionValues`), `getSelectedScaledMesh` returns, in the order the
indices were given and with duplicates kept, the array entry of the detection at
each index below 468, so as many entries as there are given indices below 468;
an entry is `undefined` when the array has no point at that index, and every
entry is a point when the detection has at least 468 points. For `SILHOUETTE` it
returns 36 entries, the k-th being the detection entry at `SILHOUETTE[k]`. -/
theorem getSelectedScaledMesh_entries (p : V003.Prediction) (f : V106.Face)
    (m3 : List V003.Coords) (m6 : List V106.Keypoint) (idx : List Nat)
    (hk : p.kind = "MediaPipePredictionValues") (h3 : p.scaledMesh = some m3)
    (hp3 : 0 < m3.length) (h6 : f.keypoints = some m6) (hp6 : 0 < m6.length) :
    (∃ sel, V003.getSelectedScaledMesh (some p) idx = Except.ok sel
        ∧ SelectsEntries m3 idx sel)
    ∧ (∃ sel, V106.getSelectedScaledMesh (some f) idx = Except.ok sel
        ∧ SelectsEntries m6 idx sel)
    ∧ (∃ sil, V003.getSelectedScaledMesh (some p) SILHOUETTE = Except.ok sil
        ∧ sil.length = 36
        ∧ (∀ k, k < 36 → sil.getD k none = m3[SILHOUETTE.getD k 0]?)
        ∧ (468 ≤ m3.length → ∀ e ∈ sil, ∃ c, e = some c))
    ∧ (∃ sil, V106.getSelectedScaledMesh (some f) SILHOUETTE = Except.ok sil
        ∧ sil.length = 36
        ∧ (∀ k, k < 36 → sil.getD k none = m6[SILHOUETTE.getD k 0]?)
        ∧ (468 ≤ m6.length → ∀ e ∈ sil, ∃ c, e = some c)) := by
  have e3 : ∀ l, V003.getSelectedScaledMesh (some p) l
      = Except.ok (selectMeshPoints m3 l) := by
    intro l
    rw [V003.getSelectedScaledMesh_mesh_tuples p m3 h3, if_pos ⟨hk, hp3⟩]
  have e6 : ∀ l, V106.getSelectedScaledMesh (some f) l
      = Except.ok (selectMeshPoints m6 l) := by
    intro l
    rw [V106.getSelectedScaledMesh_mesh_records f m6 h6, if_pos hp6]
  exact ⟨⟨_, e3 idx, selectMeshPoints_selects m3 idx⟩,
    ⟨_, e6 idx, selectMeshPoints_selects m6 idx⟩,
    ⟨_, e3 SILHOUETTE, (selectMeshPoints_SILHOUETTE_entries m3).1,
      (selectMeshPoints_SILHOUETTE_entries m3).2,
      (selectMeshPoints_selects m3 SILHOUETTE).2.2⟩,
    ⟨_, e6 SILHOUETTE, (selectMeshPoints_SILHOUETTE_entries m6).1,
      (selectMeshPoints_SILHOUETTE_entries m6).2,
      (selectMeshPoints_selects m6 SILHOUETTE).2.2⟩⟩

/-- Witness of C3: on the corner mesh the indices 5, 468, 3, 5, 500 select the
points of index 5, 3 and 5, in that order. -/
theorem getSelectedScaledMesh_entries_witness :
    V003.getSelectedScaledMesh (some ⟨"MediaPipePredictionValues", some cornerMesh⟩)
        [5, 468, 3, 5, 500]
      = Except.ok [some ⟨10, 0⟩, some ⟨0, 10⟩, some ⟨10, 0⟩]
    ∧ V106.getSelectedScaledMesh (some ⟨some cornerKeypoints⟩) [5, 468, 3, 5, 500]
      = Except.ok [some ⟨10, 0⟩, some ⟨0, 10⟩, some ⟨10, 0⟩] := by
  have h := getSelectedScaledMesh_entries ⟨"MediaPipePredictionValues", some cornerMesh⟩
    ⟨some cornerKeypoints⟩ cornerMesh cornerKeypoints [5, 468, 3, 5, 500] rfl rfl
    (by rw [cornerMesh_length]; decide) rfl (by rw [cornerKeypoints_length]; decide)
  obtain ⟨⟨s3, h3, hs3, _⟩, ⟨s6, h6, hs6, _⟩, _⟩ := h
  rw [h3, h6, hs3, hs6]
  constructor
  · simp [cornerMesh, cornerOf, List.getElem?_range]
  · simp [cornerKeypoints, cornerOf, List.getElem?_range]

/-- Counterexample to C3 as stated: on a detection with a single point, selection
succeeds and `SILHOUETTE` yields 36 entries that are all `undefined`, not 36
points of the detection. -/
theorem getSelectedScaledMesh_short_mesh_undefined :
    V003.getSelectedScaledMesh (some ⟨"MediaPipePredictionValues", some [⟨0, 0⟩]⟩) SILHOUETTE
      = Except.ok (List.replicate 36 none)
    ∧ V106.getSelectedScaledMesh (some ⟨some [⟨0, 0⟩]⟩) SILHOUETTE
      = Except.ok (List.replicate 36 none)
    ∧ ¬ (∃ pts : List V003.Coords,
          V003.getSelectedScaledMesh (some ⟨"MediaPipePredictionValues", some [⟨0, 0⟩]⟩)
            SILHOUETTE = Except.ok (pts.map some))
    ∧ ¬ (∃ pts : List V106.Keypoint,
          V106.getSelectedScaledMesh (some ⟨some [⟨0, 0⟩]⟩) SILHOUETTE
            = Except.ok (pts.map some)) := by
  have h3 : V003.getSelectedScaledMesh (some ⟨"MediaPipePredictionValues", some [⟨0, 0⟩]⟩)
      SILHOUETTE = Except.ok (List.replicate 36 none) := by
    rw [V003.getSelectedScaledMesh_mesh_tuples _ [⟨0, 0⟩] rfl, if_pos ⟨rfl, by decide⟩]
    simp [selectMeshPoints, SILHOUETTE, MAX_MESH_POINT, List.replicate]
  have h6 : V106.getSelectedScaledMesh (some ⟨some [⟨0, 0⟩]⟩) SILHOUETTE
      = Except.ok (List.replicate 36 none) := by
    rw [V106.getSelectedScaledMesh_mesh_records _ [⟨0, 0⟩] rfl, if_pos (by decide)]
    simp [selectMeshPoints, SILHOUETTE, MAX_MESH_POINT, List.replicate]
  refine ⟨h3, h6, ?_, ?_⟩
  · rintro ⟨pts, hp⟩
    rw [h3] at hp
    have hmem : (none : Option V003.Coords) ∈ pts.map some := by
      rw [← Except.ok.inj hp]; simp [List.replicate]
    simp at hmem
  · rintro ⟨pts, hp⟩
    rw [h6] at hp
    have hmem : (none : Option V106.Keypoint) ∈ pts.map some := by
      rw [← Except.ok.inj hp]; simp [List.replicate]
    simp at hmem

/-- C6 (as amended): in 1.0.6, for every index list, `getSelectedScaledMesh`
returns the empty sequence when the detection is absent, and throws the
empty-detection error when the detection is present but its `keypoints` are
missing or of length 0. -/
theorem getSelectedScaledMesh_absent_or_empty (idx : List Nat) :
    V106.getSelectedScaledMesh none idx = Except.ok []
    ∧ V106.getSelectedScaledMesh (some ⟨none⟩) idx
        = Except.error JsError.emptyDetectionResult
    ∧ V106.getSelectedScaledMesh (some ⟨some []⟩) idx
        = Except.error JsError.emptyDetectionResult := by
  refine ⟨rfl, rfl, ?_⟩
  rw [V106.getSelectedScaledMesh_mesh_records _ [] rfl, if_neg (by decide)]

/-- Counterexample to C6 as stated: a present detection whose `keypoints` are
empty, or missing, makes 1.0.6 `getSelectedScaledMesh` throw instead of returning
the empty sequence. -/
theorem getSelectedScaledMesh_empty_keypoints_throws :
    V106.getSelectedScaledMesh (some ⟨some []⟩) SILHOUETTE
        = Except.error JsError.emptyDetectionResult
    ∧ V106.getSelectedScaledMesh (some ⟨none⟩) SILHOUETTE
        = Except.error JsError.emptyDetectionResult
    ∧ V106.getSelectedScaledMesh (some ⟨some []⟩) SILHOUETTE ≠ Except.ok [] := by
  have h : V106.getSelectedScaledMesh (some ⟨some []⟩) SILHOUETTE
      = Except.error JsError.emptyDetectionResult := by
    rw [V106.getSelectedScaledMesh_mesh_records _ [] rfl, if_neg (by decide)]
  refine ⟨h, rfl, ?_⟩
  rw [h]
  intro h2
  cases h2

/-- C8 (as amended): with `factor = 3` the classification step maps the ratio 2
to center, 3 to left, 0.33 to right (0.33 is below 1/3) and 0.2 to right; the
ratio 0.34 is classified center. -/
theorem classifyDirection_factor_three :
    classifyDirection (JsNum.num 2) 3 = Direction.center
    ∧ classifyDirection (JsNum.num 3) 3 = Direction.left
    ∧ classifyDirection (JsNum.num (33 / 100)) 3 = Direction.right
    ∧ classifyDirection (JsNum.num (1 / 5)) 3 = Direction.right
    ∧ classifyDirection (JsNum.num (34 / 100)) 3 = Direction.center := by
  have h := fun r => classifyDirection_num r 3 (by norm_num)
  refine ⟨(h 2).1.mpr ?_, (h 3).2.1.mpr ?_, (h (33 / 100)).2.2.mpr ?_,
    (h (1 / 5)).2.2.mpr ?_, (h (34 / 100)).1.mpr ?_⟩ <;> norm_num

/-- Counterexample to C8 as stated: with `factor = 3` the ratio 0.33 is not
classified center. -/
theorem classifyDirection_033_not_center :
    classifyDirection (JsNum.num (33 / 100)) 3 ≠ Direction.center := by
  have h := (classifyDirection_num (33 / 100) 3 (by norm_num)).2.2.mpr (by norm_num)
  rw [h]
  decide

/-! ## Failure cases of version 0.0.3 -/

theorem V003.getFaceDirection_mesh (p : V003.Prediction) (mesh : List V003.Coords)
    (hk : p.kind = "MediaPipePredictionValues") (hm : p.scaledMesh = some mesh)
    (hpos : 0 < mesh.length) (factor : ℚ) :
    V003.getFaceDirection (some p) factor
      = faceDirectionOf V003.getPolygonArea (Except.ok (selectMeshPoints mesh LEFT_NOSE))
          (Except.ok (selectMeshPoints mesh RIGHT_NOSE)) factor := by
  unfold V003.getFaceDirection
  rw [V003.getSelectedScaledMesh_mesh_tuples p mesh hm, V003.getSelectedScaledMesh_mesh_tuples p mesh hm,
    if_pos ⟨hk, hpos⟩, if_pos ⟨hk, hpos⟩]

theorem V003.fails_of_selection_fails (pred : Option V003.Prediction) (e : JsError)
    (factor : ℚ)
    (h : ∀ idx, V003.getSelectedScaledMesh pred idx = Except.error e) :
    V003.getAdjustedFaceBox pred = Except.error e
    ∧ V003.getFaceDirection pred factor = Except.error e := by
  constructor
  · unfold V003.getAdjustedFaceBox
    rw [h]
  · unfold V003.getFaceDirection faceDirectionOf
    rw [h]

/-- C7 (as amended): in 0.0.3, `getSelectedScaledMesh` throws exactly when the
detection is absent, its kind is not `MediaPipePredictionValues`, or its
`scaledMesh` is missing or of length 0, and returns a sequence in every other
case. `getAdjustedFaceBox` and `getFaceDirection` throw on those detections and
also on the detections whose mesh is too short for a selected index: fewer than
455 points for `getAdjustedFaceBox`, fewer than 458 for `getFaceDirection`. -/
theorem getSelectedScaledMesh_failure_cases (pred : Option V003.Prediction)
    (idx : List Nat) (factor : ℚ) :
    ((∃ e, V003.getSelectedScaledMesh pred idx = Except.error e)
        ↔ V003.EmptyDetection pred)
    ∧ ((∃ sel, V003.getSelectedScaledMesh pred idx = Except.ok sel)
        ↔ ¬ V003.EmptyDetection pred)
    ∧ ((∃ e, V003.getAdjustedFaceBox pred = Except.error e)
        ↔ V003.EmptyDetection pred ∨ V003.meshLength pred < 455)
    ∧ ((∃ e, V003.getFaceDirection pred factor = Except.error e)
        ↔ V003.EmptyDetection pred ∨ V003.meshLength pred < 458) := by
  have failing : ∀ e, (∀ l, V003.getSelectedScaledMesh pred l = Except.error e) →
      V003.EmptyDetection pred →
      ((∃ e, V003.getSelectedScaledMesh pred idx = Except.error e)
          ↔ V003.EmptyDetection pred)
      ∧ ((∃ sel, V003.getSelectedScaledMesh pred idx = Except.ok sel)
          ↔ ¬ V003.EmptyDetection pred)
      ∧ ((∃ e, V003.getAdjustedFaceBox pred = Except.error e)
          ↔ V003.EmptyDetection pred ∨ V003.meshLength pred < 455)
      ∧ ((∃ e, V003.getFaceDirection pred factor = Except.error e)
          ↔ V003.EmptyDetection pred ∨ V003.meshLength pred < 458) := by
    intro e hall hempty
    have hf := V003.fails_of_selection_fails pred e factor hall
    refine ⟨⟨fun _ => hempty, fun _ => ⟨e, hall idx⟩⟩, ⟨?_, fun hn => absurd hempty hn⟩,
      ⟨fun _ => Or.inl hempty, fun _ => ⟨e, hf.1⟩⟩,
      ⟨fun _ => Or.inl hempty, fun _ => ⟨e, hf.2⟩⟩⟩
    rintro ⟨sel, hsel⟩
    rw [hall idx] at hsel
    cases hsel
  cases pred with
  | none =>
    exact failing JsError.typeError (fun _ => rfl) (Or.inl rfl)
  | some p =>
    cases hm : p.scaledMesh with
    | none =>
      exact failing JsError.emptyDetectionResult
        (fun l => V003.getSelectedScaledMesh_missing_tuples p hm l)
        (Or.inr ⟨p, rfl, Or.inr (Or.inl hm)⟩)
    | some mesh =>
      by_cases hg : p.kind = "MediaPipePredictionValues" ∧ mesh.length > 0
      · obtain ⟨hk, hpos⟩ := hg
        have hne : ¬ V003.EmptyDetection (some p) := by
          rintro (h | ⟨q, hq, h | h | h⟩)
          · cases h
          · cases hq; exact h hk
          · cases hq; rw [hm] at h; cases h
          · cases hq
            rw [hm] at h
            cases h
            simp at hpos
        have hsel : ∀ l, V003.getSelectedScaledMesh (some p) l
            = Except.ok (selectMeshPoints mesh l) := by
          intro l
          rw [V003.getSelectedScaledMesh_mesh_tuples p mesh hm, if_pos ⟨hk, hpos⟩]
        have hml : V003.meshLength (some p) = mesh.length := by
          simp only [V003.meshLength, hm]
        refine ⟨⟨?_, fun h => absurd h hne⟩, ⟨fun _ => hne, fun _ => ⟨_, hsel idx⟩⟩, ?_, ?_⟩
        · rintro ⟨e, he⟩
          rw [hsel idx] at he
          cases he
        · rw [hml]
          by_cases hlen : 455 ≤ mesh.length
          · rw [V003.getAdjustedFaceBox_long_tuples p mesh hk hm hlen, adjustedFaceBoxOf_points]
            constructor
            · rintro ⟨e, he⟩; cases he
            · rintro (h | h)
              · exact absurd h hne
              · omega
          · rw [V003.getAdjustedFaceBox_short p mesh hk hm hpos (by omega)]
            exact ⟨fun _ => Or.inr (by omega), fun _ => ⟨_, rfl⟩⟩
        · rw [hml, V003.getFaceDirection_mesh p mesh hk hm hpos]
          by_cases hlen : 458 ≤ mesh.length
          · have hlong := faceDirectionOf_long (fun c : V003.Coords => (c.x, c.y))
              V003.destructure (by intro c; rfl) mesh hlen factor
            unfold V003.getPolygonArea
            rw [hlong]
            constructor
            · rintro ⟨e, he⟩; cases he
            · rintro (h | h)
              · exact absurd h hne
              · omega
          · have hshort := faceDirectionOf_short V003.destructure V003.destructure_error_tuples rfl
              mesh (by omega) factor
            unfold V003.getPolygonArea
            rw [hshort]
            exact ⟨fun _ => Or.inr (by omega), fun _ => ⟨_, rfl⟩⟩
      · have hempty : V003.EmptyDetection (some p) := by
          refine Or.inr ⟨p, rfl, ?_⟩
          by_cases hk : p.kind = "MediaPipePredictionValues"
          · right; right
            have h0 : mesh.length = 0 := by
              by_contra h0
              exact hg ⟨hk, Nat.pos_of_ne_zero h0⟩
            rw [hm, List.length_eq_zero.mp h0]
          · exact Or.inl hk
        exact failing JsError.emptyDetectionResult
          (fun l => by rw [V003.getSelectedScaledMesh_mesh_tuples p mesh hm, if_neg hg]) hempty

/-- Counterexample to C7 as stated: on a detection of the right kind with two
points, `getSelectedScaledMesh` succeeds while `getAdjustedFaceBox` and
`getFaceDirection` throw. -/
theorem getAdjustedFaceBox_throws_where_selection_succeeds :
    V003.getSelectedScaledMesh
        (some ⟨"MediaPipePredictionValues", some [⟨0, 0⟩, ⟨1, 1⟩]⟩) RIGHT_NOSE
      = Except.ok [none, none, none, none, none, some ⟨1, 1⟩, none, none, none, none, none,
          none, none, none, none, none]
    ∧ V003.getAdjustedFaceBox (some ⟨"MediaPipePredictionValues", some [⟨0, 0⟩, ⟨1, 1⟩]⟩)
      = Except.error JsError.typeError
    ∧ V003.getFaceDirection (some ⟨"MediaPipePredictionValues", some [⟨0, 0⟩, ⟨1, 1⟩]⟩) 3
      = Except.error JsError.typeError := by
  refine ⟨?_, ?_, ?_⟩
  · rw [V003.getSelectedScaledMesh_mesh_tuples _ [⟨0, 0⟩, ⟨1, 1⟩] rfl, if_pos ⟨rfl, by decide⟩]
    simp [selectMeshPoints, RIGHT_NOSE, MAX_MESH_POINT]
  · exact V003.getAdjustedFaceBox_short _ [⟨0, 0⟩, ⟨1, 1⟩] rfl rfl (by decide) (by decide)
  · rw [V003.getFaceDirection_mesh _ [⟨0, 0⟩, ⟨1, 1⟩] rfl rfl (by decide)]
    exact faceDirectionOf_short V003.destructure V003.destructure_error_tuples rfl _ (by decide) 3

theorem pointsAt_stripedMesh_right : pointsAt stripedMesh RIGHT_NOSE
    = [⟨0, 0⟩, ⟨1, 2⟩, ⟨1, 0⟩, ⟨1, 2⟩, ⟨0, 1⟩, ⟨1, 1⟩, ⟨0, 1⟩, ⟨1, 1⟩, ⟨0, 0⟩, ⟨0, 2⟩,
       ⟨0, 0⟩, ⟨0, 0⟩, ⟨1, 2⟩, ⟨1, 1⟩, ⟨0, 1⟩, ⟨1, 0⟩] := by
  simp [pointsAt, stripedMesh, RIGHT_NOSE, List.getElem?_range]

/-- The classification in exact arithmetic on the striped mesh of 468 points
(point `i` at `(i mod 2, i mod 3)`): the right-nose area is 1/2, and
`getFaceDirection` with factor 3 returns a record that meets the classification. -/
theorem getFaceDirection_classifies_witness :
    ∃ res lsel l,
      V003.getSelectedScaledMesh (some ⟨"MediaPipePredictionValues", some stripedMesh⟩)
          LEFT_NOSE = Except.ok lsel
      ∧ V003.getPolygonArea lsel = Except.ok l
      ∧ V003.getFaceDirection (some ⟨"MediaPipePredictionValues", some stripedMesh⟩) 3
          = Except.ok res
      ∧ FaceDirectionSpec res l (1 / 2) 3 := by
  have hlen : stripedMesh.length = 468 := by simp [stripedMesh]
  have hsel : V003.getSelectedScaledMesh
      (some ⟨"MediaPipePredictionValues", some stripedMesh⟩) RIGHT_NOSE
      = Except.ok (selectMeshPoints stripedMesh RIGHT_NOSE) := by
    rw [V003.getSelectedScaledMesh_mesh_tuples _ stripedMesh rfl,
      if_pos ⟨rfl, by rw [hlen]; decide⟩]
  have harea : V003.getPolygonArea (selectMeshPoints stripedMesh RIGHT_NOSE)
      = Except.ok (1 / 2) := by
    rw [selectMeshPoints_in_range stripedMesh RIGHT_NOSE
      (fun i hi _ => by rw [hlen]; exact lt_trans (RIGHT_NOSE_bound i hi) (by decide)),
      RIGHT_NOSE_filter, V003.getPolygonArea_points_tuples, pointsAt_stripedMesh_right]
    norm_num [closePath, pathSum, cross]
  exact (getFaceDirection_classifies 3 (by norm_num)).1 _ _ (1 / 2) hsel harea (by norm_num)

/-! ## A right-nose area of 0 -/

theorem getPolygonAreaWith_nonneg {P : Type}
    (destructure : Option P → Except JsError (ℚ × ℚ)) (polygon : List (Option P)) (v : ℚ)
    (h : getPolygonAreaWith destructure polygon = Except.ok v) : 0 ≤ v := by
  unfold getPolygonAreaWith at h
  cases hr : reduce (areaCallback destructure polygon) polygon 0 with
  | error e => rw [hr] at h; cases h
  | ok area =>
    rw [hr] at h
    cases h
    exact abs_nonneg area

theorem classifyDirection_zero_divisor (l factor : ℚ) (hl : 0 ≤ l) :
    classifyDirection (JsNum.divQ l 0) factor = Direction.left
    ∧ JsNum.divQ l 0 = (if 0 < l then JsNum.posInf else JsNum.nan) := by
  by_cases hpos : 0 < l
  · have hd : JsNum.divQ l 0 = JsNum.posInf := by
      simp [JsNum.divQ, hpos]
    rw [hd, if_pos hpos]
    exact ⟨by simp [classifyDirection, JsNum.lt], rfl⟩
  · have hneg : ¬ l < 0 := not_lt.mpr hl
    have hd : JsNum.divQ l 0 = JsNum.nan := by
      simp [JsNum.divQ, hpos, hneg]
    rw [hd, if_neg hpos]
    exact ⟨by simp [classifyDirection, JsNum.lt], rfl⟩

theorem faceDirectionOf_zero_right {P : Type} (area : List (Option P) → Except JsError ℚ)
    (harea : ∀ pts v, area pts = Except.ok v → 0 ≤ v)
    (leftSel rightSel : Except JsError (List (Option P))) (factor : ℚ)
    (res : FaceDirectionResult)
    (h : faceDirectionOf area leftSel rightSel factor = Except.ok res)
    (hr : res.rightNoseArea = 0) :
    res.direction = Direction.left
    ∧ res.leftToRightRatio
        = (if 0 < res.leftNoseArea then JsNum.posInf else JsNum.nan) := by
  unfold faceDirectionOf at h
  cases leftSel with
  | error e => cases h
  | ok leftPts =>
    simp only at h
    cases hl : area leftPts with
    | error e => rw [hl] at h; cases h
    | ok l =>
      rw [hl] at h
      cases rightSel with
      | error e => cases h
      | ok rightPts =>
        simp only at h
        cases hrr : area rightPts with
        | error e => rw [hrr] at h; cases h
        | ok r =>
          rw [hrr] at h
          cases h
          simp only at hr
          subst hr
          exact classifyDirection_zero_divisor l factor (harea leftPts l hl)

theorem faceDirectionResult_eq (res : FaceDirectionResult) (l r : ℚ) (q : JsNum)
    (d : Direction) (h1 : res.leftNoseArea = l) (h2 : res.rightNoseArea = r)
    (h3 : res.leftToRightRatio = q) (h4 : res.direction = d) :
    res = { leftNoseArea := l, rightNoseArea := r, leftToRightRatio := q, direction := d } := by
  cases res
  simp only at h1 h2 h3 h4
  subst h1 h2 h3 h4
  rfl

theorem leftOnlyMesh_length : leftOnlyMesh.length = 468 := by
  simp [leftOnlyMesh]

theorem pointsAt_leftOnlyMesh_left : pointsAt leftOnlyMesh LEFT_NOSE
    = [⟨0, 0⟩, ⟨0, 0⟩, ⟨0, 0⟩, ⟨0, 0⟩, ⟨0, 0⟩, ⟨0, 0⟩, ⟨1, 0⟩, ⟨0, 1⟩, ⟨0, 0⟩, ⟨0, 0⟩,
       ⟨0, 0⟩, ⟨0, 0⟩, ⟨0, 0⟩, ⟨0, 0⟩, ⟨0, 0⟩, ⟨0, 0⟩] := by
  simp [pointsAt, leftOnlyMesh, LEFT_NOSE, List.getElem?_range]

theorem pointsAt_leftOnlyMesh_right : pointsAt leftOnlyMesh RIGHT_NOSE
    = List.replicate 16 ⟨0, 0⟩ := by
  simp [pointsAt, leftOnlyMesh, RIGHT_NOSE, List.getElem?_range, List.replicate]

theorem V106.getFaceDirection_absent (factor : ℚ) :
    V106.getFaceDirection none factor
      = Except.ok { leftNoseArea := 0, rightNoseArea := 0, leftToRightRatio := JsNum.nan,
                    direction := Direction.left } := by
  have h0 : V106.getPolygonArea [] = Except.ok 0 := by
    simp [V106.getPolygonArea, getPolygonAreaWith, reduce, reduceFrom]
  have hc := classifyDirection_zero_divisor 0 factor (le_refl 0)
  simp only [lt_irrefl, if_false] at hc
  have hc1 : classifyDirection JsNum.nan factor = Direction.left := by
    rw [← hc.2]; exact hc.1
  unfold V106.getFaceDirection faceDirectionOf V106.getSelectedScaledMesh
  simp only [h0, hc1, hc.2]

/-- C11: in both versions, whenever `getFaceDirection` returns a record whose
right-nose area is 0, the direction of the record is left, for every factor and
so for every factor above 1: the ratio is `Infinity` when the left-nose area is
positive and `NaN` when it is 0 too, and neither is below the factor. Version
1.0.6 returns such a record, with both areas 0, for an absent detection. -/
theorem getFaceDirection_zero_right_area (factor : ℚ) :
    (∀ (pred : Option V003.Prediction) (res : FaceDirectionResult),
      V003.getFaceDirection pred factor = Except.ok res → res.rightNoseArea = 0 →
      res.direction = Direction.left
      ∧ res.leftToRightRatio
          = (if 0 < res.leftNoseArea then JsNum.posInf else JsNum.nan))
    ∧ (∀ (pred : Option V106.Face) (res : FaceDirectionResult),
      V106.getFaceDirection pred factor = Except.ok res → res.rightNoseArea = 0 →
      res.direction = Direction.left
      ∧ res.leftToRightRatio
          = (if 0 < res.leftNoseArea then JsNum.posInf else JsNum.nan))
    ∧ V106.getFaceDirection none factor
        = Except.ok { leftNoseArea := 0, rightNoseArea := 0,
                      leftToRightRatio := JsNum.nan, direction := Direction.left } := by
  refine ⟨?_, ?_, V106.getFaceDirection_absent factor⟩
  · intro pred res h hr
    exact faceDirectionOf_zero_right V003.getPolygonArea
      (fun pts v hv => getPolygonAreaWith_nonneg V003.destructure pts v hv) _ _ factor res h hr
  · intro pred res h hr
    exact faceDirectionOf_zero_right V106.getPolygonArea
      (fun pts v hv => getPolygonAreaWith_nonneg V106.destructure pts v hv) _ _ factor res h hr

/-- Witness of C11: with factor 3, the 0.0.3 mesh whose only points off the
origin are those of index 44 and 237 has left-nose area 1/2 and right-nose area
0, and gets the ratio `Infinity` and the direction left; the absent detection of
1.0.6 has both areas 0 and gets the ratio `NaN` and the direction left. -/
theorem getFaceDirection_zero_right_area_witness :
    V003.getFaceDirection (some ⟨"MediaPipePredictionValues", some leftOnlyMesh⟩) 3
      = Except.ok { leftNoseArea := 1 / 2, rightNoseArea := 0,
                    leftToRightRatio := JsNum.posInf, direction := Direction.left }
    ∧ V106.getFaceDirection none 3
      = Except.ok { leftNoseArea := 0, rightNoseArea := 0, leftToRightRatio := JsNum.nan,
                    direction := Direction.left } := by
  have hlong := faceDirectionOf_long (fun c : V003.Coords => (c.x, c.y)) V003.destructure
    (by intro c; rfl) leftOnlyMesh (by rw [leftOnlyMesh_length]; decide) 3
  have hret := (V003.getFaceDirection_mesh ⟨"MediaPipePredictionValues", some leftOnlyMesh⟩
    leftOnlyMesh rfl rfl (by rw [leftOnlyMesh_length]; decide) 3).trans hlong
  have hl : shoelaceArea ((pointsAt leftOnlyMesh LEFT_NOSE).map
      (fun c : V003.Coords => (c.x, c.y))) = 1 / 2 := by
    rw [pointsAt_leftOnlyMesh_left]
    norm_num [shoelaceArea, closePath, pathSum, cross]
  have hr : shoelaceArea ((pointsAt leftOnlyMesh RIGHT_NOSE).map
      (fun c : V003.Coords => (c.x, c.y))) = 0 := by
    rw [pointsAt_leftOnlyMesh_right]
    norm_num [shoelaceArea, closePath, pathSum, cross, List.replicate]
  have h3 := (getFaceDirection_zero_right_area 3).1 _ _ hret hr
  have h6 := (getFaceDirection_zero_right_area 3).2.2
  refine ⟨?_, h6⟩
  have hq := h3.2
  rw [if_pos (lt_of_lt_of_eq (by norm_num : (0 : ℚ) < 1 / 2) hl.symm)] at hq
  rw [hret]
  exact congrArg Except.ok (faceDirectionResult_eq _ _ _ _ _ hl hr hq h3.1)

/-! ## Rounding to a double -/

theorem Ieee.roundHalfEven_intCast (n : ℤ) : Ieee.roundHalfEven (n : ℚ) = n := by
  unfold Ieee.roundHalfEven
  simp

theorem Ieee.roundHalfEven_le (x : ℚ) (N : ℤ) (h : x ≤ N) : Ieee.roundHalfEven x ≤ N := by
  have hf : ⌊x⌋ ≤ N := Int.floor_le_floor h |>.trans (by simp)
  have hstep : 0 < x - ⌊x⌋ → ⌊x⌋ + 1 ≤ N := by
    intro hpos
    have h1 : (⌊x⌋ : ℚ) < N := by
      have := Int.floor_le x
      linarith
    have h2 : ⌊x⌋ < N := by exact_mod_cast h1
    omega
  have hfrac : 0 ≤ x - ⌊x⌋ := by
    have := Int.floor_le x
    linarith
  unfold Ieee.roundHalfEven
  split_ifs with h1 h2 h3
  · exact hf
  · exact hstep (by linarith)
  · exact hf
  · exact hstep (by
      have : x - ⌊x⌋ = 1 / 2 := le_antisymm (not_lt.mp h2) (not_lt.mp h1)
      rw [this]; norm_num)

theorem Ieee.le_roundHalfEven (x : ℚ) (N : ℤ) (h : (N : ℚ) ≤ x) : N ≤ Ieee.roundHalfEven x := by
  have hf : N ≤ ⌊x⌋ := Int.le_floor.mpr h
  unfold Ieee.roundHalfEven
  split_ifs <;> omega

theorem Ieee.zpow_log_bounds (q : ℚ) (hq : q ≠ 0) :
    (2 : ℚ) ^ Int.log 2 |q| ≤ |q| ∧ |q| < (2 : ℚ) ^ (Int.log 2 |q| + 1) := by
  have hpos : 0 < |q| := abs_pos.mpr hq
  have h1 := Int.zpow_log_le_self (b := 2) (r := |q|) (by norm_num) hpos
  have h2 := Int.lt_zpow_succ_log_self (b := 2) (by norm_num) |q|
  exact ⟨by exact_mod_cast h1, by exact_mod_cast h2⟩

theorem Ieee.roundDouble_zero : Ieee.roundDouble 0 = JsNum.num 0 := by
  unfold Ieee.roundDouble
  simp

theorem Ieee.roundDouble_of_isDouble (r : ℚ) (h : Ieee.IsDouble r) :
    Ieee.roundDouble r = JsNum.num r := by
  obtain ⟨n, k, hn, hk, hr, hfin⟩ := h
  by_cases h0 : r = 0
  · rw [h0]; exact Ieee.roundDouble_zero
  · have hpos : 0 < |r| := abs_pos.mpr h0
    have h2 : (0 : ℚ) < 2 := by norm_num
    have hnq : |(n : ℚ)| < 2 ^ (53 : ℤ) := by
      have h := (Int.cast_lt (R := ℚ)).mpr hn
      rw [Int.cast_abs] at h
      norm_num at h ⊢
      exact h
    have habs : |r| < (2 : ℚ) ^ (k + 53) := by
      rw [hr, abs_mul, abs_of_pos (zpow_pos h2 k), zpow_add₀ (by norm_num : (2 : ℚ) ≠ 0),
        mul_comm ((2 : ℚ) ^ k)]
      exact mul_lt_mul_of_pos_right hnq (zpow_pos h2 k)
    have hlog : Int.log 2 |r| < k + 53 :=
      (Int.lt_zpow_iff_log_lt (b := 2) (by norm_num) hpos).mp (by exact_mod_cast habs)
    have hexp : max (Int.log 2 |r|) (-1022) - 52 ≤ k := by
      rcases max_cases (Int.log 2 |r|) (-1022) with ⟨h1, _⟩ | ⟨h1, _⟩ <;> omega
    unfold Ieee.roundDouble
    rw [if_neg h0]
    generalize max (Int.log 2 |r|) (-1022) - 52 = E at hexp ⊢
    obtain ⟨j, hj⟩ := Int.eq_ofNat_of_zero_le (sub_nonneg.mpr hexp)
    have hquot : r / (2 : ℚ) ^ E = ((n * 2 ^ j : ℤ) : ℚ) := by
      have h3 : r / (2 : ℚ) ^ E = n * (2 : ℚ) ^ (k - E) := by
        rw [hr, mul_div_assoc, ← zpow_sub₀ (by norm_num : (2 : ℚ) ≠ 0)]
      rw [h3, hj, zpow_natCast]
      push_cast
      rfl
    have hback : ((n * 2 ^ j : ℤ) : ℚ) * (2 : ℚ) ^ E = r := by
      rw [← hquot]
      exact div_mul_cancel₀ _ (zpow_ne_zero _ (by norm_num))
    simp only [hquot, Ieee.roundHalfEven_intCast, hback]
    rw [if_neg (not_le.mpr hfin)]

theorem Ieee.isDouble_zero : Ieee.IsDouble 0 :=
  ⟨0, 0, by norm_num, by norm_num, by simp, by norm_num⟩

theorem Ieee.roundDouble_quotient_bound (q : ℚ) (hq : q ≠ 0) :
    |q / (2 : ℚ) ^ (max (Int.log 2 |q|) (-1022) - 52)| < 2 ^ (53 : ℤ) := by
  have h2 : (0 : ℚ) < 2 := by norm_num
  have hb := (Ieee.zpow_log_bounds q hq).2
  have hmono : (2 : ℚ) ^ (Int.log 2 |q| + 1) ≤ 2 ^ (max (Int.log 2 |q|) (-1022) + 1) :=
    zpow_le_zpow_right₀ (by norm_num) (by
      have := le_max_left (Int.log 2 |q|) (-1022)
      omega)
  rw [abs_div, abs_of_pos (zpow_pos h2 _), div_lt_iff₀ (zpow_pos h2 _),
    ← zpow_add₀ (by norm_num : (2 : ℚ) ≠ 0)]
  have he : (53 : ℤ) + (max (Int.log 2 |q|) (-1022) - 52)
      = max (Int.log 2 |q|) (-1022) + 1 := by ring
  rw [he]
  exact lt_of_lt_of_le hb hmono

theorem Ieee.roundDouble_eq_num (q r : ℚ) (hq : q ≠ 0) (h : Ieee.roundDouble q = JsNum.num r) :
    r = Ieee.roundHalfEven (q / (2 : ℚ) ^ (max (Int.log 2 |q|) (-1022) - 52))
          * (2 : ℚ) ^ (max (Int.log 2 |q|) (-1022) - 52)
    ∧ |r| < (2 : ℚ) ^ (1024 : ℕ) := by
  unfold Ieee.roundDouble at h
  rw [if_neg hq] at h
  simp only at h
  split_ifs at h with h1 h2
  injection h with h3
  refine ⟨h3.symm, ?_⟩
  rw [← h3]
  exact not_le.mp h1

theorem Ieee.roundHalfEven_quotient_abs (q : ℚ) (hq : q ≠ 0) :
    |Ieee.roundHalfEven (q / (2 : ℚ) ^ (max (Int.log 2 |q|) (-1022) - 52))| ≤ 2 ^ 53 := by
  have hb := Ieee.roundDouble_quotient_bound q hq
  have hb2 := abs_lt.mp hb
  have hN : (((2 : ℤ) ^ 53 : ℤ) : ℚ) = (2 : ℚ) ^ (53 : ℤ) := by norm_num
  have h1 := Ieee.roundHalfEven_le
    (q / (2 : ℚ) ^ (max (Int.log 2 |q|) (-1022) - 52)) (2 ^ 53)
    (by rw [hN]; exact le_of_lt hb2.2)
  have h2 := Ieee.le_roundHalfEven
    (q / (2 : ℚ) ^ (max (Int.log 2 |q|) (-1022) - 52)) (-(2 ^ 53))
    (by rw [Int.cast_neg, hN]; exact le_of_lt hb2.1)
  exact abs_le.mpr ⟨h2, h1⟩

theorem Ieee.isDouble_of_roundDouble (q r : ℚ) (h : Ieee.roundDouble q = JsNum.num r) :
    Ieee.IsDouble r := by
  by_cases hq : q = 0
  · rw [hq, Ieee.roundDouble_zero] at h
    injection h with h1
    rw [← h1]
    exact Ieee.isDouble_zero
  · obtain ⟨hr, hfin⟩ := Ieee.roundDouble_eq_num q r hq h
    have hm := Ieee.roundHalfEven_quotient_abs q hq
    have hE : -1074 ≤ max (Int.log 2 |q|) (-1022) - 52 := by
      have := le_max_right (Int.log 2 |q|) (-1022)
      omega
    generalize max (Int.log 2 |q|) (-1022) - 52 = E at hr hm hE
    generalize Ieee.roundHalfEven (q / (2 : ℚ) ^ E) = m at hr hm
    by_cases hlt : |m| < 2 ^ 53
    · exact ⟨m, E, hlt, hE, hr, hfin⟩
    · have heq : |m| = 2 ^ 53 := le_antisymm hm (not_lt.mp hlt)
      have h2 : (2 : ℚ) ^ (E + 1) = 2 ^ E * 2 := by
        rw [zpow_add₀ (by norm_num : (2 : ℚ) ≠ 0), zpow_one]
      rcases abs_eq (by norm_num : (0 : ℤ) ≤ 2 ^ 53) |>.mp heq with h3 | h3
      · refine ⟨2 ^ 52, E + 1, by norm_num, by omega, ?_, hfin⟩
        rw [hr, h3, h2]
        push_cast
        ring
      · refine ⟨-(2 ^ 52), E + 1, by norm_num, by omega, ?_, hfin⟩
        rw [hr, h3, h2]
        push_cast
        ring

theorem Ieee.roundDouble_idempotent (q r : ℚ) (h : Ieee.roundDouble q = JsNum.num r) :
    Ieee.roundDouble r = JsNum.num r :=
  Ieee.roundDouble_of_isDouble r (Ieee.isDouble_of_roundDouble q r h)

theorem Ieee.isDouble_one : Ieee.IsDouble 1 :=
  ⟨1, 0, by norm_num, by norm_num, by simp, by norm_num⟩

theorem Ieee.roundDouble_le_one (x : ℚ) (hpos : 0 < x) (hle : x ≤ 1) :
    ∃ y, Ieee.roundDouble x = JsNum.num y ∧ 0 ≤ y ∧ y ≤ 1 := by
  rcases eq_or_lt_of_le hle with h1 | h1
  · exact ⟨1, by rw [h1]; exact Ieee.roundDouble_of_isDouble 1 Ieee.isDouble_one,
      by norm_num, le_refl 1⟩
  · have hx0 : x ≠ 0 := ne_of_gt hpos
    have h2 : (0 : ℚ) < 2 := by norm_num
    have habs : |x| = x := abs_of_pos hpos
    have hlog : Int.log 2 |x| < 0 := by
      apply (Int.lt_zpow_iff_log_lt (b := 2) (by norm_num) (abs_pos.mpr hx0)).mp
      rw [habs]
      simpa using h1
    have hE : max (Int.log 2 |x|) (-1022) - 52 ≤ -53 := by
      rcases max_cases (Int.log 2 |x|) (-1022) with ⟨h3, _⟩ | ⟨h3, _⟩ <;> omega
    have hm := Ieee.roundHalfEven_quotient_abs x hx0
    have hm0 : 0 ≤ Ieee.roundHalfEven (x / (2 : ℚ) ^ (max (Int.log 2 |x|) (-1022) - 52)) :=
      Ieee.le_roundHalfEven _ 0 (by
        push_cast
        exact le_of_lt (div_pos hpos (zpow_pos h2 _)))
    unfold Ieee.roundDouble
    rw [if_neg hx0]
    simp only
    generalize max (Int.log 2 |x|) (-1022) - 52 = E at hE hm hm0 ⊢
    generalize Ieee.roundHalfEven (x / (2 : ℚ) ^ E) = m at hm hm0 ⊢
    have hmle : m ≤ 2 ^ 53 := (abs_le.mp hm).2
    have hmq : (m : ℚ) ≤ 2 ^ (53 : ℤ) := by
      have := (Int.cast_le (R := ℚ)).mpr hmle
      norm_num at this ⊢
      exact this
    have hm0q : (0 : ℚ) ≤ m := by exact_mod_cast hm0
    have hy1 : (m : ℚ) * 2 ^ E ≤ 1 := by
      calc (m : ℚ) * 2 ^ E ≤ 2 ^ (53 : ℤ) * 2 ^ E :=
            mul_le_mul_of_nonneg_right hmq (le_of_lt (zpow_pos h2 E))
        _ = 2 ^ (53 + E) := by rw [zpow_add₀ (by norm_num : (2 : ℚ) ≠ 0)]
        _ ≤ 2 ^ (0 : ℤ) := zpow_le_zpow_right₀ (by norm_num) (by omega)
        _ = 1 := by simp
    have hy0 : (0 : ℚ) ≤ m * 2 ^ E := mul_nonneg hm0q (le_of_lt (zpow_pos h2 E))
    have hnov : ¬ (2 : ℚ) ^ (1024 : ℕ) ≤ |(m : ℚ) * 2 ^ E| := by
      rw [abs_of_nonneg hy0, not_le]
      exact lt_of_le_of_lt hy1 (by norm_num)
    rw [if_neg hnov]
    exact ⟨_, rfl, hy0, hy1⟩

/-! ## `getPolygonArea` in double arithmetic -/

theorem Ieee.areaCallback_some_doubles {P : Type} (xy : P → ℚ × ℚ)
    (destructure : Option P → Except JsError (ℚ × ℚ))
    (hd : ∀ c, destructure (some c) = Except.ok (xy c))
    (polygon : List (Option P)) (sum : JsNum) (c n : P) (id : Nat)
    (hn : (if id = polygon.length - 1 then arrayRead polygon 0 else arrayRead polygon (id + 1))
      = some n) :
    Ieee.areaCallback destructure polygon sum (some c) id
      = Except.ok (Ieee.add sum (Ieee.det (xy c) (xy n))) := by
  unfold Ieee.areaCallback
  simp only [hd, hn, Ieee.det]

theorem Ieee.reduceFrom_area_doubles {P : Type} (xy : P → ℚ × ℚ)
    (destructure : Option P → Except JsError (ℚ × ℚ))
    (hd : ∀ c, destructure (some c) = Except.ok (xy c))
    (p : List P) (a0 : P) (hp : p.head? = some a0) :
    ∀ (s pre : List P) (acc : JsNum), p = pre ++ s →
      reduceFrom (Ieee.areaCallback destructure (p.map some)) (s.map some) pre.length acc
        = Except.ok (Ieee.sumPath acc ((s ++ [a0]).map xy)) := by
  intro s
  induction s with
  | nil => intro pre acc _; simp [reduceFrom, Ieee.sumPath]
  | cons c s' ih =>
    intro pre acc hps
    have hlen : (p.map some).length = pre.length + 1 + s'.length := by
      rw [hps]; simp; omega
    have hnext : (if pre.length = (p.map some).length - 1 then arrayRead (p.map some) 0
        else arrayRead (p.map some) (pre.length + 1)) = some ((s' ++ [a0]).headD a0) := by
      cases s' with
      | nil =>
        have h0 : pre.length = (p.map some).length - 1 := by rw [hlen]; simp
        rw [if_pos h0]
        cases p with
        | nil => simp at hp
        | cons b t =>
          simp at hp
          rw [arrayRead_map_some, hp]
          simp
      | cons d s'' =>
        have h0 : ¬ pre.length = (p.map some).length - 1 := by
          rw [hlen]; simp only [List.length_cons]; omega
        rw [if_neg h0]
        have h1 : (pre ++ c :: d :: s'')[pre.length + 1]? = some d := by
          rw [List.getElem?_append_right (by omega)]
          simp
        rw [arrayRead_map_some, hps, h1]
        rfl
    have hstep := Ieee.areaCallback_some_doubles xy destructure hd (p.map some) acc c _ pre.length hnext
    simp only [List.map_cons, reduceFrom, hstep]
    have hrec := ih (pre ++ [c]) (Ieee.add acc (Ieee.det (xy c) (xy ((s' ++ [a0]).headD a0))))
      (by rw [hps]; simp)
    simp only [List.length_append, List.length_singleton] at hrec
    rw [hrec]
    congr 1
    cases s' with
    | nil => simp [Ieee.sumPath]
    | cons d s'' => simp [Ieee.sumPath]

theorem Ieee.getPolygonAreaWith_points_doubles {P : Type} (xy : P → ℚ × ℚ)
    (destructure : Option P → Except JsError (ℚ × ℚ))
    (hd : ∀ c, destructure (some c) = Except.ok (xy c)) (p : List P) :
    Ieee.getPolygonAreaWith destructure (p.map some)
      = Except.ok (Ieee.abs (Ieee.sumPath (JsNum.num 0) (closePath (p.map xy)))) := by
  cases p with
  | nil => simp [Ieee.getPolygonAreaWith, reduce, reduceFrom, closePath, Ieee.sumPath]
  | cons a t =>
    have h := Ieee.reduceFrom_area_doubles xy destructure hd (a :: t) a rfl (a :: t) [] (JsNum.num 0) rfl
    simp only [List.length_nil] at h
    unfold Ieee.getPolygonAreaWith reduce
    rw [h]
    simp only [List.map_append, List.map_cons, List.map_nil, closePath, List.cons_append]

theorem Ieee.V003.getPolygonArea_points_ieee_tuples (p : List FaceLandmarks.V003.Coords) :
    Ieee.V003.getPolygonArea (p.map some)
      = Except.ok (Ieee.abs (Ieee.sumPath (JsNum.num 0)
          (closePath (p.map (fun c : FaceLandmarks.V003.Coords => (c.x, c.y)))))) :=
  Ieee.getPolygonAreaWith_points_doubles (fun c : FaceLandmarks.V003.Coords => (c.x, c.y))
    FaceLandmarks.V003.destructure (by intro c; rfl) p

theorem Ieee.V106.getPolygonArea_points_ieee_records (p : List FaceLandmarks.V106.Keypoint) :
    Ieee.V106.getPolygonArea (p.map some)
      = Except.ok (Ieee.abs (Ieee.sumPath (JsNum.num 0)
          (closePath (p.map (fun c : FaceLandmarks.V106.Keypoint => (c.x, c.y)))))) :=
  Ieee.getPolygonAreaWith_points_doubles (fun c : FaceLandmarks.V106.Keypoint => (c.x, c.y))
    FaceLandmarks.V106.destructure (by intro c; rfl) p

/-! ## Evaluating the rounding -/

theorem Ieee.log_eq_of_bounds (q : ℚ) (e : ℤ) (hq : q ≠ 0) (hlo : (2 : ℚ) ^ e ≤ |q|)
    (hhi : |q| < (2 : ℚ) ^ (e + 1)) : Int.log 2 |q| = e := by
  have hpos : 0 < |q| := abs_pos.mpr hq
  have h1 : e ≤ Int.log 2 |q| :=
    (Int.zpow_le_iff_le_log (b := 2) (by norm_num) hpos).mp (by exact_mod_cast hlo)
  have h2 : Int.log 2 |q| < e + 1 :=
    (Int.lt_zpow_iff_log_lt (b := 2) (by norm_num) hpos).mp (by exact_mod_cast hhi)
  omega

theorem Ieee.roundDouble_eval (q : ℚ) (e m : ℤ) (hq : q ≠ 0) (hlo : (2 : ℚ) ^ e ≤ |q|)
    (hhi : |q| < (2 : ℚ) ^ (e + 1)) (he : -1022 ≤ e)
    (hm : Ieee.roundHalfEven (q / (2 : ℚ) ^ (e - 52)) = m)
    (hfin : |(m : ℚ) * (2 : ℚ) ^ (e - 52)| < (2 : ℚ) ^ (1024 : ℕ)) :
    Ieee.roundDouble q = JsNum.num (m * (2 : ℚ) ^ (e - 52)) := by
  have hlog := Ieee.log_eq_of_bounds q e hq hlo hhi
  unfold Ieee.roundDouble
  rw [if_neg hq]
  simp only [hlog, max_eq_left he, hm]
  rw [if_neg (not_le.mpr hfin)]

theorem Ieee.roundDouble_overflow (q : ℚ) (h : (2 : ℚ) ^ (1024 : ℕ) ≤ q) :
    Ieee.roundDouble q = JsNum.posInf := by
  have h2 : (0 : ℚ) < 2 := by norm_num
  have hpos : 0 < q := lt_of_lt_of_le (by positivity) h
  have hq : q ≠ 0 := ne_of_gt hpos
  have habs : |q| = q := abs_of_pos hpos
  have hpow : (2 : ℚ) ^ (1024 : ℕ) = (2 : ℚ) ^ (1024 : ℤ) := by norm_num
  have hlog : 1024 ≤ Int.log 2 |q| := by
    apply (Int.zpow_le_iff_le_log (b := 2) (by norm_num) (abs_pos.mpr hq)).mp
    rw [habs, Nat.cast_ofNat, ← hpow]
    exact h
  have hmax : max (Int.log 2 |q|) (-1022) = Int.log 2 |q| := max_eq_left (by omega)
  have hlo : (2 : ℚ) ^ Int.log 2 |q| ≤ q := le_of_le_of_eq (Ieee.zpow_log_bounds q hq).1 habs
  have hquot : ((2 ^ 52 : ℤ) : ℚ) ≤ q / (2 : ℚ) ^ (Int.log 2 |q| - 52) := by
    rw [le_div_iff₀ (zpow_pos h2 _)]
    have : ((2 ^ 52 : ℤ) : ℚ) = (2 : ℚ) ^ (52 : ℤ) := by norm_num
    rw [this, ← zpow_add₀ (by norm_num : (2 : ℚ) ≠ 0)]
    have he : (52 : ℤ) + (Int.log 2 |q| - 52) = Int.log 2 |q| := by ring
    rw [he]
    exact hlo
  have hm := Ieee.le_roundHalfEven _ (2 ^ 52) hquot
  have hmq : (2 : ℚ) ^ (52 : ℤ) ≤ (Ieee.roundHalfEven (q / (2 : ℚ) ^ (Int.log 2 |q| - 52)) : ℚ) := by
    have := (Int.cast_le (R := ℚ)).mpr hm
    norm_num at this ⊢
    exact this
  have hbig : (2 : ℚ) ^ (1024 : ℕ)
      ≤ |(Ieee.roundHalfEven (q / (2 : ℚ) ^ (Int.log 2 |q| - 52)) : ℚ)
          * (2 : ℚ) ^ (Int.log 2 |q| - 52)| := by
    have hnn : (0 : ℚ) ≤ (Ieee.roundHalfEven (q / (2 : ℚ) ^ (Int.log 2 |q| - 52)) : ℚ) :=
      le_trans (by positivity) hmq
    rw [abs_of_nonneg (mul_nonneg hnn (le_of_lt (zpow_pos h2 _)))]
    calc (2 : ℚ) ^ (1024 : ℕ) = (2 : ℚ) ^ (1024 : ℤ) := hpow
      _ ≤ (2 : ℚ) ^ (Int.log 2 |q|) := zpow_le_zpow_right₀ (by norm_num) hlog
      _ = (2 : ℚ) ^ (52 : ℤ) * (2 : ℚ) ^ (Int.log 2 |q| - 52) := by
          rw [← zpow_add₀ (by norm_num : (2 : ℚ) ≠ 0)]
          congr 1
          ring
      _ ≤ _ := mul_le_mul_of_nonneg_right hmq (le_of_lt (zpow_pos h2 _))
  unfold Ieee.roundDouble
  rw [if_neg hq]
  simp only [hmax]
  rw [if_pos hbig, if_pos hpos]

theorem Ieee.roundHalfEven_half (n : ℤ) (hn : n % 2 = 0) :
    Ieee.roundHalfEven ((n : ℚ) + 1 / 2) = n := by
  have hfl : ⌊(n : ℚ) + 1 / 2⌋ = n := by
    rw [Int.floor_eq_iff]
    constructor <;> norm_num
  unfold Ieee.roundHalfEven
  rw [hfl]
  have hfr : (n : ℚ) + 1 / 2 - n = 1 / 2 := by ring
  rw [hfr, if_neg (lt_irrefl _), if_neg (lt_irrefl _), if_pos hn]

theorem Ieee.add_isValue (a b : JsNum) : Ieee.IsValue (Ieee.add a b) := by
  cases a <;> cases b <;> simp only [Ieee.add, Ieee.IsValue]
  rename_i x y
  cases h : Ieee.roundDouble (x + y) with
  | num r => exact Ieee.isDouble_of_roundDouble _ _ h
  | posInf => trivial
  | negInf => trivial
  | nan => trivial

theorem Ieee.add_zero_of_isValue (s : JsNum) (h : Ieee.IsValue s) :
    Ieee.add s (JsNum.num 0) = s := by
  cases s with
  | num r =>
    simp only [Ieee.add, add_zero]
    exact Ieee.roundDouble_of_isDouble r h
  | posInf => rfl
  | negInf => rfl
  | nan => rfl

theorem Ieee.det_self (a : ℚ × ℚ) (v : ℚ)
    (h : Ieee.mul (JsNum.num a.1) (JsNum.num a.2) = JsNum.num v) :
    Ieee.det a a = JsNum.num 0 := by
  have h2 : Ieee.mul (JsNum.num a.2) (JsNum.num a.1) = JsNum.num v := by
    simp only [Ieee.mul] at h ⊢
    rw [mul_comm]
    exact h
  unfold Ieee.det
  rw [h, h2]
  simp only [Ieee.sub, sub_self, Ieee.roundDouble_zero, Ieee.div]
  norm_num [Ieee.roundDouble_zero]

/-! ## Sums of rounded determinants -/

theorem Ieee.sumPath_append_singleton (l : List (ℚ × ℚ)) (hl : l ≠ []) (z : ℚ × ℚ) :
    ∀ acc : JsNum, Ieee.sumPath acc (l ++ [z])
      = Ieee.add (Ieee.sumPath acc l) (Ieee.det (l.getLast hl) z) := by
  induction l with
  | nil => exact absurd rfl hl
  | cons a t ih =>
    intro acc
    cases t with
    | nil => simp [Ieee.sumPath]
    | cons b u =>
      have h1 := ih (by simp) (Ieee.add acc (Ieee.det a b))
      have h2 : Ieee.sumPath acc (a :: b :: u ++ [z])
          = Ieee.sumPath (Ieee.add acc (Ieee.det a b)) (b :: u ++ [z]) := rfl
      rw [h2, h1]
      simp [List.getLast_cons, Ieee.sumPath]

theorem Ieee.sumPath_closePath_isValue (L : List (ℚ × ℚ)) (h : L ≠ []) (acc : JsNum) :
    Ieee.IsValue (Ieee.sumPath acc (closePath L)) := by
  rw [closePath_eq L h, Ieee.sumPath_append_singleton L h]
  exact Ieee.add_isValue _ _

theorem Ieee.sumPath_closePath_repeat (L : List (ℚ × ℚ)) (h : L ≠ []) (v : ℚ)
    (hv : Ieee.mul (JsNum.num (L.head h).1) (JsNum.num (L.head h).2) = JsNum.num v)
    (acc : JsNum) :
    Ieee.sumPath acc (closePath (L ++ [L.head h])) = Ieee.sumPath acc (closePath L) := by
  have h2 : L ++ [L.head h] ≠ [] := by simp
  have hhead : (L ++ [L.head h]).head h2 = L.head h := by
    simp [List.head_append_of_ne_nil h]
  have hlast : (L ++ [L.head h]).getLast h2 = L.head h := by simp
  rw [closePath_eq _ h2, Ieee.sumPath_append_singleton _ h2, hhead, hlast,
    Ieee.det_self (L.head h) v hv, ← closePath_eq L h]
  exact Ieee.add_zero_of_isValue _ (Ieee.sumPath_closePath_isValue L h acc)

theorem Ieee.roundDouble_intCast (n : ℤ) (h : |n| < 2 ^ 53) :
    Ieee.roundDouble (n : ℚ) = JsNum.num n := by
  apply Ieee.roundDouble_of_isDouble
  refine ⟨n, 0, h, by norm_num, by simp, ?_⟩
  have h1 : |(n : ℚ)| < 2 ^ (53 : ℕ) := by
    have := (Int.cast_lt (R := ℚ)).mpr h
    rw [Int.cast_abs] at this
    norm_num at this ⊢
    exact this
  exact lt_trans h1 (by norm_num)

theorem Ieee.roundDouble_samples :
    Ieee.roundDouble 1 = JsNum.num 1 ∧ Ieee.roundDouble 2 = JsNum.num 2
    ∧ Ieee.roundDouble 6 = JsNum.num 6 ∧ Ieee.roundDouble 12 = JsNum.num 12
    ∧ Ieee.roundDouble (-1) = JsNum.num (-1) ∧ Ieee.roundDouble (-2) = JsNum.num (-2)
    ∧ Ieee.roundDouble 9007199254740992 = JsNum.num 9007199254740992
    ∧ Ieee.roundDouble (-9007199254740992) = JsNum.num (-9007199254740992)
    ∧ Ieee.roundDouble 18014398509481984 = JsNum.num 18014398509481984
    ∧ Ieee.roundDouble (-18014398509481984) = JsNum.num (-18014398509481984)
    ∧ Ieee.roundDouble (-9007199254740994) = JsNum.num (-9007199254740994)
    ∧ Ieee.roundDouble 9007199254740993 = JsNum.num 9007199254740992 := by
  refine ⟨?_, ?_, ?_, ?_, ?_, ?_, ?_, ?_, ?_, ?_, ?_, ?_⟩
  · simpa using Ieee.roundDouble_intCast 1 (by norm_num)
  · simpa using Ieee.roundDouble_intCast 2 (by norm_num)
  · simpa using Ieee.roundDouble_intCast 6 (by norm_num)
  · simpa using Ieee.roundDouble_intCast 12 (by norm_num)
  · simpa using Ieee.roundDouble_intCast (-1) (by norm_num)
  · simpa using Ieee.roundDouble_intCast (-2) (by norm_num)
  · exact Ieee.roundDouble_of_isDouble _
      ⟨1, 53, by norm_num, by norm_num, by norm_num, by norm_num⟩
  · exact Ieee.roundDouble_of_isDouble _
      ⟨-1, 53, by norm_num, by norm_num, by norm_num, by norm_num⟩
  · exact Ieee.roundDouble_of_isDouble _
      ⟨1, 54, by norm_num, by norm_num, by norm_num, by norm_num⟩
  · exact Ieee.roundDouble_of_isDouble _
      ⟨-1, 54, by norm_num, by norm_num, by norm_num, by norm_num⟩
  · exact Ieee.roundDouble_of_isDouble _
      ⟨-4503599627370497, 1, by norm_num, by norm_num, by norm_num, by norm_num⟩
  · have hm : Ieee.roundHalfEven ((9007199254740993 : ℚ) / (2 : ℚ) ^ ((53 : ℤ) - 52))
        = 4503599627370496 := by
      have h1 : (9007199254740993 : ℚ) / (2 : ℚ) ^ ((53 : ℤ) - 52)
          = ((4503599627370496 : ℤ) : ℚ) + 1 / 2 := by norm_num
      rw [h1]
      exact Ieee.roundHalfEven_half 4503599627370496 (by norm_num)
    have h := Ieee.roundDouble_eval 9007199254740993 53 4503599627370496 (by norm_num)
      (by norm_num) (by norm_num) (by norm_num) hm (by norm_num)
    rw [h]
    norm_num

/-! ## Claims on `getPolygonArea` in double arithmetic -/

theorem Ieee.mul_huge_huge :
    Ieee.mul (JsNum.num Ieee.huge) (JsNum.num Ieee.huge) = JsNum.posInf := by
  simp only [Ieee.mul]
  apply Ieee.roundDouble_overflow
  unfold Ieee.huge
  rw [← pow_add]
  exact pow_le_pow_right₀ (by norm_num) (by norm_num)

theorem Ieee.det_zero_left (b : ℚ × ℚ) : Ieee.det 0 b = JsNum.num 0 := by
  simp [Ieee.det, Ieee.mul, Ieee.sub, Ieee.div, Ieee.roundDouble_zero]

theorem Ieee.det_zero_right (a : ℚ × ℚ) : Ieee.det a 0 = JsNum.num 0 := by
  simp [Ieee.det, Ieee.mul, Ieee.sub, Ieee.div, Ieee.roundDouble_zero]

theorem Ieee.det_huge_huge :
    Ieee.det (Ieee.huge, Ieee.huge) (Ieee.huge, Ieee.huge) = JsNum.nan := by
  unfold Ieee.det
  rw [Ieee.mul_huge_huge]
  rfl

theorem Ieee.add_zero_zero : Ieee.add (JsNum.num 0) (JsNum.num 0) = JsNum.num 0 := by
  simp [Ieee.add, Ieee.roundDouble_zero]

theorem Ieee.det_origin_left (b : ℚ × ℚ) : Ieee.det ((0 : ℚ), (0 : ℚ)) b = JsNum.num 0 :=
  Ieee.det_zero_left b

theorem Ieee.det_origin_right (a : ℚ × ℚ) : Ieee.det a ((0 : ℚ), (0 : ℚ)) = JsNum.num 0 :=
  Ieee.det_zero_right a

/-! ## Rounded determinants on sample points -/

theorem Ieee.det_eval (a b : ℚ × ℚ) (m1 m2 s d : ℚ)
    (h1 : Ieee.roundDouble (a.1 * b.2) = JsNum.num m1)
    (h2 : Ieee.roundDouble (a.2 * b.1) = JsNum.num m2)
    (h3 : Ieee.roundDouble (m1 - m2) = JsNum.num s)
    (h4 : Ieee.roundDouble (s / 2) = JsNum.num d) :
    Ieee.det a b = JsNum.num d := by
  have h5 : Ieee.mul (JsNum.num a.1) (JsNum.num b.2) = JsNum.num m1 := h1
  have h6 : Ieee.mul (JsNum.num a.2) (JsNum.num b.1) = JsNum.num m2 := h2
  have h7 : Ieee.sub (JsNum.num m1) (JsNum.num m2) = JsNum.num s := h3
  have h8 : Ieee.div (JsNum.num s) (JsNum.num 2) = JsNum.num d := by
    simp only [Ieee.div]
    rw [if_neg (by norm_num)]
    exact h4
  unfold Ieee.det
  rw [h5, h6, h7, h8]

theorem Ieee.add_eval (a b c : ℚ) (h : Ieee.roundDouble (a + b) = JsNum.num c) :
    Ieee.add (JsNum.num a) (JsNum.num b) = JsNum.num c := h

theorem Ieee.roundDouble_small :
    Ieee.roundDouble 0 = JsNum.num 0 ∧ Ieee.roundDouble 1 = JsNum.num 1
    ∧ Ieee.roundDouble 2 = JsNum.num 2 ∧ Ieee.roundDouble (-1) = JsNum.num (-1)
    ∧ Ieee.roundDouble (-2) = JsNum.num (-2) :=
  ⟨Ieee.roundDouble_zero, Ieee.roundDouble_samples.1, Ieee.roundDouble_samples.2.1,
    Ieee.roundDouble_samples.2.2.2.2.1, Ieee.roundDouble_samples.2.2.2.2.2.1⟩

theorem Ieee.det_rounding_forward :
    Ieee.det ((18014398509481984 : ℚ), (0 : ℚ)) ((0 : ℚ), (1 : ℚ)) = JsNum.num 9007199254740992
    ∧ Ieee.det ((0 : ℚ), (1 : ℚ)) ((-2 : ℚ), (1 : ℚ)) = JsNum.num 1
    ∧ Ieee.det ((-2 : ℚ), (1 : ℚ)) ((-2 : ℚ), (0 : ℚ)) = JsNum.num 1
    ∧ Ieee.det ((-2 : ℚ), (0 : ℚ)) ((18014398509481984 : ℚ), (0 : ℚ)) = JsNum.num 0 := by
  obtain ⟨r0, r1, r2, rm1, rm2⟩ := Ieee.roundDouble_small
  have s53 := Ieee.roundDouble_samples.2.2.2.2.2.2.1
  have s54 := Ieee.roundDouble_samples.2.2.2.2.2.2.2.2.1
  refine ⟨?_, ?_, ?_, ?_⟩
  · refine Ieee.det_eval _ _ 18014398509481984 0 18014398509481984 9007199254740992 ?_ ?_ ?_ ?_
    · rw [show (((18014398509481984 : ℚ), (0 : ℚ)).1 * ((0 : ℚ), (1 : ℚ)).2 : ℚ)
        = 18014398509481984 from mul_one _]
      exact s54
    · rw [show ((((18014398509481984 : ℚ), (0 : ℚ)).2 * ((0 : ℚ), (1 : ℚ)).1 : ℚ)) = 0
        from mul_zero _]
      exact r0
    · rw [sub_zero]; exact s54
    · rw [show ((18014398509481984 : ℚ) / 2) = 9007199254740992 by norm_num]
      exact s53
  · refine Ieee.det_eval _ _ 0 (-2) 2 1 ?_ ?_ ?_ ?_
    · rw [show ((((0 : ℚ), (1 : ℚ)).1 * ((-2 : ℚ), (1 : ℚ)).2 : ℚ)) = 0 from zero_mul _]
      exact r0
    · rw [show ((((0 : ℚ), (1 : ℚ)).2 * ((-2 : ℚ), (1 : ℚ)).1 : ℚ)) = -2 from one_mul _]
      exact rm2
    · rw [show ((0 : ℚ) - (-2)) = 2 by norm_num]; exact r2
    · rw [show ((2 : ℚ) / 2) = 1 by norm_num]; exact r1
  · refine Ieee.det_eval _ _ 0 (-2) 2 1 ?_ ?_ ?_ ?_
    · rw [show ((((-2 : ℚ), (1 : ℚ)).1 * ((-2 : ℚ), (0 : ℚ)).2 : ℚ)) = 0 from mul_zero _]
      exact r0
    · rw [show ((((-2 : ℚ), (1 : ℚ)).2 * ((-2 : ℚ), (0 : ℚ)).1 : ℚ)) = -2 from one_mul _]
      exact rm2
    · rw [show ((0 : ℚ) - (-2)) = 2 by norm_num]; exact r2
    · rw [show ((2 : ℚ) / 2) = 1 by norm_num]; exact r1
  · refine Ieee.det_eval _ _ 0 0 0 0 ?_ ?_ ?_ ?_
    · rw [show ((((-2 : ℚ), (0 : ℚ)).1 * ((18014398509481984 : ℚ), (0 : ℚ)).2 : ℚ)) = 0
        from mul_zero _]
      exact r0
    · rw [show ((((-2 : ℚ), (0 : ℚ)).2 * ((18014398509481984 : ℚ), (0 : ℚ)).1 : ℚ)) = 0
        from zero_mul _]
      exact r0
    · rw [sub_zero]; exact r0
    · rw [zero_div]; exact r0

theorem Ieee.det_rounding_backward :
    Ieee.det ((-2 : ℚ), (0 : ℚ)) ((-2 : ℚ), (1 : ℚ)) = JsNum.num (-1)
    ∧ Ieee.det ((-2 : ℚ), (1 : ℚ)) ((0 : ℚ), (1 : ℚ)) = JsNum.num (-1)
    ∧ Ieee.det ((0 : ℚ), (1 : ℚ)) ((18014398509481984 : ℚ), (0 : ℚ))
        = JsNum.num (-9007199254740992)
    ∧ Ieee.det ((18014398509481984 : ℚ), (0 : ℚ)) ((-2 : ℚ), (0 : ℚ)) = JsNum.num 0 := by
  obtain ⟨r0, r1, r2, rm1, rm2⟩ := Ieee.roundDouble_small
  have sm53 := Ieee.roundDouble_samples.2.2.2.2.2.2.2.1
  have s54 := Ieee.roundDouble_samples.2.2.2.2.2.2.2.2.1
  have sm54 := Ieee.roundDouble_samples.2.2.2.2.2.2.2.2.2.1
  refine ⟨?_, ?_, ?_, ?_⟩
  · refine Ieee.det_eval _ _ (-2) 0 (-2) (-1) ?_ ?_ ?_ ?_
    · rw [show ((((-2 : ℚ), (0 : ℚ)).1 * ((-2 : ℚ), (1 : ℚ)).2 : ℚ)) = -2 from mul_one _]
      exact rm2
    · rw [show ((((-2 : ℚ), (0 : ℚ)).2 * ((-2 : ℚ), (1 : ℚ)).1 : ℚ)) = 0 from zero_mul _]
      exact r0
    · rw [sub_zero]; exact rm2
    · rw [show ((-2 : ℚ) / 2) = -1 by norm_num]; exact rm1
  · refine Ieee.det_eval _ _ (-2) 0 (-2) (-1) ?_ ?_ ?_ ?_
    · rw [show ((((-2 : ℚ), (1 : ℚ)).1 * ((0 : ℚ), (1 : ℚ)).2 : ℚ)) = -2 from mul_one _]
      exact rm2
    · rw [show ((((-2 : ℚ), (1 : ℚ)).2 * ((0 : ℚ), (1 : ℚ)).1 : ℚ)) = 0 from mul_zero _]
      exact r0
    · rw [sub_zero]; exact rm2
    · rw [show ((-2 : ℚ) / 2) = -1 by norm_num]; exact rm1
  · refine Ieee.det_eval _ _ 0 18014398509481984 (-18014398509481984) (-9007199254740992)
      ?_ ?_ ?_ ?_
    · rw [show ((((0 : ℚ), (1 : ℚ)).1 * ((18014398509481984 : ℚ), (0 : ℚ)).2 : ℚ)) = 0
        from zero_mul _]
      exact r0
    · rw [show ((((0 : ℚ), (1 : ℚ)).2 * ((18014398509481984 : ℚ), (0 : ℚ)).1 : ℚ))
        = 18014398509481984 from one_mul _]
      exact s54
    · rw [zero_sub]; exact sm54
    · rw [show ((-18014398509481984 : ℚ) / 2) = -9007199254740992 by norm_num]
      exact sm53
  · refine Ieee.det_eval _ _ 0 0 0 0 ?_ ?_ ?_ ?_
    · rw [show ((((18014398509481984 : ℚ), (0 : ℚ)).1 * ((-2 : ℚ), (0 : ℚ)).2 : ℚ)) = 0
        from mul_zero _]
      exact r0
    · rw [show ((((18014398509481984 : ℚ), (0 : ℚ)).2 * ((-2 : ℚ), (0 : ℚ)).1 : ℚ)) = 0
        from zero_mul _]
      exact r0
    · rw [sub_zero]; exact r0
    · rw [zero_div]; exact r0

theorem Ieee.add_rounding :
    Ieee.add (JsNum.num 0) (JsNum.num 9007199254740992) = JsNum.num 9007199254740992
    ∧ Ieee.add (JsNum.num 9007199254740992) (JsNum.num 1) = JsNum.num 9007199254740992
    ∧ Ieee.add (JsNum.num 9007199254740992) (JsNum.num 0) = JsNum.num 9007199254740992
    ∧ Ieee.add (JsNum.num 0) (JsNum.num (-1)) = JsNum.num (-1)
    ∧ Ieee.add (JsNum.num (-1)) (JsNum.num (-1)) = JsNum.num (-2)
    ∧ Ieee.add (JsNum.num (-2)) (JsNum.num (-9007199254740992))
        = JsNum.num (-9007199254740994)
    ∧ Ieee.add (JsNum.num (-9007199254740994)) (JsNum.num 0)
        = JsNum.num (-9007199254740994) := by
  obtain ⟨r0, r1, r2, rm1, rm2⟩ := Ieee.roundDouble_small
  have s53 := Ieee.roundDouble_samples.2.2.2.2.2.2.1
  have sm := Ieee.roundDouble_samples.2.2.2.2.2.2.2.2.2.2.1
  have stie := Ieee.roundDouble_samples.2.2.2.2.2.2.2.2.2.2.2
  refine ⟨?_, ?_, ?_, ?_, ?_, ?_, ?_⟩
  · apply Ieee.add_eval; rw [zero_add]; exact s53
  · apply Ieee.add_eval
    rw [show ((9007199254740992 : ℚ) + 1) = 9007199254740993 by norm_num]
    exact stie
  · apply Ieee.add_eval; rw [add_zero]; exact s53
  · apply Ieee.add_eval; rw [zero_add]; exact rm1
  · apply Ieee.add_eval
    rw [show ((-1 : ℚ) + -1) = -2 by norm_num]
    exact rm2
  · apply Ieee.add_eval
    rw [show ((-2 : ℚ) + -9007199254740992) = -9007199254740994 by norm_num]
    exact sm
  · apply Ieee.add_eval; rw [add_zero]; exact sm

theorem Ieee.sumPath_rounding :
    Ieee.sumPath (JsNum.num 0)
        [((18014398509481984 : ℚ), (0 : ℚ)), ((0 : ℚ), (1 : ℚ)), ((-2 : ℚ), (1 : ℚ)),
          ((-2 : ℚ), (0 : ℚ)), ((18014398509481984 : ℚ), (0 : ℚ))]
      = JsNum.num 9007199254740992
    ∧ Ieee.sumPath (JsNum.num 0)
        [((-2 : ℚ), (0 : ℚ)), ((-2 : ℚ), (1 : ℚ)), ((0 : ℚ), (1 : ℚ)),
          ((18014398509481984 : ℚ), (0 : ℚ)), ((-2 : ℚ), (0 : ℚ))]
      = JsNum.num (-9007199254740994) := by
  obtain ⟨f1, f2, f3, f4⟩ := Ieee.det_rounding_forward
  obtain ⟨b1, b2, b3, b4⟩ := Ieee.det_rounding_backward
  obtain ⟨a1, a2, a3, a4, a5, a6, a7⟩ := Ieee.add_rounding
  constructor
  · simp only [Ieee.sumPath]
    rw [f1, a1, f2, a2, f3, a2, f4, a3]
  · simp only [Ieee.sumPath]
    rw [b1, a4, b2, a5, b3, a6, b4, a7]

theorem Ieee.abs_rounding :
    Ieee.abs (JsNum.num 9007199254740992) = JsNum.num 9007199254740992
    ∧ Ieee.abs (JsNum.num (-9007199254740994)) = JsNum.num 9007199254740994 := by
  constructor
  · show JsNum.num |(9007199254740992 : ℚ)| = _
    rw [abs_of_nonneg (by norm_num)]
  · show JsNum.num |(-9007199254740994 : ℚ)| = _
    rw [abs_of_neg (by norm_num), neg_neg]

theorem Ieee.sumPath_huge :
    Ieee.abs (Ieee.sumPath (JsNum.num 0) [(Ieee.huge, Ieee.huge), (Ieee.huge, Ieee.huge)])
      = JsNum.nan := by
  simp only [Ieee.sumPath, Ieee.det_huge_huge]
  rfl

/-- Counterexample to C9 as stated: in double arithmetic `getPolygonArea` returns
`2 ^ 53` on the quadrilateral `(2 ^ 54, 0), (0, 1), (-2, 1), (-2, 0)` and
`2 ^ 53 + 2` on the reversed sequence, because the sum `2 ^ 53 + 1` rounds to
`2 ^ 53`; and it returns `NaN`, which is not `>= 0`, on the single point
`(2 ^ 600, 2 ^ 600)`, because `x0 * y0 - y0 * x0` is `Infinity - Infinity`. Both
versions behave the same. -/
theorem getPolygonArea_reverse_rounds :
    Ieee.V003.getPolygonArea (Ieee.roundingPolygon.map some)
      = Except.ok (JsNum.num 9007199254740992)
    ∧ Ieee.V003.getPolygonArea (Ieee.roundingPolygon.reverse.map some)
      = Except.ok (JsNum.num 9007199254740994)
    ∧ Ieee.V106.getPolygonArea (Ieee.roundingKeypoints.map some)
      = Except.ok (JsNum.num 9007199254740992)
    ∧ Ieee.V106.getPolygonArea (Ieee.roundingKeypoints.reverse.map some)
      = Except.ok (JsNum.num 9007199254740994)
    ∧ Ieee.V003.getPolygonArea ([⟨Ieee.huge, Ieee.huge⟩].map some) = Except.ok JsNum.nan
    ∧ Ieee.V106.getPolygonArea ([⟨Ieee.huge, Ieee.huge⟩].map some) = Except.ok JsNum.nan
    ∧ Ieee.le (JsNum.num 0) JsNum.nan = false := by
  refine ⟨?_, ?_, ?_, ?_, ?_, ?_, rfl⟩
  · rw [Ieee.V003.getPolygonArea_points_ieee_tuples]
    simp only [Ieee.roundingPolygon, List.map_cons, List.map_nil, closePath, List.cons_append,
      List.nil_append]
    rw [Ieee.sumPath_rounding.1, Ieee.abs_rounding.1]
  · rw [Ieee.V003.getPolygonArea_points_ieee_tuples]
    simp only [Ieee.roundingPolygon, List.reverse_cons, List.reverse_nil, List.map_cons,
      List.map_nil, closePath, List.cons_append, List.nil_append]
    rw [Ieee.sumPath_rounding.2, Ieee.abs_rounding.2]
  · rw [Ieee.V106.getPolygonArea_points_ieee_records]
    simp only [Ieee.roundingKeypoints, List.map_cons, List.map_nil, closePath,
      List.cons_append, List.nil_append]
    rw [Ieee.sumPath_rounding.1, Ieee.abs_rounding.1]
  · rw [Ieee.V106.getPolygonArea_points_ieee_records]
    simp only [Ieee.roundingKeypoints, List.reverse_cons, List.reverse_nil, List.map_cons,
      List.map_nil, closePath, List.cons_append, List.nil_append]
    rw [Ieee.sumPath_rounding.2, Ieee.abs_rounding.2]
  · rw [Ieee.V003.getPolygonArea_points_ieee_tuples]
    simp only [List.map_cons, List.map_nil, closePath, List.cons_append, List.nil_append]
    rw [Ieee.sumPath_huge]
  · rw [Ieee.V106.getPolygonArea_points_ieee_records]
    simp only [List.map_cons, List.map_nil, closePath, List.cons_append, List.nil_append]
    rw [Ieee.sumPath_huge]

/-! ## Integer coordinates: no operation rounds -/

theorem Ieee.roundDouble_half_int (m : ℤ) (h : |m| < 2 ^ 53) :
    Ieee.roundDouble ((m : ℚ) / 2) = JsNum.num ((m : ℚ) / 2) := by
  apply Ieee.roundDouble_of_isDouble
  have h1 : |(m : ℚ)| < 2 ^ (53 : ℕ) := by
    have := (Int.cast_lt (R := ℚ)).mpr h
    rw [Int.cast_abs] at this
    norm_num at this ⊢
    exact this
  refine ⟨m, -1, h, by norm_num, ?_, ?_⟩
  · rw [zpow_neg_one]; ring
  · rw [abs_div]
    have h2 : |(m : ℚ)| / |(2 : ℚ)| ≤ |(m : ℚ)| := by
      rw [abs_of_pos (by norm_num : (0 : ℚ) < 2)]
      have := abs_nonneg (m : ℚ)
      linarith
    exact lt_of_le_of_lt h2 (lt_trans h1 (by norm_num))

theorem Ieee.abs_mul_le_sq (x y : ℤ) (B : ℕ) (hx : |x| ≤ B) (hy : |y| ≤ B) :
    |x * y| ≤ (B : ℤ) ^ 2 := by
  rw [abs_mul, pow_two]
  exact mul_le_mul hx hy (abs_nonneg _) (by positivity)

theorem Ieee.det_int (a b : ℤ × ℤ) (B : ℕ) (ha : |a.1| ≤ B ∧ |a.2| ≤ B)
    (hb : |b.1| ≤ B ∧ |b.2| ≤ B) (hB : 2 * (B : ℤ) ^ 2 < 2 ^ 53) :
    |a.1 * b.2 - a.2 * b.1| ≤ 2 * (B : ℤ) ^ 2
    ∧ cross (intPair a) (intPair b) = ((a.1 * b.2 - a.2 * b.1 : ℤ) : ℚ)
    ∧ Ieee.det (intPair a) (intPair b)
        = JsNum.num (((a.1 * b.2 - a.2 * b.1 : ℤ) : ℚ) / 2) := by
  have h1 := Ieee.abs_mul_le_sq a.1 b.2 B ha.1 hb.2
  have h2 := Ieee.abs_mul_le_sq a.2 b.1 B ha.2 hb.1
  have h3 : |a.1 * b.2 - a.2 * b.1| ≤ 2 * (B : ℤ) ^ 2 := by
    have := abs_sub (a.1 * b.2) (a.2 * b.1)
    linarith
  have hB0 : (0 : ℤ) ≤ (B : ℤ) ^ 2 := by positivity
  refine ⟨h3, ?_, ?_⟩
  · simp only [cross, intPair]
    push_cast
    ring
  · refine Ieee.det_eval _ _ ((a.1 * b.2 : ℤ) : ℚ) ((a.2 * b.1 : ℤ) : ℚ)
      ((a.1 * b.2 - a.2 * b.1 : ℤ) : ℚ) _ ?_ ?_ ?_ ?_
    · have := Ieee.roundDouble_intCast (a.1 * b.2) (by linarith)
      simp only [intPair]
      rw [← this]
      push_cast
      rfl
    · have := Ieee.roundDouble_intCast (a.2 * b.1) (by linarith)
      simp only [intPair]
      rw [← this]
      push_cast
      rfl
    · have := Ieee.roundDouble_intCast (a.1 * b.2 - a.2 * b.1) (by linarith)
      rw [← this]
      push_cast
      rfl
    · exact Ieee.roundDouble_half_int _ (by linarith)

theorem Ieee.sumPath_int (B : ℕ) :
    ∀ (L : List (ℤ × ℤ)) (s : ℤ), (∀ c ∈ L, |c.1| ≤ B ∧ |c.2| ≤ B) →
      |s| + 2 * (B : ℤ) ^ 2 * L.length < 2 ^ 53 →
      Ieee.sumPath (JsNum.num ((s : ℚ) / 2)) (L.map intPair)
        = JsNum.num ((s : ℚ) / 2 + pathSum (L.map intPair) / 2) := by
  intro L
  induction L with
  | nil => intro s _ _; simp [Ieee.sumPath, pathSum]
  | cons a t ih =>
    intro s hmem hlen
    cases t with
    | nil => simp [Ieee.sumPath, pathSum]
    | cons b u =>
      have ha := hmem a (List.mem_cons_self _ _)
      have hb := hmem b (List.mem_cons_of_mem _ (List.mem_cons_self _ _))
      have hB0 : (0 : ℤ) ≤ (B : ℤ) ^ 2 := by positivity
      have hu : (0 : ℤ) ≤ 2 * (B : ℤ) ^ 2 * (u.length : ℤ) := by positivity
      simp only [List.length_cons, Nat.cast_add, Nat.cast_one] at hlen
      have hB : 2 * (B : ℤ) ^ 2 < 2 ^ 53 := by
        have := abs_nonneg s
        nlinarith
      obtain ⟨hc, hcross, hdet⟩ := Ieee.det_int a b B ha hb hB
      have hsc : |s + (a.1 * b.2 - a.2 * b.1)| ≤ |s| + 2 * (B : ℤ) ^ 2 :=
        le_trans (abs_add _ _) (by linarith)
      have hadd : Ieee.add (JsNum.num ((s : ℚ) / 2)) (Ieee.det (intPair a) (intPair b))
          = JsNum.num (((s + (a.1 * b.2 - a.2 * b.1) : ℤ) : ℚ) / 2) := by
        rw [hdet]
        apply Ieee.add_eval
        have := Ieee.roundDouble_half_int (s + (a.1 * b.2 - a.2 * b.1)) (by nlinarith)
        rw [← this]
        congr 1
        push_cast
        ring
      have hrec := ih (s + (a.1 * b.2 - a.2 * b.1))
        (fun c hc => hmem c (List.mem_cons_of_mem _ hc))
        (by simp only [List.length_cons, Nat.cast_add, Nat.cast_one]; nlinarith)
      simp only [List.map_cons, Ieee.sumPath, pathSum] at hrec ⊢
      rw [hadd, hrec, hcross]
      congr 1
      push_cast
      ring

theorem Ieee.abs_sumPath_closePath_int (p : List (ℤ × ℤ)) (B : ℕ)
    (hB : ∀ c ∈ p, |c.1| ≤ B ∧ |c.2| ≤ B) (hN : 2 * (p.length + 1) * B ^ 2 < 2 ^ 53) :
    Ieee.abs (Ieee.sumPath (JsNum.num 0) (closePath (p.map intPair)))
      = JsNum.num (|pathSum (closePath (p.map intPair))| / 2) := by
  cases p with
  | nil => simp [closePath, Ieee.sumPath, pathSum, Ieee.abs]
  | cons a t =>
    have hcl : closePath ((a :: t).map intPair) = (a :: t ++ [a]).map intPair := by
      simp [closePath]
    have hmem : ∀ c ∈ a :: t ++ [a], |c.1| ≤ B ∧ |c.2| ≤ B := by
      intro c hc
      rcases List.mem_append.mp hc with h | h
      · exact hB c h
      · rw [List.mem_singleton] at h
        rw [h]
        exact hB a (List.mem_cons_self _ _)
    have hlen : |(0 : ℤ)| + 2 * (B : ℤ) ^ 2 * ((a :: t ++ [a]).length : ℕ) < 2 ^ 53 := by
      have h1 : ((2 * ((a :: t).length + 1) * B ^ 2 : ℕ) : ℤ) < ((2 ^ 53 : ℕ) : ℤ) :=
        Int.ofNat_lt.mpr hN
      simp only [List.length_cons] at h1
      simp only [List.length_append, List.length_cons, List.length_nil, abs_zero, zero_add]
      push_cast at h1 ⊢
      linarith
    have h := Ieee.sumPath_int B (a :: t ++ [a]) 0 hmem hlen
    rw [Int.cast_zero, zero_div, zero_add] at h
    rw [hcl, h]
    simp only [Ieee.abs, abs_div]
    norm_num

/-! ## Reversal in double arithmetic -/

theorem Ieee.abs_nan_or_nonNegative (x : JsNum) :
    Ieee.abs x = JsNum.nan ∨ Ieee.NonNegative (Ieee.abs x) := by
  cases x with
  | num a =>
    right
    simp only [Ieee.abs, Ieee.NonNegative, Ieee.le, decide_eq_true_eq]
    exact abs_nonneg a
  | posInf => right; rfl
  | negInf => right; rfl
  | nan => left; rfl

theorem V003.map_intPoint_tuples (p : List (ℤ × ℤ)) :
    (p.map V003.intPoint).map (fun c : V003.Coords => (c.x, c.y)) = p.map intPair := by
  rw [List.map_map]
  rfl

theorem V106.map_intPoint_records (p : List (ℤ × ℤ)) :
    (p.map V106.intPoint).map (fun c : V106.Keypoint => (c.x, c.y)) = p.map intPair := by
  rw [List.map_map]
  rfl

theorem shoelaceArea_reverse (L : List (ℚ × ℚ)) : shoelaceArea L.reverse = shoelaceArea L := by
  unfold shoelaceArea
  rw [pathSum_closePath_reverse, abs_neg]

/-- C9 (as amended): in both versions and in double arithmetic, on every sequence
of points (the empty one and every reversed one included) `getPolygonArea`
returns a value, which is `NaN` or not negative; and when the coordinates are
integers of magnitude at most `B` with `2 * (N + 1) * B ^ 2 < 2 ^ 53`, `N` the
number of points, it returns the exact shoelace area, a number that is at least
0, and returns the same number on the reversed sequence. -/
theorem getPolygonArea_reverse_doubles :
    (∀ (p : List V003.Coords) (q : List V106.Keypoint),
      (∃ v, Ieee.V003.getPolygonArea (p.map some) = Except.ok v
          ∧ (v = JsNum.nan ∨ Ieee.NonNegative v))
      ∧ (∃ v, Ieee.V106.getPolygonArea (q.map some) = Except.ok v
          ∧ (v = JsNum.nan ∨ Ieee.NonNegative v)))
    ∧ (∀ (p : List (ℤ × ℤ)) (B : ℕ), (∀ c ∈ p, |c.1| ≤ B ∧ |c.2| ≤ B) →
        2 * (p.length + 1) * B ^ 2 < 2 ^ 53 →
        ∃ a : ℚ, 0 ≤ a ∧ a = shoelaceArea (p.map intPair)
          ∧ Ieee.V003.getPolygonArea ((p.map V003.intPoint).map some)
              = Except.ok (JsNum.num a)
          ∧ Ieee.V003.getPolygonArea ((p.map V003.intPoint).reverse.map some)
              = Except.ok (JsNum.num a)
          ∧ Ieee.V106.getPolygonArea ((p.map V106.intPoint).map some)
              = Except.ok (JsNum.num a)
          ∧ Ieee.V106.getPolygonArea ((p.map V106.intPoint).reverse.map some)
              = Except.ok (JsNum.num a)) := by
  constructor
  · intro p q
    exact ⟨⟨_, Ieee.V003.getPolygonArea_points_ieee_tuples p, Ieee.abs_nan_or_nonNegative _⟩,
      ⟨_, Ieee.V106.getPolygonArea_points_ieee_records q, Ieee.abs_nan_or_nonNegative _⟩⟩
  · intro p B hB hN
    have hBr : ∀ c ∈ p.reverse, |c.1| ≤ B ∧ |c.2| ≤ B :=
      fun c hc => hB c (List.mem_reverse.mp hc)
    have hNr : 2 * (p.reverse.length + 1) * B ^ 2 < 2 ^ 53 := by
      rw [List.length_reverse]; exact hN
    have h1 := Ieee.abs_sumPath_closePath_int p B hB hN
    have h2 := Ieee.abs_sumPath_closePath_int p.reverse B hBr hNr
    rw [List.map_reverse, pathSum_closePath_reverse, abs_neg, ← List.map_reverse] at h2
    refine ⟨shoelaceArea (p.map intPair), ?_, rfl, ?_, ?_, ?_, ?_⟩
    · unfold shoelaceArea; positivity
    · rw [Ieee.V003.getPolygonArea_points_ieee_tuples, V003.map_intPoint_tuples, h1]
      rfl
    · rw [← List.map_reverse, Ieee.V003.getPolygonArea_points_ieee_tuples,
        V003.map_intPoint_tuples, h2]
      rfl
    · rw [Ieee.V106.getPolygonArea_points_ieee_records, V106.map_intPoint_records, h1]
      rfl
    · rw [← List.map_reverse, Ieee.V106.getPolygonArea_points_ieee_records,
        V106.map_intPoint_records, h2]
      rfl

/-- Witness of C9 (as amended): the triangle (0,0),(4,0),(0,3), with `B = 4`, has
area 6 in double arithmetic in both orders. -/
theorem getPolygonArea_reverse_doubles_witness :
    (∀ c ∈ ([(0, 0), (4, 0), (0, 3)] : List (ℤ × ℤ)), |c.1| ≤ ((4 : ℕ) : ℤ) ∧ |c.2| ≤ ((4 : ℕ) : ℤ))
    ∧ 2 * (([(0, 0), (4, 0), (0, 3)] : List (ℤ × ℤ)).length + 1) * 4 ^ 2 < 2 ^ 53
    ∧ Ieee.V003.getPolygonArea
        ((([(0, 0), (4, 0), (0, 3)] : List (ℤ × ℤ)).map V003.intPoint).map some)
      = Except.ok (JsNum.num 6)
    ∧ Ieee.V003.getPolygonArea
        ((([(0, 0), (4, 0), (0, 3)] : List (ℤ × ℤ)).map V003.intPoint).reverse.map some)
      = Except.ok (JsNum.num 6) := by
  have hB : ∀ c ∈ ([(0, 0), (4, 0), (0, 3)] : List (ℤ × ℤ)),
      |c.1| ≤ ((4 : ℕ) : ℤ) ∧ |c.2| ≤ ((4 : ℕ) : ℤ) := by decide
  have hN : 2 * (([(0, 0), (4, 0), (0, 3)] : List (ℤ × ℤ)).length + 1) * 4 ^ 2 < 2 ^ 53 := by
    norm_num
  obtain ⟨a, _, ha, h1, h2, _, _⟩ :=
    getPolygonArea_reverse_doubles.2 [(0, 0), (4, 0), (0, 3)] 4 hB hN
  have h6 : a = 6 := by
    rw [ha]
    norm_num [shoelaceArea, closePath, pathSum, cross, intPair]
  rw [h6] at h1 h2
  exact ⟨hB, hN, h1, h2⟩

/-! ## A repeat of the first point in double arithmetic -/

theorem Ieee.map_append_head {P : Type} (f : P → ℚ × ℚ) (l : List P) (hl : l ≠ [])
    (hm : l.map f ≠ []) : (l ++ [l.head hl]).map f = l.map f ++ [(l.map f).head hm] := by
  cases l with
  | nil => exact absurd rfl hl
  | cons a t => simp

theorem Ieee.abs_zero_num : Ieee.abs (JsNum.num 0) = JsNum.num 0 := by
  simp [Ieee.abs]

theorem Ieee.triangle_tuples :
    ([⟨0, 0⟩, ⟨4, 0⟩, ⟨0, 3⟩] : List V003.Coords)
        = ([(0, 0), (4, 0), (0, 3)] : List (ℤ × ℤ)).map V003.intPoint
    ∧ ([⟨0, 0⟩, ⟨4, 0⟩, ⟨0, 3⟩, ⟨0, 0⟩] : List V003.Coords)
        = ([(0, 0), (4, 0), (0, 3), (0, 0)] : List (ℤ × ℤ)).map V003.intPoint := by
  constructor <;> simp [V003.intPoint]

theorem Ieee.triangle_records :
    ([⟨0, 0⟩, ⟨4, 0⟩, ⟨0, 3⟩] : List V106.Keypoint)
        = ([(0, 0), (4, 0), (0, 3)] : List (ℤ × ℤ)).map V106.intPoint
    ∧ ([⟨0, 0⟩, ⟨4, 0⟩, ⟨0, 3⟩, ⟨0, 0⟩] : List V106.Keypoint)
        = ([(0, 0), (4, 0), (0, 3), (0, 0)] : List (ℤ × ℤ)).map V106.intPoint := by
  constructor <;> simp [V106.intPoint]

theorem Ieee.triangle_area :
    Ieee.abs (Ieee.sumPath (JsNum.num 0)
        (closePath (([(0, 0), (4, 0), (0, 3)] : List (ℤ × ℤ)).map intPair))) = JsNum.num 6
    ∧ Ieee.abs (Ieee.sumPath (JsNum.num 0)
        (closePath (([(0, 0), (4, 0), (0, 3), (0, 0)] : List (ℤ × ℤ)).map intPair)))
      = JsNum.num 6 := by
  constructor
  · rw [Ieee.abs_sumPath_closePath_int _ 4 (by decide) (by norm_num)]
    norm_num [closePath, pathSum, cross, intPair]
  · rw [Ieee.abs_sumPath_closePath_int _ 4 (by decide) (by norm_num)]
    norm_num [closePath, pathSum, cross, intPair]

/-- C10 (as amended): in both versions and in double arithmetic, for every
non-empty sequence of points whose first point `(x0, y0)` has a product `x0 * y0`
that rounds to a finite double (it does not overflow), `getPolygonArea` returns
the same value on the sequence and on the sequence followed by a repeat of its
first point; the triangle (0,0),(4,0),(0,3) gives 6 either way. -/
theorem getPolygonArea_repeat_first_doubles (p : List V003.Coords) (q : List V106.Keypoint)
    (hp : p ≠ []) (hq : q ≠ []) (v w : ℚ)
    (hv : Ieee.mul (JsNum.num (p.head hp).x) (JsNum.num (p.head hp).y) = JsNum.num v)
    (hw : Ieee.mul (JsNum.num (q.head hq).x) (JsNum.num (q.head hq).y) = JsNum.num w) :
    (∃ a : JsNum, Ieee.V003.getPolygonArea (p.map some) = Except.ok a
        ∧ Ieee.V003.getPolygonArea ((p ++ [p.head hp]).map some) = Except.ok a)
    ∧ (∃ a : JsNum, Ieee.V106.getPolygonArea (q.map some) = Except.ok a
        ∧ Ieee.V106.getPolygonArea ((q ++ [q.head hq]).map some) = Except.ok a)
    ∧ Ieee.V003.getPolygonArea ([⟨0, 0⟩, ⟨4, 0⟩, ⟨0, 3⟩].map some)
        = Except.ok (JsNum.num 6)
    ∧ Ieee.V003.getPolygonArea ([⟨0, 0⟩, ⟨4, 0⟩, ⟨0, 3⟩, ⟨0, 0⟩].map some)
        = Except.ok (JsNum.num 6)
    ∧ Ieee.V106.getPolygonArea ([⟨0, 0⟩, ⟨4, 0⟩, ⟨0, 3⟩].map some)
        = Except.ok (JsNum.num 6)
    ∧ Ieee.V106.getPolygonArea ([⟨0, 0⟩, ⟨4, 0⟩, ⟨0, 3⟩, ⟨0, 0⟩].map some)
        = Except.ok (JsNum.num 6) := by
  have key : ∀ {P : Type} (f : P → ℚ × ℚ) (l : List P) (hl : l ≠ []) (u : ℚ),
      Ieee.mul (JsNum.num (f (l.head hl)).1) (JsNum.num (f (l.head hl)).2) = JsNum.num u →
      Ieee.sumPath (JsNum.num 0) (closePath ((l ++ [l.head hl]).map f))
        = Ieee.sumPath (JsNum.num 0) (closePath (l.map f)) := by
    intro P f l hl u hu
    have hm : l.map f ≠ [] := by simpa using hl
    have hhead : (l.map f).head hm = f (l.head hl) := by
      cases l with
      | nil => exact absurd rfl hl
      | cons a t => rfl
    rw [Ieee.map_append_head f l hl hm]
    exact Ieee.sumPath_closePath_repeat (l.map f) hm u (by rw [hhead]; exact hu) _
  refine ⟨⟨_, Ieee.V003.getPolygonArea_points_ieee_tuples p, ?_⟩,
    ⟨_, Ieee.V106.getPolygonArea_points_ieee_records q, ?_⟩, ?_, ?_, ?_, ?_⟩
  · rw [Ieee.V003.getPolygonArea_points_ieee_tuples,
      key (fun c : V003.Coords => (c.x, c.y)) p hp v hv]
  · rw [Ieee.V106.getPolygonArea_points_ieee_records,
      key (fun c : V106.Keypoint => (c.x, c.y)) q hq w hw]
  · rw [Ieee.triangle_tuples.1, Ieee.V003.getPolygonArea_points_ieee_tuples,
      V003.map_intPoint_tuples, Ieee.triangle_area.1]
  · rw [Ieee.triangle_tuples.2, Ieee.V003.getPolygonArea_points_ieee_tuples,
      V003.map_intPoint_tuples, Ieee.triangle_area.2]
  · rw [Ieee.triangle_records.1, Ieee.V106.getPolygonArea_points_ieee_records,
      V106.map_intPoint_records, Ieee.triangle_area.1]
  · rw [Ieee.triangle_records.2, Ieee.V106.getPolygonArea_points_ieee_records,
      V106.map_intPoint_records, Ieee.triangle_area.2]

theorem Ieee.mul_samples :
    Ieee.mul (JsNum.num 0) (JsNum.num 0) = JsNum.num 0
    ∧ Ieee.mul (JsNum.num 2) (JsNum.num 3) = JsNum.num 6 := by
  constructor
  · show Ieee.roundDouble (0 * 0) = JsNum.num 0
    rw [mul_zero]
    exact Ieee.roundDouble_zero
  · show Ieee.roundDouble (2 * 3) = JsNum.num 6
    rw [show ((2 : ℚ) * 3) = 6 by norm_num]
    exact Ieee.roundDouble_samples.2.2.1

/-- Witness of C10 (as amended): the unit square in 0.0.3, whose first point has
the product 0, and a two-point sequence in 1.0.6, whose first point has the
product 6. -/
theorem getPolygonArea_repeat_first_doubles_witness :
    Ieee.mul (JsNum.num 0) (JsNum.num 0) = JsNum.num 0
    ∧ Ieee.mul (JsNum.num 2) (JsNum.num 3) = JsNum.num 6
    ∧ (∃ a : JsNum,
        Ieee.V003.getPolygonArea ([⟨0, 0⟩, ⟨1, 0⟩, ⟨1, 1⟩, ⟨0, 1⟩].map some) = Except.ok a
        ∧ Ieee.V003.getPolygonArea ([⟨0, 0⟩, ⟨1, 0⟩, ⟨1, 1⟩, ⟨0, 1⟩, ⟨0, 0⟩].map some)
            = Except.ok a)
    ∧ (∃ a : JsNum, Ieee.V106.getPolygonArea ([⟨2, 3⟩, ⟨5, 1⟩].map some) = Except.ok a
        ∧ Ieee.V106.getPolygonArea ([⟨2, 3⟩, ⟨5, 1⟩, ⟨2, 3⟩].map some) = Except.ok a) :=
  ⟨Ieee.mul_samples.1, Ieee.mul_samples.2,
   (getPolygonArea_repeat_first_doubles [⟨0, 0⟩, ⟨1, 0⟩, ⟨1, 1⟩, ⟨0, 1⟩] [⟨2, 3⟩, ⟨5, 1⟩]
      (by simp) (by simp) 0 6 Ieee.mul_samples.1 Ieee.mul_samples.2).1,
   (getPolygonArea_repeat_first_doubles [⟨0, 0⟩, ⟨1, 0⟩, ⟨1, 1⟩, ⟨0, 1⟩] [⟨2, 3⟩, ⟨5, 1⟩]
      (by simp) (by simp) 0 6 Ieee.mul_samples.1 Ieee.mul_samples.2).2.1⟩

theorem Ieee.sumPath_overflow :
    Ieee.abs (Ieee.sumPath (JsNum.num 0)
        [(Ieee.huge, Ieee.huge), ((0 : ℚ), (0 : ℚ)), ((0 : ℚ), (0 : ℚ)),
          (Ieee.huge, Ieee.huge)]) = JsNum.num 0
    ∧ Ieee.abs (Ieee.sumPath (JsNum.num 0)
        [(Ieee.huge, Ieee.huge), ((0 : ℚ), (0 : ℚ)), ((0 : ℚ), (0 : ℚ)),
          (Ieee.huge, Ieee.huge), (Ieee.huge, Ieee.huge)]) = JsNum.nan := by
  constructor
  · simp only [Ieee.sumPath, Ieee.det_origin_left, Ieee.det_origin_right, Ieee.add_zero_zero,
      Ieee.abs_zero_num]
  · simp only [Ieee.sumPath, Ieee.det_origin_left, Ieee.det_origin_right, Ieee.det_huge_huge,
      Ieee.add_zero_zero]
    rfl

/-- Counterexample to C10 as stated: in double arithmetic the sequence
`(2 ^ 600, 2 ^ 600), (0, 0), (0, 0)` has area 0, and area `NaN` once its first
point is repeated at the end, because the added term `x0 * y0 - y0 * x0` is
`Infinity - Infinity`. Both versions behave the same. -/
theorem getPolygonArea_repeat_first_overflow :
    Ieee.V003.getPolygonArea ([⟨Ieee.huge, Ieee.huge⟩, ⟨0, 0⟩, ⟨0, 0⟩].map some)
      = Except.ok (JsNum.num 0)
    ∧ Ieee.V003.getPolygonArea
        ([⟨Ieee.huge, Ieee.huge⟩, ⟨0, 0⟩, ⟨0, 0⟩, ⟨Ieee.huge, Ieee.huge⟩].map some)
      = Except.ok JsNum.nan
    ∧ Ieee.V106.getPolygonArea ([⟨Ieee.huge, Ieee.huge⟩, ⟨0, 0⟩, ⟨0, 0⟩].map some)
      = Except.ok (JsNum.num 0)
    ∧ Ieee.V106.getPolygonArea
        ([⟨Ieee.huge, Ieee.huge⟩, ⟨0, 0⟩, ⟨0, 0⟩, ⟨Ieee.huge, Ieee.huge⟩].map some)
      = Except.ok JsNum.nan := by
  refine ⟨?_, ?_, ?_, ?_⟩
  · rw [Ieee.V003.getPolygonArea_points_ieee_tuples]
    simp only [List.map_cons, List.map_nil, closePath, List.cons_append, List.nil_append]
    rw [Ieee.sumPath_overflow.1]
  · rw [Ieee.V003.getPolygonArea_points_ieee_tuples]
    simp only [List.map_cons, List.map_nil, closePath, List.cons_append, List.nil_append]
    rw [Ieee.sumPath_overflow.2]
  · rw [Ieee.V106.getPolygonArea_points_ieee_records]
    simp only [List.map_cons, List.map_nil, closePath, List.cons_append, List.nil_append]
    rw [Ieee.sumPath_overflow.1]
  · rw [Ieee.V106.getPolygonArea_points_ieee_records]
    simp only [List.map_cons, List.map_nil, closePath, List.cons_append, List.nil_append]
    rw [Ieee.sumPath_overflow.2]

/-! ## Classification in double arithmetic -/

theorem Ieee.div_one_factor (factor : ℚ) (hf : 1 < factor) :
    ∃ y, Ieee.div (JsNum.num 1) (JsNum.num factor) = JsNum.num y ∧ 0 ≤ y ∧ y ≤ 1 := by
  have hf0 : factor ≠ 0 := by linarith
  have hpos : (0 : ℚ) < 1 / factor := by positivity
  have hle : 1 / factor ≤ 1 := by
    rw [div_le_one (by linarith)]
    linarith
  obtain ⟨y, hy, h0, h1⟩ := Ieee.roundDouble_le_one (1 / factor) hpos hle
  refine ⟨y, ?_, h0, h1⟩
  simp only [Ieee.div]
  rw [if_neg hf0]
  exact hy

theorem Ieee.classifyDirection_cases (x : JsNum) (factor : ℚ) (hf : 1 < factor)
    (hx : x ≠ JsNum.nan) :
    (Ieee.classifyDirection x factor = Direction.center ↔ Ieee.CenterCond x factor)
    ∧ (Ieee.classifyDirection x factor = Direction.left ↔ Ieee.LeftCond x factor)
    ∧ (Ieee.classifyDirection x factor = Direction.right ↔ Ieee.RightCond x factor)
    ∧ (Ieee.CenterCond x factor ∧ ¬ Ieee.LeftCond x factor ∧ ¬ Ieee.RightCond x factor
      ∨ ¬ Ieee.CenterCond x factor ∧ Ieee.LeftCond x factor ∧ ¬ Ieee.RightCond x factor
      ∨ ¬ Ieee.CenterCond x factor ∧ ¬ Ieee.LeftCond x factor ∧ Ieee.RightCond x factor) := by
  obtain ⟨y, hy, _, hy1⟩ := Ieee.div_one_factor factor hf
  unfold Ieee.classifyDirection Ieee.CenterCond Ieee.LeftCond Ieee.RightCond JsNum.gt
  rw [hy]
  cases x with
  | nan => exact absurd rfl hx
  | posInf => simp [JsNum.lt, Ieee.le]
  | negInf => simp [JsNum.lt, Ieee.le]
  | num a =>
    simp only [JsNum.lt, Ieee.le, decide_eq_true_eq]
    by_cases h1 : a < factor
    · have h1n : ¬ factor ≤ a := not_le.mpr h1
      by_cases h2 : y < a
      · have h2n : ¬ a ≤ y := not_le.mpr h2
        simp [h1, h2, h1n, h2n]
      · have h2n : a ≤ y := not_lt.mp h2
        simp [h1, h2, h1n, h2n]
    · have h3 : factor ≤ a := not_lt.mp h1
      have h4 : ¬ a ≤ y := by
        intro h; linarith
      have h5 : y < a := not_le.mp h4
      simp [h1, h3, h4]

theorem Ieee.classifyDirection_nan (factor : ℚ) :
    Ieee.classifyDirection JsNum.nan factor = Direction.left
    ∧ ¬ Ieee.CenterCond JsNum.nan factor ∧ ¬ Ieee.LeftCond JsNum.nan factor
    ∧ ¬ Ieee.RightCond JsNum.nan factor := by
  refine ⟨rfl, ?_, ?_, ?_⟩
  · intro h
    have h2 := h.2
    simp [JsNum.lt] at h2
  · intro h
    unfold Ieee.LeftCond at h
    cases hq : JsNum.num factor <;> simp [Ieee.le] at h
  · intro h
    unfold Ieee.RightCond at h
    simp [Ieee.le] at h

theorem Ieee.faceDirectionSpec_intro_doubles (l r : JsNum) (factor : ℚ) (hf : 1 < factor)
    (hn : Ieee.div l r ≠ JsNum.nan) :
    Ieee.FaceDirectionSpec
      { leftNoseArea := l, rightNoseArea := r, leftToRightRatio := Ieee.div l r,
        direction := Ieee.classifyDirection (Ieee.div l r) factor } l r factor := by
  obtain ⟨h1, h2, h3, h4⟩ := Ieee.classifyDirection_cases (Ieee.div l r) factor hf hn
  exact ⟨rfl, rfl, rfl, h1, h2, h3, h4⟩

/-! ## Undefined entries in double arithmetic -/

theorem Ieee.reduceFrom_area_undefined_doubles {P : Type}
    (destructure : Option P → Except JsError (ℚ × ℚ))
    (hnone : destructure none = Except.error JsError.typeError)
    (polygon : List (Option P)) :
    ∀ (s : List (Option P)) (k : Nat) (acc : JsNum), none ∈ s →
      ∃ e, reduceFrom (Ieee.areaCallback destructure polygon) s k acc = Except.error e := by
  intro s
  induction s with
  | nil => intro k acc h; simp at h
  | cons a s' ih =>
    intro k acc h
    unfold reduceFrom
    cases hcb : Ieee.areaCallback destructure polygon acc a k with
    | error e => exact ⟨e, rfl⟩
    | ok v =>
      simp only
      rcases List.mem_cons.mp h with h1 | h1
      · subst h1
        unfold Ieee.areaCallback at hcb
        rw [hnone] at hcb
        cases hcb
      · exact ih (k + 1) v h1

theorem Ieee.getPolygonAreaWith_undefined_doubles {P : Type}
    (destructure : Option P → Except JsError (ℚ × ℚ))
    (hnone : destructure none = Except.error JsError.typeError)
    (polygon : List (Option P)) (h : none ∈ polygon) :
    ∃ e, Ieee.getPolygonAreaWith destructure polygon = Except.error e := by
  obtain ⟨e, he⟩ := Ieee.reduceFrom_area_undefined_doubles destructure hnone polygon polygon 0
    (JsNum.num 0) h
  refine ⟨e, ?_⟩
  unfold Ieee.getPolygonAreaWith reduce
  rw [he]

/-! ## The body of `getFaceDirection` in double arithmetic -/

theorem Ieee.faceDirectionOf_right_area_doubles {P : Type} (xy : P → ℚ × ℚ)
    (destructure : Option P → Except JsError (ℚ × ℚ))
    (hd : ∀ c, destructure (some c) = Except.ok (xy c))
    (hnone : destructure none = Except.error JsError.typeError)
    (mesh : List P) (r : JsNum) (factor : ℚ)
    (harea : Ieee.getPolygonAreaWith destructure (selectMeshPoints mesh RIGHT_NOSE)
      = Except.ok r) :
    ∃ l, Ieee.getPolygonAreaWith destructure (selectMeshPoints mesh LEFT_NOSE) = Except.ok l
      ∧ Ieee.faceDirectionOf (Ieee.getPolygonAreaWith destructure)
          (Except.ok (selectMeshPoints mesh LEFT_NOSE))
          (Except.ok (selectMeshPoints mesh RIGHT_NOSE)) factor
        = Except.ok { leftNoseArea := l, rightNoseArea := r, leftToRightRatio := Ieee.div l r,
                      direction := Ieee.classifyDirection (Ieee.div l r) factor } := by
  by_cases hlen : 458 ≤ mesh.length
  · have hL := selectMeshPoints_in_range mesh LEFT_NOSE
      (fun i hi _ => lt_of_lt_of_le (LEFT_NOSE_bound i hi) hlen)
    rw [LEFT_NOSE_filter] at hL
    have hl := Ieee.getPolygonAreaWith_points_doubles xy destructure hd (pointsAt mesh LEFT_NOSE)
    rw [← hL] at hl
    refine ⟨_, hl, ?_⟩
    unfold Ieee.faceDirectionOf
    simp only [hl, harea]
  · exfalso
    obtain ⟨e, he⟩ := Ieee.getPolygonAreaWith_undefined_doubles destructure hnone _
      (selectMeshPoints_out_of_range mesh RIGHT_NOSE 457 (by decide) (by decide) (by omega))
    rw [he] at harea
    cases harea

theorem Ieee.getPolygonAreaWith_nil {P : Type}
    (destructure : Option P → Except JsError (ℚ × ℚ)) :
    Ieee.getPolygonAreaWith destructure [] = Except.ok (JsNum.num 0) := by
  simp [Ieee.getPolygonAreaWith, reduce, reduceFrom, Ieee.abs]

theorem Ieee.roundDouble_ne_nan (q : ℚ) : Ieee.roundDouble q ≠ JsNum.nan := by
  unfold Ieee.roundDouble
  simp only []
  split_ifs <;> exact fun h => JsNum.noConfusion h

theorem Ieee.div_num_ne_nan (a b : ℚ) (hb : b ≠ 0) :
    Ieee.div (JsNum.num a) (JsNum.num b) ≠ JsNum.nan := by
  simp only [Ieee.div]
  rw [if_neg hb]
  exact Ieee.roundDouble_ne_nan _

/-- C2 (as amended): in both versions and in double arithmetic, for every
`factor > 1` and every detection on which the selection of `RIGHT_NOSE` succeeds
and the right-nose area is computed, `getFaceDirection` returns a record whose
areas are the two polygon areas and whose ratio is the JavaScript quotient
`leftNoseArea / rightNoseArea`. Whenever that ratio is not `NaN`, as is the case
when both areas are finite and the right one is not 0, the direction is center
iff `1 / factor < ratio < factor`, left iff `ratio >= factor`, right iff
`ratio <= 1 / factor`, with the comparisons and the quotient `1 / factor` of
JavaScript, and exactly one of the three conditions holds. When the ratio is
`NaN` the direction is left and none of the three conditions holds. -/
theorem getFaceDirection_classifies_doubles (factor : ℚ) (hf : 1 < factor) :
    (∀ (pred : Option V003.Prediction) (sel : List (Option V003.Coords)) (r : JsNum),
      V003.getSelectedScaledMesh pred RIGHT_NOSE = Except.ok sel →
      Ieee.V003.getPolygonArea sel = Except.ok r →
      ∃ res lsel l, V003.getSelectedScaledMesh pred LEFT_NOSE = Except.ok lsel
        ∧ Ieee.V003.getPolygonArea lsel = Except.ok l
        ∧ Ieee.V003.getFaceDirection pred factor = Except.ok res
        ∧ res.leftNoseArea = l ∧ res.rightNoseArea = r
        ∧ res.leftToRightRatio = Ieee.div l r
        ∧ (Ieee.div l r ≠ JsNum.nan → Ieee.FaceDirectionSpec res l r factor)
        ∧ (Ieee.div l r = JsNum.nan → res.direction = Direction.left
            ∧ ¬ Ieee.CenterCond (Ieee.div l r) factor ∧ ¬ Ieee.LeftCond (Ieee.div l r) factor
            ∧ ¬ Ieee.RightCond (Ieee.div l r) factor))
    ∧ (∀ (pred : Option V106.Face) (sel : List (Option V106.Keypoint)) (r : JsNum),
      V106.getSelectedScaledMesh pred RIGHT_NOSE = Except.ok sel →
      Ieee.V106.getPolygonArea sel = Except.ok r →
      ∃ res lsel l, V106.getSelectedScaledMesh pred LEFT_NOSE = Except.ok lsel
        ∧ Ieee.V106.getPolygonArea lsel = Except.ok l
        ∧ Ieee.V106.getFaceDirection pred factor = Except.ok res
        ∧ res.leftNoseArea = l ∧ res.rightNoseArea = r
        ∧ res.leftToRightRatio = Ieee.div l r
        ∧ (Ieee.div l r ≠ JsNum.nan → Ieee.FaceDirectionSpec res l r factor)
        ∧ (Ieee.div l r = JsNum.nan → res.direction = Direction.left
            ∧ ¬ Ieee.CenterCond (Ieee.div l r) factor ∧ ¬ Ieee.LeftCond (Ieee.div l r) factor
            ∧ ¬ Ieee.RightCond (Ieee.div l r) factor))
    ∧ (∀ a b : ℚ, b ≠ 0 → Ieee.div (JsNum.num a) (JsNum.num b) ≠ JsNum.nan) := by
  have fin : ∀ (l r : JsNum),
      (Ieee.div l r ≠ JsNum.nan → Ieee.FaceDirectionSpec
        { leftNoseArea := l, rightNoseArea := r, leftToRightRatio := Ieee.div l r,
          direction := Ieee.classifyDirection (Ieee.div l r) factor } l r factor)
      ∧ (Ieee.div l r = JsNum.nan →
          Ieee.classifyDirection (Ieee.div l r) factor = Direction.left
          ∧ ¬ Ieee.CenterCond (Ieee.div l r) factor ∧ ¬ Ieee.LeftCond (Ieee.div l r) factor
          ∧ ¬ Ieee.RightCond (Ieee.div l r) factor) := by
    intro l r
    refine ⟨Ieee.faceDirectionSpec_intro_doubles l r factor hf, ?_⟩
    intro h
    rw [h]
    exact Ieee.classifyDirection_nan factor
  refine ⟨?_, ?_, Ieee.div_num_ne_nan⟩
  · intro pred sel r hsel harea
    obtain ⟨p, mesh, _, _, _, _, hall⟩ := V003.getSelectedScaledMesh_ok_tuples pred _ sel hsel
    rw [hall] at hsel
    cases hsel
    obtain ⟨l, h1, h2⟩ := Ieee.faceDirectionOf_right_area_doubles
      (fun c : V003.Coords => (c.x, c.y)) V003.destructure (by intro c; rfl) rfl
      mesh r factor harea
    refine ⟨_, _, l, hall LEFT_NOSE, h1, ?_, rfl, rfl, rfl, (fin l r).1, (fin l r).2⟩
    unfold Ieee.V003.getFaceDirection
    rw [hall, hall]
    exact h2
  · intro pred sel r hsel harea
    rcases V106.getSelectedScaledMesh_ok_records pred _ sel hsel with
      ⟨_, hall⟩ | ⟨p, mesh, _, _, _, hall⟩
    · rw [hall] at hsel
      cases hsel
      have h0 : Ieee.V106.getPolygonArea [] = Except.ok (JsNum.num 0) :=
        Ieee.getPolygonAreaWith_nil V106.destructure
      rw [h0] at harea
      cases harea
      refine ⟨_, _, JsNum.num 0, hall LEFT_NOSE, h0, ?_, rfl, rfl, rfl,
        (fin (JsNum.num 0) (JsNum.num 0)).1, (fin (JsNum.num 0) (JsNum.num 0)).2⟩
      unfold Ieee.V106.getFaceDirection Ieee.faceDirectionOf
      rw [hall, hall]
      simp only [h0]
    · rw [hall] at hsel
      cases hsel
      obtain ⟨l, h1, h2⟩ := Ieee.faceDirectionOf_right_area_doubles
        (fun c : V106.Keypoint => (c.x, c.y)) V106.destructure (by intro c; rfl) rfl
        mesh r factor harea
      refine ⟨_, _, l, hall LEFT_NOSE, h1, ?_, rfl, rfl, rfl, (fin l r).1, (fin l r).2⟩
      unfold Ieee.V106.getFaceDirection
      rw [hall, hall]
      exact h2

/-! ## Sample meshes in double arithmetic -/

theorem Ieee.faceDirectionResult_eq_doubles (res : Ieee.FaceDirectionResult) (l r q : JsNum)
    (d : Direction) (h1 : res.leftNoseArea = l) (h2 : res.rightNoseArea = r)
    (h3 : res.leftToRightRatio = q) (h4 : res.direction = d) :
    res = { leftNoseArea := l, rightNoseArea := r, leftToRightRatio := q, direction := d } := by
  cases res
  simp only at h1 h2 h3 h4
  subst h1 h2 h3 h4
  rfl

theorem Ieee.V003.getFaceDirection_mesh_doubles (p : FaceLandmarks.V003.Prediction)
    (mesh : List FaceLandmarks.V003.Coords)
    (hk : p.kind = "MediaPipePredictionValues") (hm : p.scaledMesh = some mesh)
    (hlen : 458 ≤ mesh.length) (factor : ℚ) :
    FaceLandmarks.V003.getSelectedScaledMesh (some p) LEFT_NOSE
      = Except.ok ((pointsAt mesh LEFT_NOSE).map some)
    ∧ FaceLandmarks.V003.getSelectedScaledMesh (some p) RIGHT_NOSE
      = Except.ok ((pointsAt mesh RIGHT_NOSE).map some)
    ∧ Ieee.V003.getFaceDirection (some p) factor
      = Ieee.faceDirectionOf Ieee.V003.getPolygonArea
          (Except.ok ((pointsAt mesh LEFT_NOSE).map some))
          (Except.ok ((pointsAt mesh RIGHT_NOSE).map some)) factor := by
  have hpos : 0 < mesh.length := by omega
  have hL := selectMeshPoints_in_range mesh LEFT_NOSE
    (fun i hi _ => lt_of_lt_of_le (LEFT_NOSE_bound i hi) hlen)
  have hR := selectMeshPoints_in_range mesh RIGHT_NOSE
    (fun i hi _ => lt_of_lt_of_le (RIGHT_NOSE_bound i hi) hlen)
  rw [LEFT_NOSE_filter] at hL
  rw [RIGHT_NOSE_filter] at hR
  have h1 : FaceLandmarks.V003.getSelectedScaledMesh (some p) LEFT_NOSE
      = Except.ok ((pointsAt mesh LEFT_NOSE).map some) := by
    rw [FaceLandmarks.V003.getSelectedScaledMesh_mesh_tuples p mesh hm, if_pos ⟨hk, hpos⟩, hL]
  have h2 : FaceLandmarks.V003.getSelectedScaledMesh (some p) RIGHT_NOSE
      = Except.ok ((pointsAt mesh RIGHT_NOSE).map some) := by
    rw [FaceLandmarks.V003.getSelectedScaledMesh_mesh_tuples p mesh hm, if_pos ⟨hk, hpos⟩, hR]
  refine ⟨h1, h2, ?_⟩
  unfold Ieee.V003.getFaceDirection
  rw [h1, h2]

theorem Ieee.noseMesh_length : Ieee.noseMesh.length = 468 := by
  simp [Ieee.noseMesh]

theorem Ieee.overflowMesh_length : Ieee.overflowMesh.length = 468 := by
  simp [Ieee.overflowMesh]

theorem Ieee.pointsAt_noseMesh :
    pointsAt Ieee.noseMesh LEFT_NOSE
      = ([(0, 0), (0, 0), (0, 0), (0, 0), (0, 0), (0, 0), (1, 0), (0, 1), (0, 0), (0, 0),
          (0, 0), (0, 0), (0, 0), (0, 0), (0, 0), (0, 0)] : List (ℤ × ℤ)).map V003.intPoint
    ∧ pointsAt Ieee.noseMesh RIGHT_NOSE
      = ([(0, 0), (0, 0), (0, 0), (0, 0), (0, 0), (0, 0), (2, 0), (0, 1), (0, 0), (0, 0),
          (0, 0), (0, 0), (0, 0), (0, 0), (0, 0), (0, 0)] : List (ℤ × ℤ)).map V003.intPoint := by
  constructor
  · simp [pointsAt, Ieee.noseMesh, LEFT_NOSE, List.getElem?_range, V003.intPoint]
  · simp [pointsAt, Ieee.noseMesh, RIGHT_NOSE, List.getElem?_range, V003.intPoint]

theorem Ieee.noseMesh_areas :
    Ieee.V003.getPolygonArea ((pointsAt Ieee.noseMesh LEFT_NOSE).map some)
      = Except.ok (JsNum.num (1 / 2))
    ∧ Ieee.V003.getPolygonArea ((pointsAt Ieee.noseMesh RIGHT_NOSE).map some)
      = Except.ok (JsNum.num 1) := by
  constructor
  · rw [Ieee.pointsAt_noseMesh.1, Ieee.V003.getPolygonArea_points_ieee_tuples,
      V003.map_intPoint_tuples, Ieee.abs_sumPath_closePath_int _ 1 (by decide) (by norm_num)]
    norm_num [closePath, pathSum, cross, intPair]
  · rw [Ieee.pointsAt_noseMesh.2, Ieee.V003.getPolygonArea_points_ieee_tuples,
      V003.map_intPoint_tuples, Ieee.abs_sumPath_closePath_int _ 2 (by decide) (by norm_num)]
    norm_num [closePath, pathSum, cross, intPair]

theorem Ieee.div_samples :
    Ieee.div (JsNum.num (1 / 2)) (JsNum.num 1) = JsNum.num (1 / 2)
    ∧ Ieee.div (JsNum.num 1) (JsNum.num 4) = JsNum.num (1 / 4) := by
  constructor
  · simp only [Ieee.div]
    rw [if_neg (by norm_num), div_one]
    exact Ieee.roundDouble_of_isDouble _
      ⟨1, -1, by norm_num, by norm_num, by norm_num,
        lt_of_le_of_lt (by rw [abs_of_pos (by norm_num)]; norm_num : |(1 / 2 : ℚ)| ≤ 1)
          (by norm_num)⟩
  · simp only [Ieee.div]
    rw [if_neg (by norm_num)]
    exact Ieee.roundDouble_of_isDouble _
      ⟨1, -2, by norm_num, by norm_num, by norm_num,
        lt_of_le_of_lt (by rw [abs_of_pos (by norm_num)]; norm_num : |(1 / 4 : ℚ)| ≤ 1)
          (by norm_num)⟩

theorem Ieee.centerCond_sample : Ieee.CenterCond (JsNum.num (1 / 2)) 4 := by
  unfold Ieee.CenterCond
  rw [Ieee.div_samples.2]
  constructor
  · simp only [JsNum.lt, decide_eq_true_eq]; norm_num
  · simp only [JsNum.lt, decide_eq_true_eq]; norm_num

/-- Witness of C2 (as amended): on the mesh of 468 points whose left-nose polygon
has area 1/2 and whose right-nose polygon has area 1, `getFaceDirection` with
factor 4 returns, in double arithmetic, the ratio 1/2 and the direction center. -/
theorem getFaceDirection_classifies_doubles_witness :
    (1 : ℚ) < 4
    ∧ Ieee.V003.getFaceDirection (some ⟨"MediaPipePredictionValues", some Ieee.noseMesh⟩) 4
      = Except.ok { leftNoseArea := JsNum.num (1 / 2), rightNoseArea := JsNum.num 1,
                    leftToRightRatio := JsNum.num (1 / 2), direction := Direction.center } := by
  have hf : (1 : ℚ) < 4 := by norm_num
  obtain ⟨hselL, hselR, _⟩ := Ieee.V003.getFaceDirection_mesh_doubles
    ⟨"MediaPipePredictionValues", some Ieee.noseMesh⟩ Ieee.noseMesh rfl rfl
    (by rw [Ieee.noseMesh_length]; decide) 4
  obtain ⟨res, lsel, l, h1, h2, h3, f1, f2, f3, hspec, _⟩ :=
    (getFaceDirection_classifies_doubles 4 hf).1 _ _ (JsNum.num 1) hselR Ieee.noseMesh_areas.2
  rw [hselL] at h1
  have h1b := Except.ok.inj h1
  rw [← h1b, Ieee.noseMesh_areas.1] at h2
  have h2b := Except.ok.inj h2
  rw [← h2b] at f1 f3 hspec
  rw [Ieee.div_samples.1] at f3 hspec
  have hne : JsNum.num (1 / 2) ≠ JsNum.nan := fun h => JsNum.noConfusion h
  have hs := hspec hne
  have hcc : Ieee.CenterCond (Ieee.div (JsNum.num (1 / 2)) (JsNum.num 1)) 4 := by
    rw [Ieee.div_samples.1]
    exact Ieee.centerCond_sample
  have hd : res.direction = Direction.center := hs.2.2.2.1.mpr hcc
  refine ⟨hf, ?_⟩
  rw [h3]
  exact congrArg Except.ok (Ieee.faceDirectionResult_eq_doubles _ _ _ _ _ f1 f2 f3 hd)

theorem Ieee.det_huge_cross :
    Ieee.det (Ieee.huge, (0 : ℚ)) ((0 : ℚ), Ieee.huge) = JsNum.posInf := by
  show Ieee.div (Ieee.sub (Ieee.mul (JsNum.num Ieee.huge) (JsNum.num Ieee.huge))
    (Ieee.mul (JsNum.num 0) (JsNum.num 0))) (JsNum.num 2) = JsNum.posInf
  rw [Ieee.mul_huge_huge, Ieee.mul_samples.1]
  simp [Ieee.sub, Ieee.div]

theorem Ieee.pointsAt_overflowMesh :
    pointsAt Ieee.overflowMesh LEFT_NOSE
      = [⟨Ieee.huge, 0⟩, ⟨0, Ieee.huge⟩, ⟨0, 0⟩, ⟨0, 0⟩, ⟨0, 0⟩, ⟨0, 0⟩, ⟨0, 0⟩, ⟨0, 0⟩,
         ⟨0, 0⟩, ⟨0, 0⟩, ⟨0, 0⟩, ⟨0, 0⟩, ⟨0, 0⟩, ⟨0, 0⟩, ⟨0, 0⟩, ⟨0, 0⟩]
    ∧ pointsAt Ieee.overflowMesh RIGHT_NOSE
      = [⟨Ieee.huge, 0⟩, ⟨0, Ieee.huge⟩, ⟨0, 0⟩, ⟨0, 0⟩, ⟨0, 0⟩, ⟨0, 0⟩, ⟨0, 0⟩, ⟨0, 0⟩,
         ⟨0, 0⟩, ⟨0, 0⟩, ⟨0, 0⟩, ⟨0, 0⟩, ⟨0, 0⟩, ⟨0, 0⟩, ⟨0, 0⟩, ⟨0, 0⟩] := by
  constructor
  · simp [pointsAt, Ieee.overflowMesh, LEFT_NOSE, List.getElem?_range]
  · simp [pointsAt, Ieee.overflowMesh, RIGHT_NOSE, List.getElem?_range]

theorem Ieee.sumPath_overflowMesh :
    Ieee.abs (Ieee.sumPath (JsNum.num 0)
      [(Ieee.huge, (0 : ℚ)), ((0 : ℚ), Ieee.huge), ((0 : ℚ), (0 : ℚ)), ((0 : ℚ), (0 : ℚ)),
       ((0 : ℚ), (0 : ℚ)), ((0 : ℚ), (0 : ℚ)), ((0 : ℚ), (0 : ℚ)), ((0 : ℚ), (0 : ℚ)),
       ((0 : ℚ), (0 : ℚ)), ((0 : ℚ), (0 : ℚ)), ((0 : ℚ), (0 : ℚ)), ((0 : ℚ), (0 : ℚ)),
       ((0 : ℚ), (0 : ℚ)), ((0 : ℚ), (0 : ℚ)), ((0 : ℚ), (0 : ℚ)), ((0 : ℚ), (0 : ℚ)),
       (Ieee.huge, (0 : ℚ))]) = JsNum.posInf := by
  simp only [Ieee.sumPath, Ieee.det_huge_cross, Ieee.det_origin_left, Ieee.det_origin_right]
  rfl

theorem Ieee.overflowMesh_areas :
    Ieee.V003.getPolygonArea ((pointsAt Ieee.overflowMesh LEFT_NOSE).map some)
      = Except.ok JsNum.posInf
    ∧ Ieee.V003.getPolygonArea ((pointsAt Ieee.overflowMesh RIGHT_NOSE).map some)
      = Except.ok JsNum.posInf := by
  constructor
  · rw [Ieee.pointsAt_overflowMesh.1, Ieee.V003.getPolygonArea_points_ieee_tuples]
    simp only [List.map_cons, List.map_nil, closePath, List.cons_append, List.nil_append]
    rw [Ieee.sumPath_overflowMesh]
  · rw [Ieee.pointsAt_overflowMesh.2, Ieee.V003.getPolygonArea_points_ieee_tuples]
    simp only [List.map_cons, List.map_nil, closePath, List.cons_append, List.nil_append]
    rw [Ieee.sumPath_overflowMesh]

/-- Counterexample to C2 as stated: on the 0.0.3 mesh of 468 points, all at the
origin but the point of index 6 at `(2 ^ 600, 0)` and the point of index 197 at
`(0, 2 ^ 600)`, the selection succeeds and both nose areas are `Infinity` in
double arithmetic (so the right-nose area is not 0); with factor 3
`getFaceDirection` returns the ratio `NaN` and the direction left, although
`ratio >= factor` is false, as are the other two conditions. -/
theorem getFaceDirection_overflow_nan :
    V003.getSelectedScaledMesh (some ⟨"MediaPipePredictionValues", some Ieee.overflowMesh⟩)
        RIGHT_NOSE = Except.ok ((pointsAt Ieee.overflowMesh RIGHT_NOSE).map some)
    ∧ Ieee.V003.getPolygonArea ((pointsAt Ieee.overflowMesh RIGHT_NOSE).map some)
        = Except.ok JsNum.posInf
    ∧ Ieee.V003.getFaceDirection
        (some ⟨"MediaPipePredictionValues", some Ieee.overflowMesh⟩) 3
      = Except.ok { leftNoseArea := JsNum.posInf, rightNoseArea := JsNum.posInf,
                    leftToRightRatio := JsNum.nan, direction := Direction.left }
    ∧ ¬ Ieee.LeftCond JsNum.nan 3 ∧ ¬ Ieee.CenterCond JsNum.nan 3
    ∧ ¬ Ieee.RightCond JsNum.nan 3 := by
  obtain ⟨_, hselR, hfd⟩ := Ieee.V003.getFaceDirection_mesh_doubles
    ⟨"MediaPipePredictionValues", some Ieee.overflowMesh⟩ Ieee.overflowMesh rfl rfl
    (by rw [Ieee.overflowMesh_length]; decide) 3
  have hc := Ieee.classifyDirection_nan 3
  refine ⟨hselR, Ieee.overflowMesh_areas.2, ?_, hc.2.2.1, hc.2.1, hc.2.2.2⟩
  rw [hfd]
  unfold Ieee.faceDirectionOf
  simp only [Ieee.overflowMesh_areas.1, Ieee.overflowMesh_areas.2]
  rfl

end FaceLandmarks
